import Mathlib

/-!
# Verification of the iDRAC inventory scanner / aggregator / NetBox sync core

A shallow embedding, in Lean 4, of the Go program that scans Dell iDRAC
BMCs over Redfish, aggregates host records into a model → configuration
hierarchy, and syncs custom fields to NetBox.  Every definition below is a
direct translation of a Go function of the repository (file and function
named in its doc comment).  Conventions of the embedding:

* Go `int` is modelled as `Int` (overflow is irrelevant at the program's
  scales), counters that the program only ever increments from zero are
  modelled as `Nat`;
* Go `float64` fields are modelled as `ℚ`; the Go conversion `int(x)`
  (truncation toward zero) is `goTruncate`, and Go's integer division is
  `Int.tdiv` (both truncate toward zero);
* Go `error` values are modelled as `Option String` (`none` = nil) where
  only nil-ness and the message matter;
* Go `time.Time` / `time.Duration` are modelled as `Nat` / `Int`
  (nanoseconds) where they matter, and by an uninterpreted counter where
  only their presence matters;
* Go maps paired with insertion-order slices are modelled as association
  lists in first-encounter order, which is exactly the state the Go code
  maintains;
* `sort.Slice` with a comparator `less` is modelled by Mathlib's
  `List.insertionSort` over the reflexive closure of `less`; the Go sort is
  unstable, but every list it is applied to below has pairwise distinct
  keys under a strict total comparator, so its output is the unique sorted
  permutation, which `insertionSort` also produces.
-/

/-- Go's conversion `int(q)` of a float to an integer: truncation toward
zero (`Int.tdiv` truncates toward zero and `q.den > 0`). -/
def goTruncate (q : ℚ) : Int := Int.tdiv q.num q.den

/-! ## Data model (`internal/models/models.go`) -/

/-- `models.CPUInfo`. -/
structure CPUInfo where
  socket : String
  model : String
  manufacturer : String
  brand : String
  cores : Int
  threads : Int
  maxSpeedMHz : Int
  operatingSpeedMHz : Int
  processorType : String
  architecture : String
  instructionSet : String
  health : String
deriving DecidableEq, Repr

/-- `models.MemoryInfo` (the Go field `Type` is rendered `type'`). -/
structure MemoryInfo where
  slot : String
  capacityMiB : Int
  type' : String
  technology : String
  baseModuleType : String
  speedMHz : Int
  manufacturer : String
  partNumber : String
  serialNumber : String
  rankCount : Int
  dataWidthBits : Int
  state : String
  health : String
deriving DecidableEq, Repr

/-- `models.MemoryInfo.IsPopulated`: the slot holds an enabled DIMM. -/
def MemoryInfo.IsPopulated (m : MemoryInfo) : Bool := m.state = "Enabled"

/-- `models.MemoryInfo.IsEmpty`: the slot is absent. -/
def MemoryInfo.IsEmpty (m : MemoryInfo) : Bool := m.state = "Absent"

/-- `models.DriveInfo`. -/
structure DriveInfo where
  name : String
  model : String
  manufacturer : String
  serialNumber : String
  capacityGB : ℚ
  mediaType : String
  protocol : String
  lifeLeftPct : ℚ
  health : String
deriving DecidableEq, Repr

/-- `models.GPUInfo`. -/
structure GPUInfo where
  slot : String
  model : String
  manufacturer : String
  memoryMiB : Int
  memoryType : String
  health : String
deriving DecidableEq, Repr

/-- `models.GPUInfo.MemoryGB`: VRAM in gigabytes (`float64(MemoryMiB)/1024`). -/
def GPUInfo.MemoryGB (g : GPUInfo) : ℚ := (g.memoryMiB : ℚ) / 1024

/-- `models.ServerInfo`: one host record.  `collectedAt` stands for the Go
`time.Time` wall-clock stamp (its value never matters to a claim). -/
structure ServerInfo where
  host : String
  name : String
  collectedAt : Nat
  error : Option String
  model : String
  manufacturer : String
  serialNumber : String
  serviceTag : String
  biosVersion : String
  hostName : String
  powerState : String
  cpus : List CPUInfo
  cpuCount : Int
  cpuModel : String
  memory : List MemoryInfo
  totalMemoryGiB : ℚ
  memorySlotsTotal : Int
  memorySlotsUsed : Int
  memorySlotsFree : Int
  drives : List DriveInfo
  driveCount : Int
  totalStorageTB : ℚ
  gpus : List GPUInfo
  gpuCount : Int
  powerConsumedWatts : Int
  powerPeakWatts : Int
deriving DecidableEq, Repr

/-- The Go zero value of `models.ServerInfo`. -/
def ServerInfo.zero : ServerInfo :=
  { host := "", name := "", collectedAt := 0, error := none, model := ""
    manufacturer := "", serialNumber := "", serviceTag := "", biosVersion := ""
    hostName := "", powerState := "", cpus := [], cpuCount := 0, cpuModel := ""
    memory := [], totalMemoryGiB := 0, memorySlotsTotal := 0
    memorySlotsUsed := 0, memorySlotsFree := 0, drives := [], driveCount := 0
    totalStorageTB := 0, gpus := [], gpuCount := 0, powerConsumedWatts := 0
    powerPeakWatts := 0 }

/-- `models.CollectionStats` (durations in nanoseconds). -/
structure CollectionStats where
  totalServers : Nat
  successfulCount : Nat
  failedCount : Nat
  totalDuration : Int
  averageDuration : Int
  fastestDuration : Int
  slowestDuration : Int
deriving DecidableEq, Repr

/-! ## Aggregation (`internal/models`, aggregation file with the two-level
model → configuration hierarchy: `HardwareFingerprint` with
`RAMModuleSizeGiB`, `ModelGroup`, `GroupByConfiguration`) -/

/-- `models.HardwareFingerprint`. -/
structure HardwareFingerprint where
  manufacturer : String
  model : String
  cpuCount : Int
  cpuModel : String
  cpuCoresPerSocket : Int
  cpuSpeedMHz : Int
  ramTotalGiB : Int
  ramModuleSizeGiB : Int
  ramType : String
  ramSpeedMHz : Int
  ramSlotsTotal : Int
  storageSummary : String
  gpuCount : Int
  gpuModel : String
  gpuMemoryGiB : Int
deriving DecidableEq, Repr

/-- `HardwareFingerprint.Key`: the config-subgroup discriminator string; it
excludes manufacturer and model (`fmt.Sprintf` with `|` separators). -/
def HardwareFingerprint.Key (f : HardwareFingerprint) : String :=
  toString f.cpuCount ++ "|" ++ f.cpuModel ++ "|" ++ toString f.cpuCoresPerSocket
    ++ "|" ++ toString f.cpuSpeedMHz ++ "|" ++ toString f.ramTotalGiB
    ++ "|" ++ toString f.ramModuleSizeGiB ++ "|" ++ f.ramType
    ++ "|" ++ toString f.ramSpeedMHz ++ "|" ++ toString f.ramSlotsTotal
    ++ "|" ++ f.storageSummary ++ "|" ++ toString f.gpuCount
    ++ "|" ++ f.gpuModel ++ "|" ++ toString f.gpuMemoryGiB

/-- `models.HardwareGroup`: servers sharing one hardware configuration
within a model group. -/
structure HardwareGroup where
  fingerprint : HardwareFingerprint
  count : Nat
  servers : List ServerInfo
  totalStorageTB : ℚ
deriving DecidableEq, Repr

/-- `models.ModelGroup`: all servers of one (manufacturer, model). -/
structure ModelGroup where
  manufacturer : String
  model : String
  totalCount : Nat
  configGroups : List HardwareGroup
deriving DecidableEq, Repr

/-- `models.AggregatedInventory` (`generatedAt` stands for `time.Now()`,
whose value no claim mentions). -/
structure AggregatedInventory where
  generatedAt : Nat
  totalServers : Nat
  successfulCount : Nat
  failedCount : Nat
  modelGroups : List ModelGroup
  failedServers : List ServerInfo
  stats : CollectionStats
deriving DecidableEq, Repr

/-! ### `NormalizeStorageSummary` -/

/-- The bucket key of `NormalizeStorageSummary`: Go's local
`driveKey{capacityGB, mediaType}`. -/
structure driveKey where
  capacityGB : Int
  mediaType : String
deriving DecidableEq, Repr

/-- The key of one drive: capacity rounded by `int(d.CapacityGB + 0.5)`
paired with the media type. -/
def driveKeyOf (d : DriveInfo) : driveKey :=
  { capacityGB := goTruncate (d.capacityGB + 1/2), mediaType := d.mediaType }

/-- The comparator passed to `sort.Slice` over the bucket keys: SSDs first,
then other media types in lexicographic order, capacity descending within a
media type.  (Go compares strings byte-wise; on UTF-8 that equals the
code-point order Lean's `<` uses.) -/
def bucketLess (ki kj : driveKey) : Bool :=
  if ki.mediaType ≠ kj.mediaType then
    if ki.mediaType = "SSD" then true
    else if kj.mediaType = "SSD" then false
    else ki.mediaType < kj.mediaType
  else ki.capacityGB > kj.capacityGB

/-- The reflexive closure of `bucketLess`: the total order along which the
Go sort arranges the (pairwise distinct) bucket keys. -/
def bucketLE (ki kj : driveKey) : Prop := bucketLess ki kj = true ∨ ki = kj

instance : DecidableRel bucketLE := fun _ _ => by unfold bucketLE; infer_instance

/-- State of the counting loop of `NormalizeStorageSummary`: the Go map
`counts` (as a function total on keys, zero outside the map) and the
first-encounter key list `keys`; a key is in the map iff it is in `keys`. -/
structure BucketState where
  keys : List driveKey
  counts : driveKey → Nat

/-- One iteration of the counting loop of `NormalizeStorageSummary`. -/
def bucketStep (st : BucketState) (d : DriveInfo) : BucketState :=
  let k := driveKeyOf d
  { keys := if k ∈ st.keys then st.keys else st.keys ++ [k]
    counts := fun k' => if k' = k then st.counts k' + 1 else st.counts k' }

/-- The bucket state after all drives are counted. -/
def bucketFold (drives : List DriveInfo) : BucketState :=
  drives.foldl bucketStep { keys := [], counts := fun _ => 0 }

/-- One `"<count>×<cap>GB <media>"` part (`fmt.Sprintf("%d×%dGB %s", …)`). -/
def bucketPart (counts : driveKey → Nat) (k : driveKey) : String :=
  toString (counts k) ++ "×" ++ toString k.capacityGB ++ "GB " ++ k.mediaType

/-- `models.NormalizeStorageSummary`: canonical storage summary string. -/
def NormalizeStorageSummary (drives : List DriveInfo) : String :=
  if drives = [] then "no drives"
  else
    let st := bucketFold drives
    String.intercalate ", " ((List.insertionSort bucketLE st.keys).map (bucketPart st.counts))

/-! ### `buildFingerprint` -/

/-- `models.buildFingerprint`: derive the fingerprint of one successfully
scanned server.  The three loops over `CPUs`, `Memory` and `GPUs` each stop
at the first matching element, i.e. they are `find?`. -/
def buildFingerprint (s : ServerInfo) : HardwareFingerprint :=
  let base : HardwareFingerprint :=
    { manufacturer := s.manufacturer
      model := s.model
      cpuCount := s.cpuCount
      cpuModel := s.cpuModel
      cpuCoresPerSocket := 0
      cpuSpeedMHz := 0
      ramTotalGiB := goTruncate (s.totalMemoryGiB + 1/2)
      ramModuleSizeGiB := 0
      ramType := ""
      ramSpeedMHz := 0
      ramSlotsTotal := s.memorySlotsTotal
      storageSummary := NormalizeStorageSummary s.drives
      gpuCount := s.gpuCount
      gpuModel := ""
      gpuMemoryGiB := 0 }
  let withCPU :=
    match s.cpus.find? (fun cpu => cpu.cores > 0) with
    | some cpu =>
        { base with
            cpuCoresPerSocket := cpu.cores
            cpuSpeedMHz := cpu.maxSpeedMHz
            cpuModel := if base.cpuModel = "" then cpu.model else base.cpuModel }
    | none => base
  let withRAM :=
    match s.memory.find? (fun mem => mem.IsPopulated) with
    | some mem =>
        { withCPU with
            ramType := mem.type'
            ramSpeedMHz := mem.speedMHz
            ramModuleSizeGiB := Int.tdiv (mem.capacityMiB + 512) 1024 }
    | none => withCPU
  match s.gpus with
  | g :: _ =>
      { withRAM with
          gpuModel := g.model
          gpuMemoryGiB := goTruncate (g.MemoryGB + 1/2) }
  | [] => withRAM

/-! ### `GroupByConfiguration` -/

/-- Reference insertion of one successful server into the config subgroups
of one model group: bump the first subgroup carrying the server's
fingerprint key, append a fresh subgroup when none does.  This is what the
shared `configIdxMap` lookup of the source computes when no two distinct
`(manufacturer, model)` pairs serialize to the same combined key;
`goRefAddModel_eq` below proves that reduction.  It is the reference
semantics the hierarchy claims are stated against, not a direct
transcription of the loop body. -/
def refAddConfig (fp : HardwareFingerprint) (srv : ServerInfo) :
    List HardwareGroup → List HardwareGroup
  | [] => [{ fingerprint := fp, count := 1, servers := [srv],
             totalStorageTB := srv.totalStorageTB }]
  | cg :: rest =>
    if cg.fingerprint.Key = fp.Key then
      { cg with count := cg.count + 1, servers := cg.servers ++ [srv] } :: rest
    else cg :: refAddConfig fp srv rest

/-- Reference insertion of one successful server into the model-group list
(the Go `modelMap` is keyed by the exact `(manufacturer, model)` struct,
with `modelOrder` keeping first-encounter order): find the group with the
same pair, create it if absent, bump `totalCount`, then place the server in
its config subgroup via the collision-free `refAddConfig`. -/
def refAddModel (srv : ServerInfo) : List ModelGroup → List ModelGroup
  | [] =>
    [{ manufacturer := srv.manufacturer, model := srv.model, totalCount := 1,
       configGroups := refAddConfig (buildFingerprint srv) srv [] }]
  | mg :: rest =>
    if mg.manufacturer = srv.manufacturer ∧ mg.model = srv.model then
      { mg with totalCount := mg.totalCount + 1,
                configGroups := refAddConfig (buildFingerprint srv) srv mg.configGroups } :: rest
    else mg :: refAddModel srv rest

/-- Running state of the reference main loop: the faithful `GoAggState`
below additionally carries the shared `configIdxMap`. -/
structure RefAggState where
  failedServers : List ServerInfo
  failedCount : Nat
  successfulCount : Nat
  modelGroups : List ModelGroup

/-- One iteration of the reference main loop: failed records go to
`FailedServers`, successful ones into the hierarchy via `refAddModel`. -/
def refAggStep (st : RefAggState) (srv : ServerInfo) : RefAggState :=
  match srv.error with
  | some _ =>
    { st with failedServers := st.failedServers ++ [srv],
              failedCount := st.failedCount + 1 }
  | none =>
    { st with successfulCount := st.successfulCount + 1,
              modelGroups := refAddModel srv st.modelGroups }

/-- Model groups sorted by `TotalCount` descending (the `sort.Slice`
comparator `TotalCount[i] > TotalCount[j]`, reflexively closed). -/
def mgGE (a b : ModelGroup) : Prop := b.totalCount ≤ a.totalCount

instance : DecidableRel mgGE := fun _ _ => Nat.decLe _ _

instance : IsTotal ModelGroup mgGE := ⟨fun a b => Nat.le_total b.totalCount a.totalCount⟩

instance : IsTrans ModelGroup mgGE := ⟨fun _ _ _ h1 h2 => Nat.le_trans h2 h1⟩

/-- Config subgroups sorted by `Count` descending. -/
def cgGE (a b : HardwareGroup) : Prop := b.count ≤ a.count

instance : DecidableRel cgGE := fun _ _ => Nat.decLe _ _

instance : IsTotal HardwareGroup cgGE := ⟨fun a b => Nat.le_total b.count a.count⟩

instance : IsTrans HardwareGroup cgGE := ⟨fun _ _ _ h1 h2 => Nat.le_trans h2 h1⟩

/-- The initial state of the reference main loop. -/
def refAggInit : RefAggState :=
  { failedServers := [], failedCount := 0, successfulCount := 0, modelGroups := [] }

/-- The shared `configIdxMap` key,
`fmt.Sprintf("%s|%s\x00%s", mk.manufacturer, mk.model, fp.Key())`.  The
`|` between manufacturer and model is ambiguous: `("a|b", "c")` and
`("a", "b|c")` serialize identically. -/
def combKeyOf (mfr md fpKey : String) : String :=
  mfr ++ "|" ++ md ++ "\x00" ++ fpKey

/-- The `configIdxMap` key of one record. -/
def ServerInfo.combKey (srv : ServerInfo) : String :=
  combKeyOf srv.manufacturer srv.model (buildFingerprint srv).Key

/-- Lookup in the Go map `configIdxMap`, modelled as an association list
(faithful because its keys are pairwise distinct: a binding is only ever
added after a failed lookup). -/
def lookupIdx : List (String × Nat) → String → Option Nat
  | [], _ => none
  | (k1, i) :: rest, k => if k1 = k then some i else lookupIdx rest k

/-- The per-server body of the `GroupByConfiguration` loop, as in the
source: find (or append) the server's model group by its exact
`(manufacturer, model)` pair, bump `TotalCount`, then consult the shared
`configIdxMap` under the combined key.  On a hit the server is appended to
`mg.ConfigGroups[idx]` of its own model group — `none` models the Go
runtime panic when `idx` is out of range there, which happens when the
binding was written by a colliding key of a different model group; when
`idx` is in range it may likewise denote a subgroup with a different
fingerprint.  On a miss a fresh subgroup is appended and the key bound to
its index. -/
def goAddModel (srv : ServerInfo) (fp : HardwareFingerprint)
    (cim : List (String × Nat)) :
    List ModelGroup → Option (List ModelGroup × List (String × Nat))
  | [] =>
    match lookupIdx cim (combKeyOf srv.manufacturer srv.model fp.Key) with
    | some _ => none
    | none =>
      some ([{ manufacturer := srv.manufacturer, model := srv.model, totalCount := 1,
               configGroups := [{ fingerprint := fp, count := 1, servers := [srv],
                                  totalStorageTB := srv.totalStorageTB }] }],
        cim ++ [(combKeyOf srv.manufacturer srv.model fp.Key, 0)])
  | mg :: rest =>
    if mg.manufacturer = srv.manufacturer ∧ mg.model = srv.model then
      match lookupIdx cim (combKeyOf srv.manufacturer srv.model fp.Key) with
      | some idx =>
        if h : idx < mg.configGroups.length then
          some ({ mg with totalCount := mg.totalCount + 1,
                          configGroups := mg.configGroups.set idx
                            { mg.configGroups.get ⟨idx, h⟩ with
                              count := (mg.configGroups.get ⟨idx, h⟩).count + 1,
                              servers := (mg.configGroups.get ⟨idx, h⟩).servers ++ [srv] } }
            :: rest, cim)
        else none
      | none =>
        some ({ mg with totalCount := mg.totalCount + 1,
                        configGroups := mg.configGroups
                          ++ [{ fingerprint := fp, count := 1, servers := [srv],
                                totalStorageTB := srv.totalStorageTB }] } :: rest,
          cim ++ [(combKeyOf srv.manufacturer srv.model fp.Key, mg.configGroups.length)])
    else
      match goAddModel srv fp cim rest with
      | none => none
      | some (rest1, cim1) => some (mg :: rest1, cim1)

/-- Running state of the main loop of `GroupByConfiguration`: accumulated
failures, counters, the model groups in first-encounter order (`modelOrder`
with the pointed-to values), and the shared `configIdxMap`. -/
structure GoAggState where
  failedServers : List ServerInfo
  failedCount : Nat
  successfulCount : Nat
  modelGroups : List ModelGroup
  configIdxMap : List (String × Nat)

/-- One iteration of the main loop: failed records go to `FailedServers`,
successful ones through `goAddModel`; `none` propagates the panic. -/
def goAggStep (st : GoAggState) (srv : ServerInfo) : Option GoAggState :=
  match srv.error with
  | some _ =>
    some { st with failedServers := st.failedServers ++ [srv],
                   failedCount := st.failedCount + 1 }
  | none =>
    match goAddModel srv (buildFingerprint srv) st.configIdxMap st.modelGroups with
    | none => none
    | some (mgs, cim) =>
      some { st with successfulCount := st.successfulCount + 1,
                     modelGroups := mgs, configIdxMap := cim }

/-- The main loop of `GroupByConfiguration`, aborted by a panic. -/
def goAggFold : GoAggState → List ServerInfo → Option GoAggState
  | st, [] => some st
  | st, srv :: rest =>
    match goAggStep st srv with
    | none => none
    | some st1 => goAggFold st1 rest

/-- The initial loop state: empty accumulators and an empty shared map. -/
def goAggInit : GoAggState :=
  { failedServers := [], failedCount := 0, successfulCount := 0,
    modelGroups := [], configIdxMap := [] }

/-- The inventory assembled from the final loop state: model groups sorted
by `TotalCount` descending, config subgroups within each model group by
`Count` descending. -/
def assembleInventory (servers : List ServerInfo) (stats : CollectionStats)
    (st : GoAggState) : AggregatedInventory :=
  { generatedAt := 0
    totalServers := servers.length
    successfulCount := st.successfulCount
    failedCount := st.failedCount
    modelGroups :=
      (List.insertionSort mgGE st.modelGroups).map
        (fun mg => { mg with configGroups := List.insertionSort cgGE mg.configGroups })
    failedServers := st.failedServers
    stats := stats }

/-- `models.GroupByConfiguration`: group servers into the two-level
model → configuration hierarchy with failed servers collected separately;
`none` models the Go runtime panic on an out-of-range shared-map index. -/
def GroupByConfiguration (servers : List ServerInfo) (stats : CollectionStats) :
    Option AggregatedInventory :=
  match goAggFold goAggInit servers with
  | none => none
  | some st => some (assembleInventory servers stats st)


/-! ## C1 — counting invariants of `GroupByConfiguration` -/

/-- Sum of `count` over a list of config subgroups. -/
def cgSum (cgs : List HardwareGroup) : Nat := (cgs.map (·.count)).sum

/-- Sum of `count` over all config subgroups of all model groups. -/
def mgSum (mgs : List ModelGroup) : Nat :=
  (mgs.map (fun mg => cgSum mg.configGroups)).sum

theorem refAggStep_fields (st : RefAggState) (srv : ServerInfo) :
    (srv.error = none →
      refAggStep st srv = { st with successfulCount := st.successfulCount + 1,
                                    modelGroups := refAddModel srv st.modelGroups }) ∧
    (∀ e, srv.error = some e →
      refAggStep st srv = { st with failedServers := st.failedServers ++ [srv],
                                    failedCount := st.failedCount + 1 }) := by
  constructor
  · intro h; simp [refAggStep, h]
  · intro e h; simp [refAggStep, h]

theorem cgSum_perm {cgs₁ cgs₂ : List HardwareGroup} (h : cgs₁.Perm cgs₂) :
    cgSum cgs₁ = cgSum cgs₂ := by
  simp only [cgSum]
  exact (h.map (fun x => x.count)).sum_eq

theorem mgSum_perm {mgs₁ mgs₂ : List ModelGroup} (h : mgs₁.Perm mgs₂) :
    mgSum mgs₁ = mgSum mgs₂ := by
  simp only [mgSum]
  exact (h.map (fun mg => cgSum mg.configGroups)).sum_eq

theorem mgSum_map_sortConfigs (mgs : List ModelGroup) :
    mgSum (mgs.map (fun mg =>
      { mg with configGroups := List.insertionSort cgGE mg.configGroups }))
      = mgSum mgs := by
  simp only [mgSum, List.map_map]
  congr 1
  refine List.map_congr_left (fun mg _ => ?_)
  exact cgSum_perm (List.perm_insertionSort cgGE mg.configGroups)

/-- The model groups of the inventory are, up to permutation, the model
groups accumulated by the main loop. -/
theorem assembleInventory_mgSum (servers : List ServerInfo)
    (stats : CollectionStats) (st : GoAggState) :
    mgSum (assembleInventory servers stats st).modelGroups
      = mgSum st.modelGroups := by
  show mgSum ((List.insertionSort mgGE _).map _) = _
  rw [mgSum_map_sortConfigs, mgSum_perm (List.perm_insertionSort mgGE _)]

theorem cgSum_set_bump (srv : ServerInfo) :
    ∀ (cgs : List HardwareGroup) (idx : Nat) (h : idx < cgs.length),
      cgSum (cgs.set idx
        { cgs.get ⟨idx, h⟩ with
          count := (cgs.get ⟨idx, h⟩).count + 1
          servers := (cgs.get ⟨idx, h⟩).servers ++ [srv] }) = cgSum cgs + 1
  | [], idx, h => absurd h (by simp)
  | cg :: rest, 0, h => by
    simp only [List.set, List.get, cgSum, List.map_cons, List.sum_cons]
    omega
  | cg :: rest, idx + 1, h => by
    simp only [List.set, List.get, cgSum, List.map_cons, List.sum_cons]
    have := cgSum_set_bump srv rest idx (by simpa using h)
    simp only [cgSum] at this
    omega

theorem goAddModel_mgSum (srv : ServerInfo) (fp : HardwareFingerprint)
    (cim : List (String × Nat)) :
    ∀ (mgs : List ModelGroup) (out : List ModelGroup × List (String × Nat)),
      goAddModel srv fp cim mgs = some out → mgSum out.1 = mgSum mgs + 1
  | [], out, h => by
    simp only [goAddModel] at h
    cases hl : lookupIdx cim (combKeyOf srv.manufacturer srv.model fp.Key) with
    | some i => simp [hl] at h
    | none =>
      simp only [hl] at h
      cases h
      simp [mgSum, cgSum]
  | mg :: rest, out, h => by
    simp only [goAddModel] at h
    by_cases hp : mg.manufacturer = srv.manufacturer ∧ mg.model = srv.model
    · rw [if_pos hp] at h
      cases hl : lookupIdx cim (combKeyOf srv.manufacturer srv.model fp.Key) with
      | some idx =>
        simp only [hl] at h
        by_cases hb : idx < mg.configGroups.length
        · rw [dif_pos hb] at h
          cases h
          simp only [mgSum, List.map_cons, List.sum_cons]
          rw [cgSum_set_bump srv mg.configGroups idx hb]
          omega
        · rw [dif_neg hb] at h
          exact absurd h (by simp)
      | none =>
        simp only [hl] at h
        cases h
        simp only [mgSum, List.map_cons, List.sum_cons, cgSum, List.map_append,
          List.sum_append, List.map_nil, List.sum_nil]
        omega
    · rw [if_neg hp] at h
      cases hrec : goAddModel srv fp cim rest with
      | none => simp [hrec] at h
      | some out1 =>
        simp only [hrec] at h
        cases h
        have := goAddModel_mgSum srv fp cim rest out1 hrec
        simp only [mgSum, List.map_cons, List.sum_cons] at this ⊢
        omega

theorem goAggFold_counts :
    ∀ (servers : List ServerInfo) (st st1 : GoAggState),
      goAggFold st servers = some st1 →
      st1.successfulCount = st.successfulCount + servers.countP (fun s => s.error.isNone) ∧
      st1.failedCount = st.failedCount + servers.countP (fun s => s.error.isSome) ∧
      st1.failedServers.length
        = st.failedServers.length + servers.countP (fun s => s.error.isSome) ∧
      mgSum st1.modelGroups
        = mgSum st.modelGroups + servers.countP (fun s => s.error.isNone) ∧
      st1.successfulCount + st1.failedCount
        = st.successfulCount + st.failedCount + servers.length
  | [], st, st1, h => by
    cases h
    simp
  | srv :: rest, st, st1, h => by
    simp only [goAggFold, goAggStep] at h
    cases herr : srv.error with
    | some e =>
      simp only [herr] at h
      obtain ⟨ih1, ih2, ih3, ih4, ih5⟩ := goAggFold_counts rest _ st1 h
      simp only [List.length_append, List.length_singleton] at ih3
      simp only [List.countP_cons, List.length_cons, herr, Option.isSome_some,
        Option.isNone_some, ih1, ih2, ih3, ih4, ih5]
      refine ⟨?_, ?_, ?_, ?_, ?_⟩ <;> (try simp) <;> omega
    | none =>
      simp only [herr] at h
      cases hadd : goAddModel srv (buildFingerprint srv) st.configIdxMap st.modelGroups with
      | none => simp [hadd] at h
      | some out =>
        simp only [hadd] at h
        obtain ⟨ih1, ih2, ih3, ih4, ih5⟩ := goAggFold_counts rest _ st1 h
        have hsum := goAddModel_mgSum srv (buildFingerprint srv) st.configIdxMap
          st.modelGroups out hadd
        simp only [List.countP_cons, List.length_cons, herr, Option.isSome_none,
          Option.isNone_none, ih1, ih2, ih3, ih4, ih5, hsum]
        refine ⟨?_, ?_, ?_, ?_, ?_⟩ <;> (try simp) <;> omega

/-- **C1** (corrected).  Whenever `GroupByConfiguration` returns an
inventory — on a shared-map key collision whose stored index is out of
range for the current model group Go panics instead, and no inventory
exists — the counts satisfy: `total_servers` equals the length of the
input list; `successful_count` equals the number of input records with nil
error and equals the sum of `count` over all config subgroups of all model
groups; `failed_count` equals the length of the failed-servers list; and
`successful_count + failed_count = total_servers`. -/
theorem groupByConfiguration_counts (servers : List ServerInfo)
    (stats : CollectionStats) (inv : AggregatedInventory)
    (h : GroupByConfiguration servers stats = some inv) :
    inv.totalServers = servers.length ∧
    inv.successfulCount = servers.countP (fun s => s.error.isNone) ∧
    inv.successfulCount = mgSum inv.modelGroups ∧
    inv.failedCount = inv.failedServers.length ∧
    inv.successfulCount + inv.failedCount = inv.totalServers := by
  simp only [GroupByConfiguration] at h
  cases hf : goAggFold goAggInit servers with
  | none => rw [hf] at h; exact absurd h (by simp)
  | some st =>
    rw [hf] at h
    cases h
    obtain ⟨h1, h2, h3, h4, h5⟩ := goAggFold_counts servers goAggInit st hf
    have h1a : st.successfulCount = servers.countP (fun s => s.error.isNone) := by
      simpa [goAggInit] using h1
    have h2a : st.failedCount = servers.countP (fun s => s.error.isSome) := by
      simpa [goAggInit] using h2
    have h3a : st.failedServers.length = servers.countP (fun s => s.error.isSome) := by
      simpa [goAggInit] using h3
    have h4a : mgSum st.modelGroups = servers.countP (fun s => s.error.isNone) := by
      simpa [goAggInit, mgSum] using h4
    have h5a : st.successfulCount + st.failedCount = servers.length := by
      simpa [goAggInit] using h5
    refine ⟨rfl, h1a, ?_, ?_, ?_⟩
    · show st.successfulCount = mgSum (assembleInventory servers stats st).modelGroups
      rw [assembleInventory_mgSum, h1a, h4a]
    · show st.failedCount = st.failedServers.length
      omega
    · show st.successfulCount + st.failedCount = servers.length
      omega

/-! ## C3 — `ram_module_size_gib` in the fingerprint -/

theorem buildFingerprint_ramModuleSizeGiB_eq (s : ServerInfo) :
    (buildFingerprint s).ramModuleSizeGiB =
      match s.memory.find? (fun m => m.IsPopulated) with
      | some m => Int.tdiv (m.capacityMiB + 512) 1024
      | none => 0 := by
  simp only [buildFingerprint]
  cases hmem : s.memory.find? (fun m => m.IsPopulated) with
  | none =>
    cases hcpu : s.cpus.find? (fun cpu => cpu.cores > 0) <;>
      cases hgpu : s.gpus <;> simp
  | some m =>
    cases hcpu : s.cpus.find? (fun cpu => cpu.cores > 0) <;>
      cases hgpu : s.gpus <;> simp

theorem fingerprint_eq_iff (f g : HardwareFingerprint) :
    f = g ↔ (f.manufacturer = g.manufacturer ∧ f.model = g.model ∧
      f.cpuCount = g.cpuCount ∧ f.cpuModel = g.cpuModel ∧
      f.cpuCoresPerSocket = g.cpuCoresPerSocket ∧ f.cpuSpeedMHz = g.cpuSpeedMHz ∧
      f.ramTotalGiB = g.ramTotalGiB ∧ f.ramModuleSizeGiB = g.ramModuleSizeGiB ∧
      f.ramType = g.ramType ∧ f.ramSpeedMHz = g.ramSpeedMHz ∧
      f.ramSlotsTotal = g.ramSlotsTotal ∧ f.storageSummary = g.storageSummary ∧
      f.gpuCount = g.gpuCount ∧ f.gpuModel = g.gpuModel ∧
      f.gpuMemoryGiB = g.gpuMemoryGiB) := by
  cases f; cases g; simp [HardwareFingerprint.mk.injEq]

/-- **C3.** The fingerprint built from a host record has a
`ram_module_size_gib` field that participates in fingerprint equality
(equality of fingerprints is componentwise over all fields, this one
included), and its value is `(capacity_mib + 512) / 1024` — Go's
truncating integer division — of the first DIMM whose state is `Enabled`,
or `0` when no DIMM is populated. -/
theorem buildFingerprint_ramModuleSize (s : ServerInfo) (f g : HardwareFingerprint) :
    ((buildFingerprint s).ramModuleSizeGiB =
       match s.memory.find? (fun m => m.IsPopulated) with
       | some m => Int.tdiv (m.capacityMiB + 512) 1024
       | none => 0) ∧
    (∀ m : MemoryInfo, m.IsPopulated = true ↔ m.state = "Enabled") ∧
    (f = g ↔ (f.manufacturer = g.manufacturer ∧ f.model = g.model ∧
      f.cpuCount = g.cpuCount ∧ f.cpuModel = g.cpuModel ∧
      f.cpuCoresPerSocket = g.cpuCoresPerSocket ∧ f.cpuSpeedMHz = g.cpuSpeedMHz ∧
      f.ramTotalGiB = g.ramTotalGiB ∧ f.ramModuleSizeGiB = g.ramModuleSizeGiB ∧
      f.ramType = g.ramType ∧ f.ramSpeedMHz = g.ramSpeedMHz ∧
      f.ramSlotsTotal = g.ramSlotsTotal ∧ f.storageSummary = g.storageSummary ∧
      f.gpuCount = g.gpuCount ∧ f.gpuModel = g.gpuModel ∧
      f.gpuMemoryGiB = g.gpuMemoryGiB)) :=
  ⟨buildFingerprint_ramModuleSizeGiB_eq s,
   fun m => by simp [MemoryInfo.IsPopulated],
   fingerprint_eq_iff f g⟩

/-! ## C4 — canonicality of `NormalizeStorageSummary` -/

def keyOrd (k : driveKey) : Lex (Nat × Lex (String × Int)) :=
  toLex ((if k.mediaType = "SSD" then 0 else 1), toLex (k.mediaType, -k.capacityGB))

theorem keyOrd_injective : Function.Injective keyOrd := by
  intro a b h
  simp only [keyOrd, toLex_inj, Prod.mk.injEq] at h
  obtain ⟨-, h2, h3⟩ := h
  cases a; cases b
  simp_all

theorem bucketLess_iff_lt (a b : driveKey) :
    bucketLess a b = true ↔ keyOrd a < keyOrd b := by
  simp only [bucketLess, keyOrd, Prod.Lex.lt_iff, decide_eq_true_eq]
  by_cases hm : a.mediaType = b.mediaType
  · simp only [hm, ne_eq, not_true_eq_false, if_false, ite_self,
      lt_self_iff_false, false_or, true_and, if_neg, decide_eq_true_eq]
    omega
  · rw [if_pos hm]
    by_cases ha : a.mediaType = "SSD"
    · have hb : ¬ b.mediaType = "SSD" := fun h => hm (ha.trans h.symm)
      simp [ha, hb]
    · by_cases hb : b.mediaType = "SSD"
      · simp [ha, hb, hm]
      · simp only [ha, hb, if_false, lt_self_iff_false, false_or, true_and,
          decide_eq_true_eq, hm, and_false, or_false]
        simp

theorem bucketLE_iff (a b : driveKey) : bucketLE a b ↔ keyOrd a ≤ keyOrd b := by
  rw [bucketLE, bucketLess_iff_lt, le_iff_lt_or_eq]
  constructor
  · rintro (h | rfl)
    · exact Or.inl h
    · exact Or.inr rfl
  · rintro (h | h)
    · exact Or.inl h
    · exact Or.inr (keyOrd_injective h)

instance : IsTrans driveKey bucketLE :=
  ⟨fun a b c h1 h2 =>
    (bucketLE_iff a c).2 (le_trans ((bucketLE_iff a b).1 h1) ((bucketLE_iff b c).1 h2))⟩

instance : IsTotal driveKey bucketLE :=
  ⟨fun a b => (le_total (keyOrd a) (keyOrd b)).imp (bucketLE_iff a b).2 (bucketLE_iff b a).2⟩

instance : IsAntisymm driveKey bucketLE :=
  ⟨fun a b h1 h2 =>
    keyOrd_injective (le_antisymm ((bucketLE_iff a b).1 h1) ((bucketLE_iff b a).1 h2))⟩

theorem bucketFold_counts (drives : List DriveInfo) (k : driveKey) :
    ∀ st : BucketState, (drives.foldl bucketStep st).counts k
      = st.counts k + drives.countP (fun d => driveKeyOf d = k) := by
  induction drives with
  | nil => intro st; simp
  | cons d rest ih =>
    intro st
    rw [List.foldl_cons, ih, List.countP_cons]
    by_cases h : driveKeyOf d = k
    · simp [bucketStep, h.symm]
      omega
    · have h' : ¬ k = driveKeyOf d := fun e => h e.symm
      simp [bucketStep, h, h']

theorem bucketFold_keys_mem (drives : List DriveInfo) (k : driveKey) :
    ∀ st : BucketState, (k ∈ (drives.foldl bucketStep st).keys
      ↔ k ∈ st.keys ∨ k ∈ drives.map driveKeyOf) := by
  induction drives with
  | nil => intro st; simp
  | cons d rest ih =>
    intro st
    rw [List.foldl_cons, ih]
    by_cases h : driveKeyOf d ∈ st.keys
    · simp only [bucketStep, if_pos h, List.map_cons, List.mem_cons]
      constructor
      · rintro (hk | hk)
        · exact Or.inl hk
        · exact Or.inr (Or.inr hk)
      · rintro (hk | rfl | hk)
        · exact Or.inl hk
        · exact Or.inl h
        · exact Or.inr hk
    · simp only [bucketStep, if_neg h, List.map_cons, List.mem_cons,
        List.mem_append, List.mem_singleton]
      tauto

theorem bucketFold_keys_nodup (drives : List DriveInfo) :
    ∀ st : BucketState, st.keys.Nodup → (drives.foldl bucketStep st).keys.Nodup := by
  induction drives with
  | nil => intro st h; exact h
  | cons d rest ih =>
    intro st h
    rw [List.foldl_cons]
    refine ih _ ?_
    by_cases hk : driveKeyOf d ∈ st.keys
    · simpa [bucketStep, hk] using h
    · simp only [bucketStep, if_neg hk]
      simp [List.nodup_append, h, hk]

theorem bucketFold_keys_nodup_init (drives : List DriveInfo) :
    (bucketFold drives).keys.Nodup :=
  bucketFold_keys_nodup drives _ (by simp)

theorem bucketFold_keys_mem_init (drives : List DriveInfo) (k : driveKey) :
    k ∈ (bucketFold drives).keys ↔ k ∈ drives.map driveKeyOf := by
  rw [bucketFold, bucketFold_keys_mem]
  simp

theorem sortKeys_eq_of_mem_iff {k1 k2 : List driveKey} (d1 : k1.Nodup) (d2 : k2.Nodup)
    (hmem : ∀ k, k ∈ k1 ↔ k ∈ k2) :
    List.insertionSort bucketLE k1 = List.insertionSort bucketLE k2 := by
  have hp : k1.Perm k2 := (List.perm_ext_iff_of_nodup d1 d2).2 hmem
  exact List.eq_of_perm_of_sorted
    (((List.perm_insertionSort bucketLE k1).trans hp).trans
      (List.perm_insertionSort bucketLE k2).symm)
    (List.sorted_insertionSort bucketLE k1) (List.sorted_insertionSort bucketLE k2)

/-- Modelled from the spec: the storage summary as §4.4 words it — group
drives by (rounded capacity GB, media type); one `"<count>×<cap>GB <media>"`
part per distinct pair, the count being the number of drives of that pair;
parts ordered SSDs first, then other media types lexicographically,
capacity descending within a media type; joined with `", "`; empty drive
list gives `"no drives"`. -/
def storageSummarySpec (drives : List DriveInfo) : String :=
  if drives = [] then "no drives"
  else
    String.intercalate ", "
      ((List.insertionSort bucketLE (drives.map driveKeyOf).dedup).map (fun k =>
        toString (drives.countP (fun d => driveKeyOf d = k)) ++ "×"
          ++ toString k.capacityGB ++ "GB " ++ k.mediaType))

theorem normalizeStorageSummary_eq_spec (drives : List DriveInfo) :
    NormalizeStorageSummary drives = storageSummarySpec drives := by
  by_cases hnil : drives = []
  · rw [NormalizeStorageSummary, storageSummarySpec, if_pos hnil, if_pos hnil]
  · rw [NormalizeStorageSummary, storageSummarySpec, if_neg hnil, if_neg hnil]
    show ", ".intercalate (List.map (bucketPart (bucketFold drives).counts)
        (List.insertionSort bucketLE (bucketFold drives).keys)) = _
    have hkeys : List.insertionSort bucketLE (bucketFold drives).keys
        = List.insertionSort bucketLE (drives.map driveKeyOf).dedup :=
      sortKeys_eq_of_mem_iff (bucketFold_keys_nodup_init drives)
        (List.nodup_dedup _)
        (fun k => by rw [bucketFold_keys_mem_init, List.mem_dedup])
    rw [hkeys]
    congr 1
    refine List.map_congr_left (fun k _ => ?_)
    rw [bucketPart, bucketFold, bucketFold_counts]
    simp

theorem normalizeStorageSummary_perm {l1 l2 : List DriveInfo} (h : l1.Perm l2) :
    NormalizeStorageSummary l1 = NormalizeStorageSummary l2 := by
  by_cases hnil : l1 = []
  · subst hnil
    rw [List.perm_nil.mp h.symm]
  · have hnil2 : l2 ≠ [] := fun e => hnil (List.perm_nil.mp (e ▸ h))
    rw [NormalizeStorageSummary, NormalizeStorageSummary, if_neg hnil, if_neg hnil2]
    show ", ".intercalate (List.map (bucketPart (bucketFold l1).counts)
        (List.insertionSort bucketLE (bucketFold l1).keys))
      = ", ".intercalate (List.map (bucketPart (bucketFold l2).counts)
        (List.insertionSort bucketLE (bucketFold l2).keys))
    have hkeys : List.insertionSort bucketLE (bucketFold l1).keys
        = List.insertionSort bucketLE (bucketFold l2).keys :=
      sortKeys_eq_of_mem_iff (bucketFold_keys_nodup_init l1)
        (bucketFold_keys_nodup_init l2)
        (fun k => by
          rw [bucketFold_keys_mem_init, bucketFold_keys_mem_init]
          exact (h.map driveKeyOf).mem_iff)
    rw [hkeys]
    congr 1
    refine List.map_congr_left (fun k _ => ?_)
    rw [bucketPart, bucketPart, bucketFold, bucketFold, bucketFold_counts,
      bucketFold_counts, h.countP_eq]

/-- **C4.** `NormalizeStorageSummary` returns `"no drives"` for the empty
drive list; its result depends only on the multiset of
(rounded capacity GB, media type) pairs — permuting the drive list never
changes it — and it equals the canonical form of the specification: one
`"<count>×<cap>GB <media>"` bucket per distinct pair, SSDs first, then
other media types lexicographically, capacity descending within a media
type, joined with `", "`. -/
theorem normalizeStorageSummary_canonical (drives l1 l2 : List DriveInfo) :
    NormalizeStorageSummary [] = "no drives" ∧
    (l1.Perm l2 → NormalizeStorageSummary l1 = NormalizeStorageSummary l2) ∧
    NormalizeStorageSummary drives = storageSummarySpec drives :=
  ⟨rfl, fun h => normalizeStorageSummary_perm h,
   normalizeStorageSummary_eq_spec drives⟩

/-! ## C2 — the two-level grouping hierarchy -/

/-- Every server of a config subgroup is successful, carries the model
group's exact manufacturer/model pair, and has the subgroup's fingerprint
key. -/
def cgWellFormed (mf md : String) (cg : HardwareGroup) : Prop :=
  ∀ srv ∈ cg.servers, srv.error = none ∧ srv.manufacturer = mf ∧ srv.model = md ∧
    (buildFingerprint srv).Key = cg.fingerprint.Key

/-- The fingerprint keys of the config subgroups of a model group. -/
def configKeys (mg : ModelGroup) : List String :=
  mg.configGroups.map (fun cg => cg.fingerprint.Key)

/-- The (manufacturer, model) keys of a model-group list. -/
def modelKeys (mgs : List ModelGroup) : List (String × String) :=
  mgs.map (fun mg => (mg.manufacturer, mg.model))

/-- The server appears in a subgroup of the model group bearing its exact
(manufacturer, model) pair, and that subgroup bears its fingerprint key. -/
def containsServer (mgs : List ModelGroup) (srv : ServerInfo) : Prop :=
  ∃ mg ∈ mgs, mg.manufacturer = srv.manufacturer ∧ mg.model = srv.model ∧
    ∃ cg ∈ mg.configGroups,
      cg.fingerprint.Key = (buildFingerprint srv).Key ∧ srv ∈ cg.servers

theorem refAddConfig_keys (fp : HardwareFingerprint) (srv : ServerInfo) :
    ∀ cgs : List HardwareGroup,
      (refAddConfig fp srv cgs).map (fun cg => cg.fingerprint.Key)
        = if fp.Key ∈ cgs.map (fun cg => cg.fingerprint.Key)
          then cgs.map (fun cg => cg.fingerprint.Key)
          else cgs.map (fun cg => cg.fingerprint.Key) ++ [fp.Key]
  | [] => by simp [refAddConfig]
  | cg :: rest => by
    by_cases h : cg.fingerprint.Key = fp.Key
    · simp [refAddConfig, h]
    · have hne : ¬ fp.Key = cg.fingerprint.Key := fun e => h e.symm
      simp only [refAddConfig, if_neg h, List.map_cons, refAddConfig_keys fp srv rest,
        List.mem_cons, hne, false_or]
      by_cases hmem : fp.Key ∈ rest.map (fun cg => cg.fingerprint.Key)
      · simp [hmem]
      · simp [hmem]

theorem refAddConfig_wf (fp : HardwareFingerprint) (srv : ServerInfo)
    (mf md : String) (hsrv : srv.error = none) (hmf : srv.manufacturer = mf)
    (hmd : srv.model = md) (hfp : fp = buildFingerprint srv) :
    ∀ cgs : List HardwareGroup, (∀ cg ∈ cgs, cgWellFormed mf md cg) →
      ∀ cg ∈ refAddConfig fp srv cgs, cgWellFormed mf md cg
  | [], _ => by
    intro cg hcg
    simp only [refAddConfig, List.mem_singleton] at hcg
    subst hcg
    intro s hs
    simp only [List.mem_singleton] at hs
    subst hs
    exact ⟨hsrv, hmf, hmd, by rw [hfp]⟩
  | cg :: rest, hall => by
    intro cg' hcg'
    by_cases h : cg.fingerprint.Key = fp.Key
    · simp only [refAddConfig, if_pos h, List.mem_cons] at hcg'
      rcases hcg' with rfl | hcg'
      · intro s hs
        simp only [List.mem_append, List.mem_singleton] at hs
        rcases hs with hs | rfl
        · exact hall cg (List.mem_cons_self _ _) s hs
        · exact ⟨hsrv, hmf, hmd, by rw [hfp] at h; exact h.symm⟩
      · exact hall cg' (List.mem_cons_of_mem _ hcg')
    · simp only [refAddConfig, if_neg h, List.mem_cons] at hcg'
      rcases hcg' with rfl | hcg'
      · exact hall cg' (List.mem_cons_self _ _)
      · exact refAddConfig_wf fp srv mf md hsrv hmf hmd hfp rest
          (fun c hc => hall c (List.mem_cons_of_mem _ hc)) cg' hcg'

theorem refAddConfig_contains (fp : HardwareFingerprint) (srv : ServerInfo) :
    ∀ cgs : List HardwareGroup,
      ∃ cg ∈ refAddConfig fp srv cgs, cg.fingerprint.Key = fp.Key ∧ srv ∈ cg.servers
  | [] => by
    refine ⟨_, List.mem_singleton_self _, rfl, ?_⟩
    simp
  | cg :: rest => by
    simp only [refAddConfig]
    by_cases h : cg.fingerprint.Key = fp.Key
    · rw [if_pos h]
      exact ⟨_, List.mem_cons_self _ _, h, by simp⟩
    · rw [if_neg h]
      obtain ⟨cg', hmem, hkey, hsrv⟩ := refAddConfig_contains fp srv rest
      exact ⟨cg', List.mem_cons_of_mem _ hmem, hkey, hsrv⟩

theorem refAddConfig_preserves (fp : HardwareFingerprint) (srv : ServerInfo) :
    ∀ cgs : List HardwareGroup, ∀ cg' ∈ cgs,
      ∃ cg'' ∈ refAddConfig fp srv cgs,
        cg''.fingerprint.Key = cg'.fingerprint.Key ∧
        ∀ s ∈ cg'.servers, s ∈ cg''.servers
  | [], cg', h => absurd h (List.not_mem_nil _)
  | cg :: rest, cg', hmem => by
    simp only [refAddConfig]
    by_cases h : cg.fingerprint.Key = fp.Key
    · rw [if_pos h]
      rcases List.mem_cons.mp hmem with rfl | hmem'
      · exact ⟨_, List.mem_cons_self _ _, rfl, fun s hs => by simp [hs]⟩
      · exact ⟨cg', List.mem_cons_of_mem _ hmem', rfl, fun s hs => hs⟩
    · rw [if_neg h]
      rcases List.mem_cons.mp hmem with rfl | hmem'
      · exact ⟨cg', List.mem_cons_self _ _, rfl, fun s hs => hs⟩
      · obtain ⟨cg'', hmem'', hkey, hsub⟩ := refAddConfig_preserves fp srv rest cg' hmem'
        exact ⟨cg'', List.mem_cons_of_mem _ hmem'', hkey, hsub⟩

theorem nodup_append_singleton {α : Type} {l : List α} {a : α}
    (ha : a ∉ l) (hl : l.Nodup) : (l ++ [a]).Nodup := by
  simp [List.nodup_append, hl, ha]

/-- A model group is well formed: every config subgroup holds only matching
servers and the subgroup fingerprint keys are pairwise distinct. -/
def mgWellFormed (mg : ModelGroup) : Prop :=
  (∀ cg ∈ mg.configGroups, cgWellFormed mg.manufacturer mg.model cg) ∧
    (configKeys mg).Nodup

theorem refAddModel_keys (srv : ServerInfo) :
    ∀ mgs : List ModelGroup,
      modelKeys (refAddModel srv mgs)
        = if (srv.manufacturer, srv.model) ∈ modelKeys mgs
          then modelKeys mgs
          else modelKeys mgs ++ [(srv.manufacturer, srv.model)]
  | [] => by simp [refAddModel, modelKeys]
  | mg :: rest => by
    by_cases h : mg.manufacturer = srv.manufacturer ∧ mg.model = srv.model
    · have hp : (srv.manufacturer, srv.model) = (mg.manufacturer, mg.model) := by
        rw [h.1, h.2]
      simp only [refAddModel, if_pos h, modelKeys, List.map_cons]
      rw [if_pos (by rw [hp]; exact List.mem_cons_self _ _)]
    · simp only [refAddModel, if_neg h, modelKeys, List.map_cons]
      have hne : ¬ (srv.manufacturer, srv.model) = (mg.manufacturer, mg.model) := by
        intro e
        exact h ⟨(Prod.mk.injEq _ _ _ _ ▸ e).1.symm, (Prod.mk.injEq _ _ _ _ ▸ e).2.symm⟩
      have := refAddModel_keys srv rest
      simp only [modelKeys] at this
      rw [this]
      by_cases hmem : (srv.manufacturer, srv.model) ∈ rest.map (fun mg => (mg.manufacturer, mg.model))
      · rw [if_pos hmem, if_pos (by simp [hmem])]
      · rw [if_neg hmem, if_neg (by simp [hmem, hne])]
        simp

theorem refAddModel_wf (srv : ServerInfo) (hsrv : srv.error = none) :
    ∀ mgs : List ModelGroup, (∀ mg ∈ mgs, mgWellFormed mg) →
      ∀ mg ∈ refAddModel srv mgs, mgWellFormed mg
  | [], _ => by
    intro mg hmg
    simp only [refAddModel, List.mem_singleton] at hmg
    subst hmg
    constructor
    · exact refAddConfig_wf (buildFingerprint srv) srv _ _ hsrv rfl rfl rfl []
        (fun cg hcg => absurd hcg (List.not_mem_nil _))
    · simp only [configKeys, refAddConfig_keys]
      simp
  | mg :: rest, hall => by
    intro mg' hmg'
    simp only [refAddModel] at hmg'
    by_cases h : mg.manufacturer = srv.manufacturer ∧ mg.model = srv.model
    · rw [if_pos h] at hmg'
      rcases List.mem_cons.mp hmg' with rfl | hmg''
      · obtain ⟨hwf, hnd⟩ := hall mg (List.mem_cons_self _ _)
        constructor
        · exact refAddConfig_wf (buildFingerprint srv) srv _ _ hsrv h.1.symm h.2.symm rfl
            mg.configGroups hwf
        · simp only [configKeys, refAddConfig_keys]
          by_cases hmem : (buildFingerprint srv).Key
              ∈ mg.configGroups.map (fun cg => cg.fingerprint.Key)
          · rw [if_pos hmem]; exact hnd
          · rw [if_neg hmem]
            exact nodup_append_singleton hmem hnd
      · exact hall mg' (List.mem_cons_of_mem _ hmg'')
    · rw [if_neg h] at hmg'
      rcases List.mem_cons.mp hmg' with rfl | hmg''
      · exact hall mg' (List.mem_cons_self _ _)
      · exact refAddModel_wf srv hsrv rest
          (fun m hm => hall m (List.mem_cons_of_mem _ hm)) mg' hmg''

theorem refAddModel_contains (srv : ServerInfo) :
    ∀ mgs : List ModelGroup, containsServer (refAddModel srv mgs) srv
  | [] => by
    obtain ⟨cg, hcg, hkey, hsrv⟩ := refAddConfig_contains (buildFingerprint srv) srv []
    exact ⟨_, List.mem_singleton_self _, rfl, rfl, cg, hcg, hkey, hsrv⟩
  | mg :: rest => by
    simp only [refAddModel]
    by_cases h : mg.manufacturer = srv.manufacturer ∧ mg.model = srv.model
    · rw [if_pos h]
      obtain ⟨cg, hcg, hkey, hs⟩ := refAddConfig_contains (buildFingerprint srv) srv mg.configGroups
      exact ⟨_, List.mem_cons_self _ _, h.1, h.2, cg, hcg, hkey, hs⟩
    · rw [if_neg h]
      obtain ⟨mg', hmg', hman, hmod, rest'⟩ := refAddModel_contains srv rest
      exact ⟨mg', List.mem_cons_of_mem _ hmg', hman, hmod, rest'⟩

theorem refAddModel_preserves (srv s' : ServerInfo) :
    ∀ mgs : List ModelGroup, containsServer mgs s' →
      containsServer (refAddModel srv mgs) s'
  | [], h => absurd h (by rintro ⟨mg, hmg, -⟩; exact List.not_mem_nil _ hmg)
  | mg :: rest, h => by
    obtain ⟨mg', hmg', hman, hmod, cg, hcg, hkey, hs⟩ := h
    simp only [refAddModel]
    by_cases hc : mg.manufacturer = srv.manufacturer ∧ mg.model = srv.model
    · rw [if_pos hc]
      rcases List.mem_cons.mp hmg' with rfl | hmem
      · obtain ⟨cg'', hcg'', hkey'', hsub⟩ :=
          refAddConfig_preserves (buildFingerprint srv) srv mg'.configGroups cg hcg
        exact ⟨_, List.mem_cons_self _ _, hman, hmod, cg'', hcg'',
          hkey''.trans hkey, hsub _ hs⟩
      · exact ⟨mg', List.mem_cons_of_mem _ hmem, hman, hmod, cg, hcg, hkey, hs⟩
    · rw [if_neg hc]
      rcases List.mem_cons.mp hmg' with rfl | hmem
      · exact ⟨mg', List.mem_cons_self _ _, hman, hmod, cg, hcg, hkey, hs⟩
      · obtain ⟨mg'', hmg'', rest''⟩ := refAddModel_preserves srv s' rest
          ⟨mg', hmem, hman, hmod, cg, hcg, hkey, hs⟩
        exact ⟨mg'', List.mem_cons_of_mem _ hmg'', rest''⟩

/-- Invariant of the main loop: all model groups well formed, model keys
pairwise distinct. -/
def mgsInvariant (mgs : List ModelGroup) : Prop :=
  (∀ mg ∈ mgs, mgWellFormed mg) ∧ (modelKeys mgs).Nodup

theorem refAddModel_invariant (srv : ServerInfo) (hsrv : srv.error = none)
    (mgs : List ModelGroup) (h : mgsInvariant mgs) :
    mgsInvariant (refAddModel srv mgs) := by
  refine ⟨refAddModel_wf srv hsrv mgs h.1, ?_⟩
  rw [refAddModel_keys]
  by_cases hmem : (srv.manufacturer, srv.model) ∈ modelKeys mgs
  · rw [if_pos hmem]; exact h.2
  · rw [if_neg hmem]; exact nodup_append_singleton hmem h.2

theorem refAggFold_invariant (servers : List ServerInfo) :
    ∀ st : RefAggState, mgsInvariant st.modelGroups →
      mgsInvariant (servers.foldl refAggStep st).modelGroups := by
  induction servers with
  | nil => intro st h; exact h
  | cons srv rest ih =>
    intro st h
    rw [List.foldl_cons]
    refine ih _ ?_
    cases herr : srv.error with
    | none => rw [(refAggStep_fields st srv).1 herr]; exact refAddModel_invariant srv herr _ h
    | some e => rw [(refAggStep_fields st srv).2 e herr]; exact h

theorem refAggFold_preserves_contains (servers : List ServerInfo) :
    ∀ st : RefAggState, ∀ s' : ServerInfo, containsServer st.modelGroups s' →
      containsServer (servers.foldl refAggStep st).modelGroups s' := by
  induction servers with
  | nil => intro st s' h; exact h
  | cons srv rest ih =>
    intro st s' h
    rw [List.foldl_cons]
    refine ih _ _ ?_
    cases herr : srv.error with
    | none => rw [(refAggStep_fields st srv).1 herr]; exact refAddModel_preserves srv s' _ h
    | some e => rw [(refAggStep_fields st srv).2 e herr]; exact h

theorem refAggFold_contains (servers : List ServerInfo) :
    ∀ st : RefAggState, ∀ srv ∈ servers, srv.error = none →
      containsServer (servers.foldl refAggStep st).modelGroups srv := by
  induction servers with
  | nil => intro st srv h; exact absurd h (List.not_mem_nil _)
  | cons s rest ih =>
    intro st srv hmem herr
    rw [List.foldl_cons]
    rcases List.mem_cons.mp hmem with rfl | hmem'
    · refine refAggFold_preserves_contains rest _ _ ?_
      rw [(refAggStep_fields st srv).1 herr]
      exact refAddModel_contains srv _
    · exact ih _ srv hmem' herr

/-! ### The shared map reduced to per-group insertion.
`goAddModel` consults one `configIdxMap` shared across model groups, so its
behaviour coincides with the reference `refAddModel` only when no two
distinct `(manufacturer, model)` pairs of the run serialize to the same
combined key.  The lemmas below prove exactly that reduction. -/

theorem get_set_self {α : Type} :
    ∀ (l : List α) (i : Nat) (a : α) (h : i < (l.set i a).length),
      (l.set i a).get ⟨i, h⟩ = a
  | [], _, _, h => absurd h (by simp)
  | _ :: _, 0, _, _ => rfl
  | _ :: xs, i + 1, a, h => get_set_self xs i a (by simpa using h)

theorem get_set_ne {α : Type} :
    ∀ (l : List α) (i j : Nat) (a : α), i ≠ j → ∀ (h : j < (l.set i a).length)
      (h2 : j < l.length), (l.set i a).get ⟨j, h⟩ = l.get ⟨j, h2⟩
  | [], _, _, _, _, h, _ => absurd h (by simp)
  | _ :: _, 0, 0, _, hij, _, _ => absurd rfl hij
  | _ :: _, 0, _ + 1, _, _, _, _ => rfl
  | _ :: _, _ + 1, 0, _, _, _, _ => rfl
  | _ :: xs, i + 1, j + 1, a, hij, h, h2 =>
    get_set_ne xs i j a (fun e => hij (by rw [e])) (by simpa using h) (by simpa using h2)

theorem get_append_left {α : Type} :
    ∀ (l1 l2 : List α) (i : Nat) (h : i < l1.length)
      (h2 : i < (l1 ++ l2).length), (l1 ++ l2).get ⟨i, h2⟩ = l1.get ⟨i, h⟩
  | [], _, _, h, _ => absurd h (by simp)
  | _ :: _, _, 0, _, _ => rfl
  | _ :: xs, l2, i + 1, h, h2 =>
    get_append_left xs l2 i (by simpa using h) (by simpa using h2)

theorem get_append_last {α : Type} :
    ∀ (l : List α) (a : α) (h : l.length < (l ++ [a]).length),
      (l ++ [a]).get ⟨l.length, h⟩ = a
  | [], _, _ => rfl
  | _ :: xs, a, h => get_append_last xs a (by simpa using h)

theorem lookupIdx_mem :
    ∀ (cim : List (String × Nat)) (k : String) (i : Nat),
      lookupIdx cim k = some i → (k, i) ∈ cim
  | [], k, i, h => by simp [lookupIdx] at h
  | (k1, j) :: rest, k, i, h => by
    simp only [lookupIdx] at h
    by_cases he : k1 = k
    · rw [if_pos he] at h
      cases h
      subst he
      exact List.mem_cons_self _ _
    · rw [if_neg he] at h
      exact List.mem_cons_of_mem _ (lookupIdx_mem rest k i h)

theorem lookupIdx_eq_none :
    ∀ (cim : List (String × Nat)) (k : String),
      lookupIdx cim k = none ↔ k ∉ cim.map Prod.fst
  | [], k => by simp [lookupIdx]
  | (k1, j) :: rest, k => by
    simp only [lookupIdx, List.map_cons, List.mem_cons]
    by_cases he : k1 = k
    · rw [if_pos he]
      simp [he]
    · rw [if_neg he, lookupIdx_eq_none rest k]
      constructor
      · rintro hn (hk | hk)
        · exact he hk.symm
        · exact hn hk
      · exact fun hn hk => hn (Or.inr hk)

theorem lookupIdx_append_some :
    ∀ (cim l : List (String × Nat)) (k : String) (i : Nat),
      lookupIdx cim k = some i → lookupIdx (cim ++ l) k = some i
  | [], l, k, i, h => by simp [lookupIdx] at h
  | (k1, j) :: rest, l, k, i, h => by
    simp only [lookupIdx] at h ⊢
    by_cases he : k1 = k
    · rw [if_pos he] at h ⊢
      exact h
    · rw [if_neg he] at h ⊢
      exact lookupIdx_append_some rest l k i h

theorem lookupIdx_append_new :
    ∀ (cim : List (String × Nat)) (k : String) (n : Nat),
      lookupIdx cim k = none → lookupIdx (cim ++ [(k, n)]) k = some n
  | [], k, n, _ => by simp [lookupIdx]
  | (k1, j) :: rest, k, n, h => by
    simp only [lookupIdx] at h ⊢
    by_cases he : k1 = k
    · rw [if_pos he] at h
      exact absurd h (by simp)
    · rw [if_neg he] at h ⊢
      exact lookupIdx_append_new rest k n h

theorem combKeyOf_key_inj {m p k1 k2 : String}
    (h : combKeyOf m p k1 = combKeyOf m p k2) : k1 = k2 := by
  have hd := congrArg String.data h
  simp only [combKeyOf, String.data_append] at hd
  exact String.ext (List.append_cancel_left hd)

theorem modelKeys_mem_split :
    ∀ (mgs : List ModelGroup) (P : String × String), P ∈ modelKeys mgs →
      ∃ pre mg post, mgs = pre ++ mg :: post ∧
        mg.manufacturer = P.1 ∧ mg.model = P.2 ∧ P ∉ modelKeys pre
  | [], P, h => absurd h (by simp [modelKeys])
  | mg :: rest, P, h => by
    by_cases he : (mg.manufacturer, mg.model) = P
    · exact ⟨[], mg, rest, rfl, congrArg Prod.fst he, congrArg Prod.snd he,
        by simp [modelKeys]⟩
    · have hmem : P ∈ modelKeys rest := by
        simp only [modelKeys, List.map_cons, List.mem_cons] at h
        rcases h with h | h
        · exact absurd h.symm he
        · simpa [modelKeys] using h
      obtain ⟨pre, mg1, post, heq, h1, h2, h3⟩ := modelKeys_mem_split rest P hmem
      refine ⟨mg :: pre, mg1, post, by rw [heq, List.cons_append], h1, h2, ?_⟩
      simp only [modelKeys, List.map_cons, List.mem_cons]
      rintro (hP | hP)
      · exact he hP.symm
      · exact h3 (by simpa [modelKeys] using hP)

theorem modelKeys_nodup_unique :
    ∀ (mgs : List ModelGroup), (modelKeys mgs).Nodup →
      ∀ mg1, mg1 ∈ mgs → ∀ mg2, mg2 ∈ mgs →
        mg1.manufacturer = mg2.manufacturer → mg1.model = mg2.model → mg1 = mg2
  | [], _, mg1, h1, _, _, _, _ => absurd h1 (List.not_mem_nil _)
  | mg :: rest, hnd, mg1, h1, mg2, h2, hm, hd => by
    simp only [modelKeys, List.map_cons, List.nodup_cons] at hnd
    rcases List.mem_cons.mp h1 with rfl | h1m
    · rcases List.mem_cons.mp h2 with rfl | h2m
      · rfl
      · refine absurd ?_ hnd.1
        rw [hm, hd]
        exact List.mem_map_of_mem (fun mg => (mg.manufacturer, mg.model)) h2m
    · rcases List.mem_cons.mp h2 with rfl | h2m
      · refine absurd ?_ hnd.1
        rw [← hm, ← hd]
        exact List.mem_map_of_mem (fun mg => (mg.manufacturer, mg.model)) h1m
      · exact modelKeys_nodup_unique rest (by simpa [modelKeys] using hnd.2)
          mg1 h1m mg2 h2m hm hd

theorem goAddModel_not_mem (srv : ServerInfo) (fp : HardwareFingerprint)
    (cim : List (String × Nat)) :
    ∀ mgs : List ModelGroup, (srv.manufacturer, srv.model) ∉ modelKeys mgs →
      goAddModel srv fp cim mgs =
        match lookupIdx cim (combKeyOf srv.manufacturer srv.model fp.Key) with
        | some _ => none
        | none =>
          some (mgs ++ [{ manufacturer := srv.manufacturer, model := srv.model,
                          totalCount := 1,
                          configGroups := [{ fingerprint := fp, count := 1,
                                             servers := [srv],
                                             totalStorageTB := srv.totalStorageTB }] }],
            cim ++ [(combKeyOf srv.manufacturer srv.model fp.Key, 0)])
  | [], _ => by
    cases hl : lookupIdx cim (combKeyOf srv.manufacturer srv.model fp.Key) with
    | some i => simp [goAddModel, hl]
    | none => simp [goAddModel, hl]
  | mg :: rest, h => by
    have hp : ¬ (mg.manufacturer = srv.manufacturer ∧ mg.model = srv.model) := by
      intro hpair
      exact h (by
        simp only [modelKeys, List.map_cons, List.mem_cons]
        exact Or.inl (by rw [hpair.1, hpair.2]))
    have hrest : (srv.manufacturer, srv.model) ∉ modelKeys rest := by
      intro hmem
      exact h (by
        simp only [modelKeys, List.map_cons, List.mem_cons]
        exact Or.inr (by simpa [modelKeys] using hmem))
    simp only [goAddModel, if_neg hp, goAddModel_not_mem srv fp cim rest hrest]
    cases hl : lookupIdx cim (combKeyOf srv.manufacturer srv.model fp.Key) with
    | some i => rfl
    | none => rfl

theorem goAddModel_mem_split (srv : ServerInfo) (fp : HardwareFingerprint)
    (cim : List (String × Nat)) (mg : ModelGroup) (post : List ModelGroup)
    (hman : mg.manufacturer = srv.manufacturer) (hmod : mg.model = srv.model) :
    ∀ pre : List ModelGroup, (srv.manufacturer, srv.model) ∉ modelKeys pre →
      goAddModel srv fp cim (pre ++ mg :: post) =
        match lookupIdx cim (combKeyOf srv.manufacturer srv.model fp.Key) with
        | some idx =>
          if h : idx < mg.configGroups.length then
            some (pre ++ { mg with
                           totalCount := mg.totalCount + 1
                           configGroups := mg.configGroups.set idx
                             { mg.configGroups.get ⟨idx, h⟩ with
                               count := (mg.configGroups.get ⟨idx, h⟩).count + 1
                               servers := (mg.configGroups.get ⟨idx, h⟩).servers
                                 ++ [srv] } } :: post, cim)
          else none
        | none =>
          some (pre ++ { mg with
                         totalCount := mg.totalCount + 1
                         configGroups := mg.configGroups
                           ++ [{ fingerprint := fp, count := 1, servers := [srv],
                                 totalStorageTB := srv.totalStorageTB }] } :: post,
            cim ++ [(combKeyOf srv.manufacturer srv.model fp.Key,
                     mg.configGroups.length)])
  | [], _ => by
    have hp : mg.manufacturer = srv.manufacturer ∧ mg.model = srv.model := ⟨hman, hmod⟩
    show goAddModel srv fp cim ([] ++ mg :: post) = _
    simp only [List.nil_append]
    simp only [goAddModel]
    rw [if_pos hp]
  | mg1 :: pre, h => by
    have hp : ¬ (mg1.manufacturer = srv.manufacturer ∧ mg1.model = srv.model) := by
      intro hpair
      exact h (by
        simp only [modelKeys, List.map_cons, List.mem_cons]
        exact Or.inl (by rw [hpair.1, hpair.2]))
    have hpre : (srv.manufacturer, srv.model) ∉ modelKeys pre := by
      intro hmem
      exact h (by
        simp only [modelKeys, List.map_cons, List.mem_cons]
        exact Or.inr (by simpa [modelKeys] using hmem))
    have hrec := goAddModel_mem_split srv fp cim mg post hman hmod pre hpre
    show goAddModel srv fp cim ((mg1 :: pre) ++ mg :: post) = _
    rw [List.cons_append]
    simp only [goAddModel, if_neg hp]
    rw [hrec]
    cases hl : lookupIdx cim (combKeyOf srv.manufacturer srv.model fp.Key) with
    | some idx =>
      simp only [hl]
      by_cases hb : idx < mg.configGroups.length
      · rw [dif_pos hb, dif_pos hb]
        try rfl
      · rw [dif_neg hb, dif_neg hb]
        try rfl
    | none =>
      simp only [hl]
      rfl

theorem refAddConfig_not_mem (fp : HardwareFingerprint) (srv : ServerInfo) :
    ∀ cgs : List HardwareGroup,
      fp.Key ∉ cgs.map (fun cg => cg.fingerprint.Key) →
      refAddConfig fp srv cgs
        = cgs ++ [{ fingerprint := fp, count := 1, servers := [srv],
                    totalStorageTB := srv.totalStorageTB }]
  | [], _ => rfl
  | cg :: rest, h => by
    have hk : ¬ cg.fingerprint.Key = fp.Key := by
      intro he
      exact h (by
        simp only [List.map_cons, List.mem_cons]
        exact Or.inl he.symm)
    have hrest : fp.Key ∉ rest.map (fun cg => cg.fingerprint.Key) := by
      intro hmem
      exact h (by
        simp only [List.map_cons, List.mem_cons]
        exact Or.inr hmem)
    simp only [refAddConfig, if_neg hk, refAddConfig_not_mem fp srv rest hrest,
      List.cons_append]

theorem refAddConfig_at (fp : HardwareFingerprint) (srv : ServerInfo) :
    ∀ (cgs : List HardwareGroup) (idx : Nat) (h : idx < cgs.length),
      (cgs.map (fun cg => cg.fingerprint.Key)).Nodup →
      (cgs.get ⟨idx, h⟩).fingerprint.Key = fp.Key →
      refAddConfig fp srv cgs = cgs.set idx
        { cgs.get ⟨idx, h⟩ with
          count := (cgs.get ⟨idx, h⟩).count + 1
          servers := (cgs.get ⟨idx, h⟩).servers ++ [srv] }
  | [], idx, h, _, _ => absurd h (by simp)
  | cg :: rest, 0, h, _, hkey => by
    simp only [List.get] at hkey
    simp only [refAddConfig, if_pos hkey, List.get, List.set]
  | cg :: rest, idx + 1, h, hnd, hkey => by
    simp only [List.map_cons, List.nodup_cons] at hnd
    have hkey2 : (rest.get ⟨idx, by simpa using h⟩).fingerprint.Key = fp.Key := hkey
    have hne : ¬ cg.fingerprint.Key = fp.Key := by
      intro he
      have hkm : (rest.get ⟨idx, by simpa using h⟩).fingerprint.Key
          ∈ rest.map (fun cg => cg.fingerprint.Key) :=
        List.mem_map_of_mem _ (rest.get_mem _ _)
      rw [hkey2, ← he] at hkm
      exact hnd.1 hkm
    show refAddConfig fp srv (cg :: rest) = _
    simp only [List.set, List.get]
    simp only [refAddConfig, if_neg hne]
    rw [refAddConfig_at fp srv rest idx (by simpa using h) hnd.2 hkey2]

theorem refAddModel_not_mem (srv : ServerInfo) :
    ∀ mgs : List ModelGroup, (srv.manufacturer, srv.model) ∉ modelKeys mgs →
      refAddModel srv mgs
        = mgs ++ [{ manufacturer := srv.manufacturer, model := srv.model,
                    totalCount := 1,
                    configGroups := refAddConfig (buildFingerprint srv) srv [] }]
  | [], _ => rfl
  | mg :: rest, h => by
    have hp : ¬ (mg.manufacturer = srv.manufacturer ∧ mg.model = srv.model) := by
      intro hpair
      exact h (by
        simp only [modelKeys, List.map_cons, List.mem_cons]
        exact Or.inl (by rw [hpair.1, hpair.2]))
    have hrest : (srv.manufacturer, srv.model) ∉ modelKeys rest := by
      intro hmem
      exact h (by
        simp only [modelKeys, List.map_cons, List.mem_cons]
        exact Or.inr (by simpa [modelKeys] using hmem))
    simp only [refAddModel, if_neg hp, refAddModel_not_mem srv rest hrest,
      List.cons_append]

theorem refAddModel_mem_split (srv : ServerInfo) (mg : ModelGroup)
    (post : List ModelGroup)
    (hman : mg.manufacturer = srv.manufacturer) (hmod : mg.model = srv.model) :
    ∀ pre : List ModelGroup, (srv.manufacturer, srv.model) ∉ modelKeys pre →
      refAddModel srv (pre ++ mg :: post)
        = pre ++ { mg with
                   totalCount := mg.totalCount + 1
                   configGroups := refAddConfig (buildFingerprint srv) srv
                     mg.configGroups } :: post
  | [], _ => by
    have hp : mg.manufacturer = srv.manufacturer ∧ mg.model = srv.model := ⟨hman, hmod⟩
    show refAddModel srv ([] ++ mg :: post) = _
    simp only [List.nil_append]
    simp only [refAddModel]
    rw [if_pos hp]
  | mg1 :: pre, h => by
    have hp : ¬ (mg1.manufacturer = srv.manufacturer ∧ mg1.model = srv.model) := by
      intro hpair
      exact h (by
        simp only [modelKeys, List.map_cons, List.mem_cons]
        exact Or.inl (by rw [hpair.1, hpair.2]))
    have hpre : (srv.manufacturer, srv.model) ∉ modelKeys pre := by
      intro hmem
      exact h (by
        simp only [modelKeys, List.map_cons, List.mem_cons]
        exact Or.inr (by simpa [modelKeys] using hmem))
    have hrec := refAddModel_mem_split srv mg post hman hmod pre hpre
    show refAddModel srv ((mg1 :: pre) ++ mg :: post) = _
    rw [List.cons_append]
    simp only [refAddModel, if_neg hp]
    rw [hrec]
    rfl

/-- No two successful records of the run serialize distinct
`(manufacturer, model)` pairs to the same shared-map key; this holds in
particular whenever no manufacturer or model contains a `|` or NUL
character. -/
def combKeyInj (servers : List ServerInfo) : Prop :=
  ∀ s1 ∈ servers, ∀ s2 ∈ servers, s1.error = none → s2.error = none →
    s1.combKey = s2.combKey →
    s1.manufacturer = s2.manufacturer ∧ s1.model = s2.model

/-- Some model group of pair `(mfr, md)` holds a subgroup with fingerprint
key `K` at index `i`. -/
def hasKeyAt (mgs : List ModelGroup) (mfr md : String) (i : Nat) (K : String) : Prop :=
  ∃ mg ∈ mgs, mg.manufacturer = mfr ∧ mg.model = md ∧
    ∃ h : i < mg.configGroups.length,
      (mg.configGroups.get ⟨i, h⟩).fingerprint.Key = K

/-- The bridge invariant tying the shared `configIdxMap` to the model
groups: keys are pairwise distinct; every binding was written by a
successful input record and points, inside a model group bearing that
record's pair, at an in-range subgroup carrying the record's fingerprint
key; conversely every subgroup is indexed by its own combined key. -/
def cimInv (all : List ServerInfo) (cim : List (String × Nat))
    (mgs : List ModelGroup) : Prop :=
  (cim.map Prod.fst).Nodup ∧
  (∀ k i, (k, i) ∈ cim → ∃ srv ∈ all, srv.error = none ∧ k = srv.combKey ∧
    hasKeyAt mgs srv.manufacturer srv.model i (buildFingerprint srv).Key) ∧
  (∀ mg ∈ mgs, ∀ i, ∀ h : i < mg.configGroups.length,
    lookupIdx cim (combKeyOf mg.manufacturer mg.model
      ((mg.configGroups.get ⟨i, h⟩).fingerprint.Key)) = some i)

theorem hasKeyAt_extend (mgs : List ModelGroup) (nmg : ModelGroup)
    (mfr md K : String) (i : Nat) (h : hasKeyAt mgs mfr md i K) :
    hasKeyAt (mgs ++ [nmg]) mfr md i K := by
  obtain ⟨mgx, hmem, he1, he2, hlt, hkey⟩ := h
  exact ⟨mgx, List.mem_append_left _ hmem, he1, he2, hlt, hkey⟩

theorem hasKeyAt_replace (pre post : List ModelGroup) (mg mg2 : ModelGroup)
    (hman : mg2.manufacturer = mg.manufacturer) (hmod : mg2.model = mg.model)
    (hkeys : ∀ j (hj : j < mg.configGroups.length),
      ∃ h2 : j < mg2.configGroups.length,
        (mg2.configGroups.get ⟨j, h2⟩).fingerprint.Key
          = (mg.configGroups.get ⟨j, hj⟩).fingerprint.Key)
    (mfr md K : String) (i : Nat)
    (h : hasKeyAt (pre ++ mg :: post) mfr md i K) :
    hasKeyAt (pre ++ mg2 :: post) mfr md i K := by
  obtain ⟨mgx, hmem, he1, he2, hlt, hkey⟩ := h
  rcases List.mem_append.mp hmem with hx | hx
  · exact ⟨mgx, List.mem_append.mpr (Or.inl hx), he1, he2, hlt, hkey⟩
  · rcases List.mem_cons.mp hx with rfl | hx
    · obtain ⟨h2, hk2⟩ := hkeys i hlt
      exact ⟨mg2, List.mem_append.mpr (Or.inr (List.mem_cons_self _ _)),
        hman.trans he1, hmod.trans he2, h2, hk2.trans hkey⟩
    · exact ⟨mgx, List.mem_append.mpr (Or.inr (List.mem_cons_of_mem _ hx)),
        he1, he2, hlt, hkey⟩

/-- The in-place bump of `mg.ConfigGroups[idx]`. -/
def bumpAt (cgs : List HardwareGroup) (idx : Nat) (h : idx < cgs.length)
    (srv : ServerInfo) : List HardwareGroup :=
  cgs.set idx
    { cgs.get ⟨idx, h⟩ with
      count := (cgs.get ⟨idx, h⟩).count + 1
      servers := (cgs.get ⟨idx, h⟩).servers ++ [srv] }

theorem bumpAt_length (cgs : List HardwareGroup) (idx : Nat)
    (h : idx < cgs.length) (srv : ServerInfo) :
    (bumpAt cgs idx h srv).length = cgs.length := List.length_set cgs idx _

theorem bumpAt_key (cgs : List HardwareGroup) (idx : Nat)
    (h : idx < cgs.length) (srv : ServerInfo) (j : Nat) (hj : j < cgs.length) :
    ∃ h2 : j < (bumpAt cgs idx h srv).length,
      ((bumpAt cgs idx h srv).get ⟨j, h2⟩).fingerprint.Key
        = (cgs.get ⟨j, hj⟩).fingerprint.Key := by
  have h2 : j < (bumpAt cgs idx h srv).length := by rw [bumpAt_length]; exact hj
  refine ⟨h2, ?_⟩
  by_cases hje : idx = j
  · subst hje
    show ((cgs.set idx _).get ⟨idx, h2⟩).fingerprint.Key = _
    rw [get_set_self]
  · show ((cgs.set idx _).get ⟨j, h2⟩).fingerprint.Key = _
    rw [get_set_ne cgs idx j _ hje h2 hj]

theorem comp3_append (cim : List (String × Nat)) (mg : ModelGroup)
    (cg1 : HardwareGroup) (ck : String)
    (hck : ck = combKeyOf mg.manufacturer mg.model cg1.fingerprint.Key)
    (hl : lookupIdx cim ck = none)
    (hsubmg : ∀ i (h : i < mg.configGroups.length),
      lookupIdx cim (combKeyOf mg.manufacturer mg.model
        ((mg.configGroups.get ⟨i, h⟩).fingerprint.Key)) = some i) :
    ∀ i (hi : i < (mg.configGroups ++ [cg1]).length),
      lookupIdx (cim ++ [(ck, mg.configGroups.length)])
        (combKeyOf mg.manufacturer mg.model
          (((mg.configGroups ++ [cg1]).get ⟨i, hi⟩).fingerprint.Key)) = some i := by
  intro i hi
  by_cases hie : i = mg.configGroups.length
  · subst hie
    rw [get_append_last, ← hck]
    exact lookupIdx_append_new cim ck _ hl
  · have hi2 : i < mg.configGroups.length := by
      simp only [List.length_append, List.length_singleton] at hi
      omega
    rw [get_append_left mg.configGroups [cg1] i hi2 hi]
    exact lookupIdx_append_some cim _ _ i (hsubmg i hi2)

theorem comp3_bump (cim : List (String × Nat)) (mg : ModelGroup)
    (idx : Nat) (hxlt : idx < mg.configGroups.length) (srv : ServerInfo)
    (hsubmg : ∀ i (h : i < mg.configGroups.length),
      lookupIdx cim (combKeyOf mg.manufacturer mg.model
        ((mg.configGroups.get ⟨i, h⟩).fingerprint.Key)) = some i) :
    ∀ i (hi : i < (bumpAt mg.configGroups idx hxlt srv).length),
      lookupIdx cim (combKeyOf mg.manufacturer mg.model
        (((bumpAt mg.configGroups idx hxlt srv).get ⟨i, hi⟩).fingerprint.Key))
        = some i := by
  intro i hi
  have hi2 : i < mg.configGroups.length := by
    rw [← bumpAt_length mg.configGroups idx hxlt srv]
    exact hi
  obtain ⟨h2, hk2⟩ := bumpAt_key mg.configGroups idx hxlt srv i hi2
  rw [hk2]
  exact hsubmg i hi2

theorem goRefAddModel_eq (all : List ServerInfo) (hinj : combKeyInj all)
    (srv : ServerInfo) (hmem : srv ∈ all) (hsrv : srv.error = none)
    (cim : List (String × Nat)) (mgs : List ModelGroup)
    (hinv : cimInv all cim mgs) (hmgs : mgsInvariant mgs) :
    ∃ cim2, goAddModel srv (buildFingerprint srv) cim mgs
        = some (refAddModel srv mgs, cim2)
      ∧ cimInv all cim2 (refAddModel srv mgs) := by
  obtain ⟨hnd, hbind, hsub⟩ := hinv
  by_cases hpm : (srv.manufacturer, srv.model) ∈ modelKeys mgs
  · obtain ⟨pre, mg, post, rfl, hman, hmod, hpre⟩ := modelKeys_mem_split mgs _ hpm
    have hman2 : mg.manufacturer = srv.manufacturer := hman
    have hmod2 : mg.model = srv.model := hmod
    have hmgmid : mg ∈ pre ++ mg :: post :=
      List.mem_append.mpr (Or.inr (List.mem_cons_self _ _))
    cases hl : lookupIdx cim
        (combKeyOf srv.manufacturer srv.model (buildFingerprint srv).Key) with
    | none =>
      have hnk : (buildFingerprint srv).Key
          ∉ mg.configGroups.map (fun cg => cg.fingerprint.Key) := by
        intro hk
        obtain ⟨cg, hcg, hkey⟩ := List.mem_map.mp hk
        obtain ⟨n, hget⟩ := List.mem_iff_get.mp hcg
        have hn := hsub mg hmgmid n.1 n.2
        rw [hget, hkey, hman2, hmod2, hl] at hn
        cases hn
      have hgo := goAddModel_mem_split srv (buildFingerprint srv) cim mg post
        hman2 hmod2 pre hpre
      simp only [hl] at hgo
      have href := refAddModel_mem_split srv mg post hman2 hmod2 pre hpre
      rw [refAddConfig_not_mem (buildFingerprint srv) srv mg.configGroups hnk] at href
      refine ⟨cim ++ [(combKeyOf srv.manufacturer srv.model
        (buildFingerprint srv).Key, mg.configGroups.length)], ?_, ?_, ?_, ?_⟩
      · rw [href]; exact hgo
      · rw [List.map_append]
        exact nodup_append_singleton ((lookupIdx_eq_none _ _).mp hl) hnd
      · intro k i hki
        rw [href]
        rcases List.mem_append.mp hki with hx | hx
        · obtain ⟨s1, hs1, he, hk, hkat⟩ := hbind k i hx
          refine ⟨s1, hs1, he, hk, ?_⟩
          refine hasKeyAt_replace pre post mg _ ?_ ?_ ?_ _ _ _ _ hkat
          · rfl
          · rfl
          · intro j hj
            have h2 : j < (mg.configGroups
                ++ ([{ fingerprint := buildFingerprint srv, count := 1, servers := [srv],
                       totalStorageTB := srv.totalStorageTB }] : List HardwareGroup)).length := by
              rw [List.length_append]
              omega
            exact ⟨h2, by rw [get_append_left mg.configGroups _ j hj h2]⟩
        · have hx2 : (k, i)
              = (combKeyOf srv.manufacturer srv.model (buildFingerprint srv).Key,
                 mg.configGroups.length) := List.mem_singleton.mp hx
          have hkk : k = combKeyOf srv.manufacturer srv.model
              (buildFingerprint srv).Key := congrArg Prod.fst hx2
          have hii : i = mg.configGroups.length := congrArg Prod.snd hx2
          subst hkk
          subst hii
          refine ⟨srv, hmem, hsrv, rfl, ?_⟩
          have h2 : mg.configGroups.length < (mg.configGroups
              ++ ([{ fingerprint := buildFingerprint srv, count := 1, servers := [srv],
                     totalStorageTB := srv.totalStorageTB }] : List HardwareGroup)).length := by
            rw [List.length_append]
            simp
          refine ⟨_, List.mem_append.mpr (Or.inr (List.mem_cons_self _ _)),
            hman2, hmod2, h2, ?_⟩
          rw [get_append_last]
      · intro mg1 hmem1 i hi
        rw [href] at hmem1
        rcases List.mem_append.mp hmem1 with hx | hx
        · exact lookupIdx_append_some cim _ _ i
            (hsub mg1 (List.mem_append.mpr (Or.inl hx)) i hi)
        · rcases List.mem_cons.mp hx with rfl | hx
          · exact comp3_append cim mg
              { fingerprint := buildFingerprint srv, count := 1, servers := [srv],
                totalStorageTB := srv.totalStorageTB } _
              (by rw [hman2, hmod2]) hl (fun j hj => hsub mg hmgmid j hj) i hi
          · exact lookupIdx_append_some cim _ _ i
              (hsub mg1 (List.mem_append.mpr (Or.inr (List.mem_cons_of_mem _ hx))) i hi)
    | some idx =>
      obtain ⟨s1, hs1mem, hs1err, hkeq, hkat⟩ :=
        hbind _ idx (lookupIdx_mem cim _ idx hl)
      have hck : srv.combKey = s1.combKey := hkeq
      obtain ⟨hman1, hmod1⟩ := hinj srv hmem s1 hs1mem hsrv hs1err hck
      have hfpk : (buildFingerprint s1).Key = (buildFingerprint srv).Key := by
        have hc := hck
        simp only [ServerInfo.combKey] at hc
        rw [← hman1, ← hmod1] at hc
        exact (combKeyOf_key_inj hc).symm
      obtain ⟨mgx, hmgxmem, hxman, hxmod, hxlt, hxkey⟩ := hkat
      have hmgx_eq : mgx = mg :=
        modelKeys_nodup_unique (pre ++ mg :: post) hmgs.2 mgx hmgxmem mg hmgmid
          (hxman.trans (hman1.symm.trans hman2.symm))
          (hxmod.trans (hmod1.symm.trans hmod2.symm))
      subst hmgx_eq
      have hkey2 : (mgx.configGroups.get ⟨idx, hxlt⟩).fingerprint.Key
          = (buildFingerprint srv).Key := hxkey.trans hfpk
      have hgo := goAddModel_mem_split srv (buildFingerprint srv) cim mgx post
        hman2 hmod2 pre hpre
      simp only [hl] at hgo
      rw [dif_pos hxlt] at hgo
      have hcfgnd : (mgx.configGroups.map (fun cg => cg.fingerprint.Key)).Nodup :=
        (hmgs.1 mgx hmgmid).2
      have href := refAddModel_mem_split srv mgx post hman2 hmod2 pre hpre
      rw [refAddConfig_at (buildFingerprint srv) srv mgx.configGroups idx hxlt
        hcfgnd hkey2] at href
      refine ⟨cim, ?_, hnd, ?_, ?_⟩
      · rw [href]; exact hgo
      · intro k i hki
        rw [href]
        obtain ⟨s2, hs2, he, hk, hkat2⟩ := hbind k i hki
        refine ⟨s2, hs2, he, hk, ?_⟩
        refine hasKeyAt_replace pre post mgx _ ?_ ?_ ?_ _ _ _ _ hkat2
        · rfl
        · rfl
        · intro j hj
          exact bumpAt_key mgx.configGroups idx hxlt srv j hj
      · intro mg1 hmem1 i hi
        rw [href] at hmem1
        rcases List.mem_append.mp hmem1 with hx | hx
        · exact hsub mg1 (List.mem_append.mpr (Or.inl hx)) i hi
        · rcases List.mem_cons.mp hx with rfl | hx
          · exact comp3_bump cim mgx idx hxlt srv
              (fun j hj => hsub mgx hmgmid j hj) i hi
          · exact hsub mg1
              (List.mem_append.mpr (Or.inr (List.mem_cons_of_mem _ hx))) i hi
  · have hl : lookupIdx cim
        (combKeyOf srv.manufacturer srv.model (buildFingerprint srv).Key) = none := by
      cases hl2 : lookupIdx cim
          (combKeyOf srv.manufacturer srv.model (buildFingerprint srv).Key) with
      | none => rfl
      | some i =>
        obtain ⟨s1, hs1mem, hs1err, hkeq, hkat⟩ :=
          hbind _ i (lookupIdx_mem cim _ i hl2)
        have hck : srv.combKey = s1.combKey := hkeq
        obtain ⟨hman1, hmod1⟩ := hinj srv hmem s1 hs1mem hsrv hs1err hck
        obtain ⟨mgx, hmgxmem, hxman, hxmod, _, _⟩ := hkat
        refine absurd ?_ hpm
        have hmm : (mgx.manufacturer, mgx.model) ∈ modelKeys mgs :=
          List.mem_map_of_mem _ hmgxmem
        rw [hxman, hxmod, ← hman1, ← hmod1] at hmm
        exact hmm
    have hgo := goAddModel_not_mem srv (buildFingerprint srv) cim mgs hpm
    simp only [hl] at hgo
    have href := refAddModel_not_mem srv mgs hpm
    refine ⟨cim ++ [(combKeyOf srv.manufacturer srv.model
      (buildFingerprint srv).Key, 0)], ?_, ?_, ?_, ?_⟩
    · rw [href]; exact hgo
    · rw [List.map_append]
      exact nodup_append_singleton ((lookupIdx_eq_none _ _).mp hl) hnd
    · intro k i hki
      rw [href]
      rcases List.mem_append.mp hki with hx | hx
      · obtain ⟨s1, hs1, he, hk, hkat⟩ := hbind k i hx
        exact ⟨s1, hs1, he, hk, hasKeyAt_extend mgs _ _ _ _ i hkat⟩
      · have hx2 : (k, i)
            = (combKeyOf srv.manufacturer srv.model (buildFingerprint srv).Key, 0) :=
          List.mem_singleton.mp hx
        have hkk : k = combKeyOf srv.manufacturer srv.model
            (buildFingerprint srv).Key := congrArg Prod.fst hx2
        have hii : i = 0 := congrArg Prod.snd hx2
        subst hkk
        subst hii
        refine ⟨srv, hmem, hsrv, rfl, ?_⟩
        refine ⟨_, List.mem_append.mpr (Or.inr (List.mem_cons_self _ _)),
          rfl, rfl, by simp [refAddConfig], rfl⟩
    · intro mg1 hmem1 i hi
      rw [href] at hmem1
      rcases List.mem_append.mp hmem1 with hx | hx
      · exact lookupIdx_append_some cim _ _ i (hsub mg1 hx i hi)
      · rcases List.mem_cons.mp hx with rfl | hx
        · have hi0 : i = 0 := by
            have := hi
            simp [refAddConfig] at this
            omega
          subst hi0
          exact lookupIdx_append_new cim _ _ hl
        · exact absurd hx (List.not_mem_nil _)

theorem goAggFold_eq_ref (all : List ServerInfo) (hinj : combKeyInj all) :
    ∀ (suf pre : List ServerInfo), all = pre ++ suf →
    ∀ (st : RefAggState) (cim : List (String × Nat)),
      cimInv all cim st.modelGroups → mgsInvariant st.modelGroups →
      ∃ cim2, goAggFold ⟨st.failedServers, st.failedCount, st.successfulCount,
          st.modelGroups, cim⟩ suf
        = some ⟨(suf.foldl refAggStep st).failedServers,
                (suf.foldl refAggStep st).failedCount,
                (suf.foldl refAggStep st).successfulCount,
                (suf.foldl refAggStep st).modelGroups, cim2⟩
  | [], pre, hall, st, cim, hinv, hmgs => ⟨cim, rfl⟩
  | srv :: rest, pre, hall, st, cim, hinv, hmgs => by
    have hall2 : all = (pre ++ [srv]) ++ rest := by
      rw [hall, List.append_assoc]
      rfl
    cases herr : srv.error with
    | some e =>
      obtain ⟨cim2, hfold⟩ := goAggFold_eq_ref all hinj rest (pre ++ [srv]) hall2
        { st with failedServers := st.failedServers ++ [srv],
                  failedCount := st.failedCount + 1 } cim hinv hmgs
      refine ⟨cim2, ?_⟩
      show goAggFold _ (srv :: rest) = _
      simp only [goAggFold, goAggStep, herr]
      rw [List.foldl_cons, (refAggStep_fields st srv).2 e herr]
      exact hfold
    | none =>
      have hsrvmem : srv ∈ all := by
        rw [hall]
        exact List.mem_append.mpr (Or.inr (List.mem_cons_self _ _))
      obtain ⟨cim2, hstep, hinv2⟩ := goRefAddModel_eq all hinj srv hsrvmem herr cim
        st.modelGroups hinv hmgs
      have hmgs2 : mgsInvariant (refAddModel srv st.modelGroups) :=
        refAddModel_invariant srv herr _ hmgs
      obtain ⟨cim3, hfold⟩ := goAggFold_eq_ref all hinj rest (pre ++ [srv]) hall2
        { st with successfulCount := st.successfulCount + 1,
                  modelGroups := refAddModel srv st.modelGroups } cim2 hinv2 hmgs2
      refine ⟨cim3, ?_⟩
      show goAggFold _ (srv :: rest) = _
      simp only [goAggFold, goAggStep, herr, hstep]
      rw [List.foldl_cons, (refAggStep_fields st srv).1 herr]
      exact hfold

/-- **C2** (corrected).  When no two successful records map distinct
`(manufacturer, model)` pairs to the same shared `configIdxMap` key —
the `|`-ambiguity of `fmt.Sprintf("%s|%s\x00%s", ...)` otherwise
mis-buckets a record or panics — `GroupByConfiguration` returns an
inventory forming the claimed two-level hierarchy: every server of every
config subgroup is successful, carries the model group's exact
(manufacturer, model) pair — no case folding or trimming — and the
subgroup's fingerprint key (the fingerprint excluding manufacturer and
model); within a model group the subgroups bear pairwise distinct
fingerprint keys, so records with the same fingerprint form one subgroup;
distinct model groups bear distinct (manufacturer, model) pairs; model
groups are ordered by `total_count` descending and subgroups inside each
model group by `count` descending (ties in first-encounter order are
permitted by the claim and not constrained here); and every successful
input record lands in the subgroup of its pair and fingerprint key. -/
theorem groupByConfiguration_hierarchy (servers : List ServerInfo)
    (stats : CollectionStats) (hinj : combKeyInj servers) :
    ∃ inv, GroupByConfiguration servers stats = some inv ∧
      (∀ mg ∈ inv.modelGroups,
          (∀ cg ∈ mg.configGroups, ∀ srv ∈ cg.servers,
            srv.error = none ∧ srv.manufacturer = mg.manufacturer ∧
              srv.model = mg.model ∧ (buildFingerprint srv).Key = cg.fingerprint.Key) ∧
          (configKeys mg).Nodup ∧
          mg.configGroups.Pairwise cgGE) ∧
      (modelKeys inv.modelGroups).Nodup ∧
      inv.modelGroups.Pairwise mgGE ∧
      (∀ srv ∈ servers, srv.error = none →
          containsServer inv.modelGroups srv) := by
  have hinv0 : cimInv servers [] refAggInit.modelGroups :=
    ⟨by simp, fun k i h => absurd h (List.not_mem_nil _),
     fun mg h => absurd h (List.not_mem_nil _)⟩
  have hmgs0 : mgsInvariant refAggInit.modelGroups :=
    ⟨fun mg h => absurd h (List.not_mem_nil _), by simp [refAggInit, modelKeys]⟩
  obtain ⟨cim2, hfold⟩ :=
    goAggFold_eq_ref servers hinj servers [] rfl refAggInit [] hinv0 hmgs0
  have hfold2 : goAggFold goAggInit servers
      = some ⟨(servers.foldl refAggStep refAggInit).failedServers,
              (servers.foldl refAggStep refAggInit).failedCount,
              (servers.foldl refAggStep refAggInit).successfulCount,
              (servers.foldl refAggStep refAggInit).modelGroups, cim2⟩ := hfold
  have hinv : mgsInvariant (servers.foldl refAggStep refAggInit).modelGroups :=
    refAggFold_invariant servers refAggInit
      ⟨fun mg hmg => absurd hmg (List.not_mem_nil _), by simp [refAggInit, modelKeys]⟩
  have hfin : (assembleInventory servers stats
      ⟨(servers.foldl refAggStep refAggInit).failedServers,
       (servers.foldl refAggStep refAggInit).failedCount,
       (servers.foldl refAggStep refAggInit).successfulCount,
       (servers.foldl refAggStep refAggInit).modelGroups, cim2⟩).modelGroups
      = (List.insertionSort mgGE (servers.foldl refAggStep refAggInit).modelGroups).map
          (fun mg => { mg with configGroups := List.insertionSort cgGE mg.configGroups }) :=
    rfl
  refine ⟨assembleInventory servers stats
    ⟨(servers.foldl refAggStep refAggInit).failedServers,
     (servers.foldl refAggStep refAggInit).failedCount,
     (servers.foldl refAggStep refAggInit).successfulCount,
     (servers.foldl refAggStep refAggInit).modelGroups, cim2⟩, ?_, ?_, ?_, ?_, ?_⟩
  · simp only [GroupByConfiguration, hfold2]
  · intro mg hmg
    rw [hfin] at hmg
    obtain ⟨mg₀, hmg₀s, rfl⟩ := List.mem_map.mp hmg
    have hmg₀ : mg₀ ∈ (servers.foldl refAggStep refAggInit).modelGroups :=
      (List.perm_insertionSort mgGE _).mem_iff.mp hmg₀s
    obtain ⟨hwf, hnd⟩ := hinv.1 mg₀ hmg₀
    refine ⟨?_, ?_, ?_⟩
    · intro cg hcg srv hsrv
      have hcg₀ : cg ∈ mg₀.configGroups :=
        (List.perm_insertionSort cgGE _).mem_iff.mp hcg
      exact hwf cg hcg₀ srv hsrv
    · show ((List.insertionSort cgGE mg₀.configGroups).map
        (fun cg => cg.fingerprint.Key)).Nodup
      rw [((List.perm_insertionSort cgGE mg₀.configGroups).map
        (fun cg => cg.fingerprint.Key)).nodup_iff]
      exact hnd
    · exact List.sorted_insertionSort cgGE mg₀.configGroups
  · rw [hfin]
    have h2 : ((servers.foldl refAggStep refAggInit).modelGroups.map
        (fun mg => (mg.manufacturer, mg.model))).Nodup := hinv.2
    simp only [modelKeys, List.map_map]
    exact (((List.perm_insertionSort mgGE _).map
      (fun mg => (mg.manufacturer, mg.model))).nodup_iff).mpr h2
  · rw [hfin]
    rw [List.pairwise_map]
    exact (List.sorted_insertionSort mgGE _).imp (fun h => h)
  · intro srv hs herr
    obtain ⟨mg₀, hmg₀, hman, hmod, cg, hcg, hkey, hsin⟩ :=
      refAggFold_contains servers refAggInit srv hs herr
    rw [show containsServer (assembleInventory servers stats
      ⟨(servers.foldl refAggStep refAggInit).failedServers,
       (servers.foldl refAggStep refAggInit).failedCount,
       (servers.foldl refAggStep refAggInit).successfulCount,
       (servers.foldl refAggStep refAggInit).modelGroups, cim2⟩).modelGroups srv
      = containsServer ((List.insertionSort mgGE
          (servers.foldl refAggStep refAggInit).modelGroups).map
          (fun mg => { mg with
                       configGroups := List.insertionSort cgGE mg.configGroups })) srv
      from rfl]
    refine ⟨_, List.mem_map_of_mem _
      ((List.perm_insertionSort mgGE _).mem_iff.mpr hmg₀), hman, hmod, cg, ?_, hkey, hsin⟩
    exact (List.perm_insertionSort cgGE _).mem_iff.mpr hcg

/-- Two successful records whose distinct pairs `("a|b","c")` and
`("a","b|c")` serialize to the same shared-map key prefix `a|b|c`, with
identical (zero-value) hardware. -/
def srvCA : ServerInfo :=
  { ServerInfo.zero with manufacturer := "a|b", model := "c" }

/-- The colliding pair with different hardware (one CPU socket counted),
so its combined key differs from `srvCA`'s. -/
def srvCB : ServerInfo :=
  { ServerInfo.zero with manufacturer := "a", model := "b|c", cpuCount := 1 }

/-- The colliding pair with `srvCA`'s hardware: its combined key equals
`srvCA`'s although the `(manufacturer, model)` pairs differ. -/
def srvCC : ServerInfo :=
  { ServerInfo.zero with manufacturer := "a", model := "b|c" }

/-- An all-zero stats record for the concrete runs. -/
def statsW : CollectionStats :=
  { totalServers := 0, successfulCount := 0, failedCount := 0, totalDuration := 0,
    averageDuration := 0, fastestDuration := 0, slowestDuration := 0 }

/-- The key of a fingerprint starts with the decimal CPU count: the head
character of an append chain is the head of its leftmost segment. -/
theorem head_append_left (s t : String) (c : Char)
    (h : s.data.head? = some c) : (s ++ t).data.head? = some c := by
  rw [String.data_append]
  cases hs : s.data with
  | nil => rw [hs] at h; cases h
  | cons a l =>
    rw [hs] at h
    cases h
    rfl

theorem string_head_ne {s t : String} {c1 c2 : Char}
    (h1 : s.data.head? = some c1) (h2 : t.data.head? = some c2)
    (hne : c1 ≠ c2) : s ≠ t := by
  intro he
  rw [he, h2] at h1
  injection h1 with h1
  exact hne h1.symm

theorem key_head_CA : (buildFingerprint srvCA).Key.data.head? = some '0' := by
  simp only [HardwareFingerprint.Key]
  repeat apply head_append_left
  rfl

theorem key_head_CB : (buildFingerprint srvCB).Key.data.head? = some '1' := by
  simp only [HardwareFingerprint.Key]
  repeat apply head_append_left
  rfl

/-- The combined keys of `srvCA` and `srvCB` differ (in the fingerprint
part: CPU counts 0 and 1), although their pair prefixes coincide. -/
theorem ckA_ne_ckB :
    combKeyOf srvCA.manufacturer srvCA.model (buildFingerprint srvCA).Key
      ≠ combKeyOf srvCB.manufacturer srvCB.model (buildFingerprint srvCB).Key := by
  intro he
  have hd := congrArg String.data he
  rw [show srvCA.manufacturer = "a|b" from rfl, show srvCA.model = "c" from rfl,
      show srvCB.manufacturer = "a" from rfl, show srvCB.model = "b|c" from rfl] at hd
  simp only [combKeyOf, String.data_append] at hd
  simp only [List.cons_append, List.nil_append, List.append_assoc,
    List.cons.injEq, true_and] at hd
  have h1 := key_head_CA
  rw [hd] at h1
  rw [key_head_CB] at h1
  exact absurd h1 (by decide)

/-- **C1** (counterexample): two successful records with identical hardware
whose distinct pairs `("a|b","c")` and `("a","b|c")` collide in the shared
map: processing the second record creates a fresh model group with no
subgroups, yet the shared `configIdxMap` hit points at index 0 of that
empty slice, so Go panics with an index-out-of-range error and no
inventory satisfying the claimed counts is returned at all. -/
theorem groupByConfiguration_panic_counterexample :
    srvCA.error = none ∧ srvCC.error = none ∧
    GroupByConfiguration [srvCA, srvCC] statsW = none := by
  refine ⟨rfl, rfl, ?_⟩
  have hck : combKeyOf srvCA.manufacturer srvCA.model (buildFingerprint srvCA).Key
      = combKeyOf srvCC.manufacturer srvCC.model (buildFingerprint srvCC).Key := rfl
  have hstep1 : goAggFold goAggInit [srvCA, srvCC]
      = goAggFold ⟨[], 0, 1,
          [{ manufacturer := srvCA.manufacturer, model := srvCA.model, totalCount := 1,
             configGroups := [{ fingerprint := buildFingerprint srvCA, count := 1,
                                servers := [srvCA],
                                totalStorageTB := srvCA.totalStorageTB }] }],
          [(combKeyOf srvCA.manufacturer srvCA.model (buildFingerprint srvCA).Key, 0)]⟩
          [srvCC] := rfl
  have hlook : lookupIdx
      [(combKeyOf srvCA.manufacturer srvCA.model (buildFingerprint srvCA).Key, 0)]
      (combKeyOf srvCC.manufacturer srvCC.model (buildFingerprint srvCC).Key)
      = some 0 := by
    simp only [lookupIdx]
    rw [if_pos hck]
  have hadd : goAddModel srvCC (buildFingerprint srvCC)
      [(combKeyOf srvCA.manufacturer srvCA.model (buildFingerprint srvCA).Key, 0)]
      [{ manufacturer := srvCA.manufacturer, model := srvCA.model, totalCount := 1,
         configGroups := [{ fingerprint := buildFingerprint srvCA, count := 1,
                            servers := [srvCA],
                            totalStorageTB := srvCA.totalStorageTB }] }] = none := by
    simp only [goAddModel]
    rw [if_neg (by decide :
      ¬ (srvCA.manufacturer = srvCC.manufacturer ∧ srvCA.model = srvCC.model))]
    simp only [goAddModel, hlook]
  simp only [GroupByConfiguration]
  rw [hstep1]
  simp only [goAggFold, goAggStep, show srvCC.error = none from rfl, hadd]

/-- A plain successful record. -/
def srvW1 : ServerInfo :=
  { ServerInfo.zero with host := "h1", manufacturer := "m", model := "x" }

/-- A failed record. -/
def srvW2 : ServerInfo :=
  { ServerInfo.zero with host := "h2", error := some "unreachable" }

/-- The inventory `GroupByConfiguration` returns on `[srvW1, srvW2]`. -/
def invW : AggregatedInventory :=
  { generatedAt := 0, totalServers := 2, successfulCount := 1, failedCount := 1,
    modelGroups := [{ manufacturer := "m", model := "x", totalCount := 1,
                      configGroups := [{ fingerprint := buildFingerprint srvW1,
                                         count := 1, servers := [srvW1],
                                         totalStorageTB := srvW1.totalStorageTB }] }],
    failedServers := [srvW2], stats := statsW }

/-- `groupByConfiguration_counts` applied to the concrete two-record run
(one success, one failure). -/
theorem groupByConfiguration_counts_witness :
    invW.totalServers = [srvW1, srvW2].length ∧
    invW.successfulCount = [srvW1, srvW2].countP (fun s => s.error.isNone) ∧
    invW.successfulCount = mgSum invW.modelGroups ∧
    invW.failedCount = invW.failedServers.length ∧
    invW.successfulCount + invW.failedCount = invW.totalServers :=
  groupByConfiguration_counts [srvW1, srvW2] statsW invW rfl

/-- **C2** (counterexample): three successful records; the first two get
their own model groups and subgroups, but the third — same hardware as the
first, same `(manufacturer, model)` pair as the second — hits the shared
binding the first record wrote and is appended to the second record's
subgroup, whose fingerprint key differs from its own: the returned
hierarchy mis-buckets the record. -/
theorem groupByConfiguration_misbucket_counterexample :
    srvCB.error = none ∧ srvCC.error = none ∧
    (buildFingerprint srvCC).Key ≠ (buildFingerprint srvCB).Key ∧
    ∃ inv, GroupByConfiguration [srvCA, srvCB, srvCC] statsW = some inv ∧
      ∃ mg ∈ inv.modelGroups, ∃ cg ∈ mg.configGroups,
        srvCC ∈ cg.servers ∧ (buildFingerprint srvCC).Key ≠ cg.fingerprint.Key := by
  have hkne : (buildFingerprint srvCC).Key ≠ (buildFingerprint srvCB).Key :=
    string_head_ne key_head_CA key_head_CB (by decide)
  refine ⟨rfl, rfl, hkne, ?_⟩
  have hstep1 : goAggFold goAggInit [srvCA, srvCB, srvCC]
      = goAggFold ⟨[], 0, 1,
          [{ manufacturer := srvCA.manufacturer, model := srvCA.model, totalCount := 1,
             configGroups := [{ fingerprint := buildFingerprint srvCA, count := 1,
                                servers := [srvCA],
                                totalStorageTB := srvCA.totalStorageTB }] }],
          [(combKeyOf srvCA.manufacturer srvCA.model (buildFingerprint srvCA).Key, 0)]⟩
          [srvCB, srvCC] := rfl
  have hlookB : lookupIdx
      [(combKeyOf srvCA.manufacturer srvCA.model (buildFingerprint srvCA).Key, 0)]
      (combKeyOf srvCB.manufacturer srvCB.model (buildFingerprint srvCB).Key)
      = none := by
    simp only [lookupIdx]
    rw [if_neg ckA_ne_ckB]
  have haddB : goAddModel srvCB (buildFingerprint srvCB)
      [(combKeyOf srvCA.manufacturer srvCA.model (buildFingerprint srvCA).Key, 0)]
      [{ manufacturer := srvCA.manufacturer, model := srvCA.model, totalCount := 1,
         configGroups := [{ fingerprint := buildFingerprint srvCA, count := 1,
                            servers := [srvCA],
                            totalStorageTB := srvCA.totalStorageTB }] }]
      = some ([{ manufacturer := srvCA.manufacturer, model := srvCA.model,
                 totalCount := 1,
                 configGroups := [{ fingerprint := buildFingerprint srvCA, count := 1,
                                    servers := [srvCA],
                                    totalStorageTB := srvCA.totalStorageTB }] },
               { manufacturer := srvCB.manufacturer, model := srvCB.model,
                 totalCount := 1,
                 configGroups := [{ fingerprint := buildFingerprint srvCB, count := 1,
                                    servers := [srvCB],
                                    totalStorageTB := srvCB.totalStorageTB }] }],
              [(combKeyOf srvCA.manufacturer srvCA.model (buildFingerprint srvCA).Key, 0),
               (combKeyOf srvCB.manufacturer srvCB.model (buildFingerprint srvCB).Key,
                0)]) := by
    simp only [goAddModel]
    rw [if_neg (by decide :
      ¬ (srvCA.manufacturer = srvCB.manufacturer ∧ srvCA.model = srvCB.model))]
    simp only [goAddModel, hlookB]
    rfl
  have hlookC : lookupIdx
      [(combKeyOf srvCA.manufacturer srvCA.model (buildFingerprint srvCA).Key, 0),
       (combKeyOf srvCB.manufacturer srvCB.model (buildFingerprint srvCB).Key, 0)]
      (combKeyOf srvCC.manufacturer srvCC.model (buildFingerprint srvCC).Key)
      = some 0 := by
    have hckAC : combKeyOf srvCA.manufacturer srvCA.model (buildFingerprint srvCA).Key
        = combKeyOf srvCC.manufacturer srvCC.model (buildFingerprint srvCC).Key := rfl
    simp only [lookupIdx]
    rw [if_pos hckAC]
  have haddC : goAddModel srvCC (buildFingerprint srvCC)
      [(combKeyOf srvCA.manufacturer srvCA.model (buildFingerprint srvCA).Key, 0),
       (combKeyOf srvCB.manufacturer srvCB.model (buildFingerprint srvCB).Key, 0)]
      [{ manufacturer := srvCA.manufacturer, model := srvCA.model, totalCount := 1,
         configGroups := [{ fingerprint := buildFingerprint srvCA, count := 1,
                            servers := [srvCA],
                            totalStorageTB := srvCA.totalStorageTB }] },
       { manufacturer := srvCB.manufacturer, model := srvCB.model, totalCount := 1,
         configGroups := [{ fingerprint := buildFingerprint srvCB, count := 1,
                            servers := [srvCB],
                            totalStorageTB := srvCB.totalStorageTB }] }]
      = some ([{ manufacturer := srvCA.manufacturer, model := srvCA.model,
                 totalCount := 1,
                 configGroups := [{ fingerprint := buildFingerprint srvCA, count := 1,
                                    servers := [srvCA],
                                    totalStorageTB := srvCA.totalStorageTB }] },
               { manufacturer := srvCB.manufacturer, model := srvCB.model,
                 totalCount := 1 + 1,
                 configGroups := [{ fingerprint := buildFingerprint srvCB,
                                    count := 1 + 1, servers := [srvCB, srvCC],
                                    totalStorageTB := srvCB.totalStorageTB }] }],
              [(combKeyOf srvCA.manufacturer srvCA.model (buildFingerprint srvCA).Key, 0),
               (combKeyOf srvCB.manufacturer srvCB.model (buildFingerprint srvCB).Key,
                0)]) := by
    have hpB : srvCB.manufacturer = srvCC.manufacturer ∧ srvCB.model = srvCC.model :=
      ⟨rfl, rfl⟩
    have hlen : 0 < ([{ fingerprint := buildFingerprint srvCB, count := 1, servers := [srvCB], totalStorageTB := srvCB.totalStorageTB }] : List HardwareGroup).length := by simp
    simp only [goAddModel]
    rw [if_neg (by decide :
      ¬ (srvCA.manufacturer = srvCC.manufacturer ∧ srvCA.model = srvCC.model))]
    rw [if_pos hpB]
    simp only [hlookC]
    rw [dif_pos hlen]
    rfl
  have hfold : goAggFold goAggInit [srvCA, srvCB, srvCC]
      = some ⟨[], 0, 1 + 1 + 1,
          [{ manufacturer := srvCA.manufacturer, model := srvCA.model, totalCount := 1,
             configGroups := [{ fingerprint := buildFingerprint srvCA, count := 1,
                                servers := [srvCA],
                                totalStorageTB := srvCA.totalStorageTB }] },
           { manufacturer := srvCB.manufacturer, model := srvCB.model,
             totalCount := 1 + 1,
             configGroups := [{ fingerprint := buildFingerprint srvCB, count := 1 + 1,
                                servers := [srvCB, srvCC],
                                totalStorageTB := srvCB.totalStorageTB }] }],
          [(combKeyOf srvCA.manufacturer srvCA.model (buildFingerprint srvCA).Key, 0),
           (combKeyOf srvCB.manufacturer srvCB.model (buildFingerprint srvCB).Key,
            0)]⟩ := by
    rw [hstep1]
    simp only [goAggFold, goAggStep, show srvCB.error = none from rfl,
      show srvCC.error = none from rfl, haddB, haddC]
  refine ⟨_, by simp only [GroupByConfiguration, hfold]; rfl, ?_⟩
  refine ⟨{ manufacturer := srvCB.manufacturer, model := srvCB.model,
            totalCount := 1 + 1,
            configGroups := [{ fingerprint := buildFingerprint srvCB, count := 1 + 1,
                               servers := [srvCB, srvCC],
                               totalStorageTB := srvCB.totalStorageTB }] },
    ?_, { fingerprint := buildFingerprint srvCB, count := 1 + 1,
          servers := [srvCB, srvCC], totalStorageTB := srvCB.totalStorageTB },
    List.mem_cons_self _ _,
    List.mem_cons_of_mem _ (List.mem_cons_self _ _), hkne⟩
  show _ ∈ (assembleInventory _ _ _).modelGroups
  rw [show (assembleInventory [srvCA, srvCB, srvCC] statsW
      ⟨[], 0, 1 + 1 + 1,
       [{ manufacturer := srvCA.manufacturer, model := srvCA.model, totalCount := 1,
          configGroups := [{ fingerprint := buildFingerprint srvCA, count := 1,
                             servers := [srvCA],
                             totalStorageTB := srvCA.totalStorageTB }] },
        { manufacturer := srvCB.manufacturer, model := srvCB.model,
          totalCount := 1 + 1,
          configGroups := [{ fingerprint := buildFingerprint srvCB, count := 1 + 1,
                             servers := [srvCB, srvCC],
                             totalStorageTB := srvCB.totalStorageTB }] }],
       [(combKeyOf srvCA.manufacturer srvCA.model (buildFingerprint srvCA).Key, 0),
        (combKeyOf srvCB.manufacturer srvCB.model (buildFingerprint srvCB).Key,
         0)]⟩).modelGroups
    = [{ manufacturer := srvCB.manufacturer, model := srvCB.model,
         totalCount := 1 + 1,
         configGroups := [{ fingerprint := buildFingerprint srvCB, count := 1 + 1,
                            servers := [srvCB, srvCC],
                            totalStorageTB := srvCB.totalStorageTB }] },
       { manufacturer := srvCA.manufacturer, model := srvCA.model, totalCount := 1,
         configGroups := [{ fingerprint := buildFingerprint srvCA, count := 1,
                            servers := [srvCA],
                            totalStorageTB := srvCA.totalStorageTB }] }] from rfl]
  exact List.mem_cons_self _ _

/-- `groupByConfiguration_hierarchy` applied to the concrete two-record
run, whose combined keys are collision-free. -/
theorem groupByConfiguration_hierarchy_witness :
    ∃ inv, GroupByConfiguration [srvW1, srvW2] statsW = some inv ∧
      (∀ mg ∈ inv.modelGroups,
          (∀ cg ∈ mg.configGroups, ∀ srv ∈ cg.servers,
            srv.error = none ∧ srv.manufacturer = mg.manufacturer ∧
              srv.model = mg.model ∧ (buildFingerprint srv).Key = cg.fingerprint.Key) ∧
          (configKeys mg).Nodup ∧
          mg.configGroups.Pairwise cgGE) ∧
      (modelKeys inv.modelGroups).Nodup ∧
      inv.modelGroups.Pairwise mgGE ∧
      (∀ srv ∈ [srvW1, srvW2], srv.error = none →
          containsServer inv.modelGroups srv) :=
  groupByConfiguration_hierarchy [srvW1, srvW2] statsW (by
    intro s1 h1 s2 h2 he1 he2 hck
    rcases List.mem_cons.mp h1 with rfl | h1
    · rcases List.mem_cons.mp h2 with rfl | h2
      · exact ⟨rfl, rfl⟩
      · rcases List.mem_singleton.mp h2 with rfl
        exact absurd he2 (by decide)
    · rcases List.mem_singleton.mp h1 with rfl
      exact absurd he1 (by decide))

/-! ## C7 — the per-host timeout resolution
(`internal/config/helpers.go`, `internal/config/config.go`) -/

/-- `config.secondsPtrToDuration`: convert an optional seconds value to a
duration in nanoseconds (`time.Duration(n) * time.Second`), falling back to
the default when the pointer is nil or the value non-positive. -/
def secondsPtrToDuration (seconds : Option Int) (defaultDuration : Int) : Int :=
  match seconds with
  | none => defaultDuration
  | some s => if s ≤ 0 then defaultDuration else s * 1000000000

/-- `config.ServerConfig` (the fields the timeout claims mention). -/
structure ServerConfig where
  host : String
  username : String
  password : String
  name : String
  insecureSkipVerify : Option Bool
  timeoutSeconds : Option Int
deriving DecidableEq, Repr

/-- `config.ServerConfig.GetTimeout`: the timeout for this server
(host-specific when set, else the supplied default). -/
def ServerConfig.GetTimeout (s : ServerConfig) (defaultTimeout : Int) : Int :=
  secondsPtrToDuration s.timeoutSeconds defaultTimeout

/-- A host entry with a 120-second timeout, scanned with a 60-second
default timeout. -/
def hostWith120s : ServerConfig :=
  { host := "10.0.0.1", username := "", password := "", name := "",
    insecureSkipVerify := none, timeoutSeconds := some 120 }

/-- **C7 counterexample.** With a host-specific timeout of 120 s and a
default timeout of 60 s both set, the resolved timeout that `scanServer`
passes to `context.WithTimeout` is the host-specific 120 s, not
`min(host-specific, default) = 60 s`. -/
theorem getTimeout_not_min :
    hostWith120s.GetTimeout (60 * 1000000000) = 120 * 1000000000 ∧
    min ((120 : Int) * 1000000000) (60 * 1000000000) = 60 * 1000000000 ∧
    hostWith120s.GetTimeout (60 * 1000000000)
      ≠ min ((120 : Int) * 1000000000) (60 * 1000000000) := by
  refine ⟨rfl, by decide, by decide⟩

/-- **C7 (amended).** The resolved per-host timeout is the host-specific
timeout whenever one is set and positive — even when it exceeds the
default — and the default timeout otherwise; it coincides with
`min(host-specific, default)` exactly when the set host-specific timeout
does not exceed the default.  (The per-host context built from it is
additionally capped by the incoming context's deadline via
`context.WithTimeout`.) -/
theorem getTimeout_resolved (s : ServerConfig) (d : Int) :
    (s.GetTimeout d = match s.timeoutSeconds with
      | some t => if 0 < t then t * 1000000000 else d
      | none => d) ∧
    (∀ t : Int, s.timeoutSeconds = some t → 0 < t →
      (s.GetTimeout d = min (t * 1000000000) d ↔ t * 1000000000 ≤ d)) := by
  constructor
  · cases hts : s.timeoutSeconds with
    | none => simp [ServerConfig.GetTimeout, secondsPtrToDuration, hts]
    | some t =>
      simp only [ServerConfig.GetTimeout, secondsPtrToDuration, hts]
      by_cases h : t ≤ 0
      · rw [if_pos h, if_neg (by omega)]
      · rw [if_neg h, if_pos (by omega)]
  · intro t ht hpos
    simp only [ServerConfig.GetTimeout, secondsPtrToDuration, ht]
    rw [if_neg (by omega)]
    constructor
    · intro h
      rw [h]
      exact min_le_right _ _
    · intro h
      rw [min_eq_left h]

/-! ## C9 — the custom-fields PATCH payload (`internal/netbox`, the
client file with GPU and power fields) -/

/-- Stand-in for Go's `time.Format(time.RFC3339)`: all claims about the
payload depend only on the presence of this string, never its contents. -/
def formatRFC3339 (t : Nat) : String := toString t

/-- Stand-in for Go's `fmt.Sprintf("%.2f", x)`: all claims about the
payload depend only on the presence of this string, never its contents. -/
def formatFloat2 (q : ℚ) : String := toString q

/-- The NetBox custom fields the client is configured with
(`netbox.FieldNames`; the configured names are assumed pairwise distinct,
as the defaults are, so the payload map is keyed by the field itself). -/
inductive CFField where
  | cpuCount | cpuModel | ramTotalGB | ramSlotsTotal | ramSlotsUsed | ramSlotsAvailable
  | storageTotalTB | biosVersion | powerState | lastInventory
  | cpuCores | ramType | ramSpeedMHz | diskCount | storageSummary
  | powerConsumedWatts | powerPeakWatts | gpuCount | gpuModel | gpuMemoryGB
deriving DecidableEq, Repr

/-- A value of the `map[string]interface{}` payload: the Go code stores
ints and strings. -/
inductive CFValue where
  | int (n : Int)
  | str (s : String)
deriving DecidableEq, Repr

/-- Insertion into the payload map. -/
def setField (m : CFField → Option CFValue) (f : CFField) (v : CFValue) :
    CFField → Option CFValue :=
  fun g => if g = f then some v else m g

/-- `netbox.Client.buildStorageSummary`: drives grouped by truncated
capacity GB (all distinct capacities, sorted ascending by `sort.Ints`,
which makes the Go map's iteration order irrelevant), each rendered
`"<count>x<cap>GB"`, joined with `", "`. -/
def buildStorageSummary (drives : List DriveInfo) : String :=
  let caps := (drives.map (fun d => goTruncate d.capacityGB)).dedup
  let sorted := List.insertionSort (fun a b : Int => a ≤ b) caps
  String.intercalate ", " (sorted.map (fun c =>
    toString (drives.countP (fun d => goTruncate d.capacityGB = c)) ++ "x"
      ++ toString c ++ "GB"))

/-- The grouping key of `buildGPUSummary`. -/
structure gpuKey where
  model : String
  memoryGB : Int
deriving DecidableEq, Repr

/-- The key of one GPU: model and truncated `MemoryGB()`. -/
def gpuKeyOf (g : GPUInfo) : gpuKey :=
  { model := g.model, memoryGB := goTruncate g.MemoryGB }

/-- `netbox.Client.buildGPUSummary`: GPUs grouped by (model, GB) in
first-encounter order (`order` slice; `counts[k] == 0` coincides with
`k ∉ order`), rendered `"<count>× <model>"` with an optional
`" (<GB> GB)"`, joined with `", "`. -/
def buildGPUSummary (gpus : List GPUInfo) : String :=
  let keys := gpus.foldl
    (fun ks g => if gpuKeyOf g ∈ ks then ks else ks ++ [gpuKeyOf g]) []
  String.intercalate ", " (keys.map (fun k =>
    let entry := toString (gpus.countP (fun g => gpuKeyOf g = k)) ++ "× " ++ k.model
    if k.memoryGB > 0 then entry ++ " (" ++ toString k.memoryGB ++ " GB)" else entry))

/-- The base payload of `netbox.Client.buildCustomFields`: the map literal
the function starts from (ten fields, always present). -/
def cfBase (info : ServerInfo) : CFField → Option CFValue := fun f =>
  match f with
  | .cpuCount => some (.int info.cpuCount)
  | .cpuModel => some (.str info.cpuModel)
  | .ramTotalGB => some (.int (goTruncate info.totalMemoryGiB))
  | .ramSlotsTotal => some (.int info.memorySlotsTotal)
  | .ramSlotsUsed => some (.int info.memorySlotsUsed)
  | .ramSlotsAvailable => some (.int info.memorySlotsFree)
  | .storageTotalTB => some (.str (formatFloat2 info.totalStorageTB))
  | .biosVersion => some (.str info.biosVersion)
  | .powerState => some (.str info.powerState)
  | .lastInventory => some (.str (formatRFC3339 info.collectedAt))
  | _ => none

/-- The payload after `if len(info.CPUs) > 0 { fields[CPUCores] = … }`. -/
def cfAfterCPU (info : ServerInfo) : CFField → Option CFValue :=
  match info.cpus with
  | c :: _ => setField (cfBase info) .cpuCores (.int c.cores)
  | [] => cfBase info

/-- The payload after the loop that takes type and speed from the first
populated DIMM (`break` after the first hit makes the loop a `find?`). -/
def cfAfterRAM (info : ServerInfo) : CFField → Option CFValue :=
  match info.memory.find? (fun m => m.IsPopulated) with
  | some m =>
    setField (setField (cfAfterCPU info) .ramType (.str m.type'))
      .ramSpeedMHz (.int m.speedMHz)
  | none => cfAfterCPU info

/-- The payload after `fields[DiskCount] = info.DriveCount`. -/
def cfAfterDisk (info : ServerInfo) : CFField → Option CFValue :=
  setField (cfAfterRAM info) .diskCount (.int info.driveCount)

/-- The payload after `if len(info.Drives) > 0 { fields[StorageSummary] = … }`. -/
def cfAfterStorage (info : ServerInfo) : CFField → Option CFValue :=
  if info.drives = [] then cfAfterDisk info
  else setField (cfAfterDisk info) .storageSummary (.str (buildStorageSummary info.drives))

/-- The payload after the two conditional power fields. -/
def cfAfterPower (info : ServerInfo) : CFField → Option CFValue :=
  let f5 := if info.powerConsumedWatts > 0
    then setField (cfAfterStorage info) .powerConsumedWatts (.int info.powerConsumedWatts)
    else cfAfterStorage info
  if info.powerPeakWatts > 0
    then setField f5 .powerPeakWatts (.int info.powerPeakWatts)
    else f5

/-- The payload after `fields[GPUCount] = info.GPUCount`. -/
def cfAfterGPUCount (info : ServerInfo) : CFField → Option CFValue :=
  setField (cfAfterPower info) .gpuCount (.int info.gpuCount)

/-- `netbox.Client.buildCustomFields`: the custom-fields PATCH payload for
one server, as a partial map from configured field to value (`none` = the
field is absent of the payload); composed of the stages above in the Go
statement order. -/
def buildCustomFields (info : ServerInfo) : CFField → Option CFValue :=
  match info.gpus with
  | [] => cfAfterGPUCount info
  | _ :: _ =>
    let f8 := setField (cfAfterGPUCount info) .gpuModel (.str (buildGPUSummary info.gpus))
    let totalVRAM := (info.gpus.map (fun g => g.memoryMiB)).sum
    if totalVRAM > 0 then setField f8 .gpuMemoryGB (.int (Int.tdiv totalVRAM 1024)) else f8

theorem setField_ne {m : CFField → Option CFValue} {f v g} (h : g ≠ f) :
    setField m f v g = m g := if_neg h

theorem setField_same (m : CFField → Option CFValue) (f : CFField) (v : CFValue) :
    setField m f v f = some v := if_pos rfl

theorem cfAfterCPU_ne (info : ServerInfo) {g : CFField} (h : g ≠ .cpuCores) :
    cfAfterCPU info g = cfBase info g := by
  rw [cfAfterCPU]
  cases info.cpus with
  | nil => rfl
  | cons c rest => exact setField_ne h

theorem cfAfterRAM_ne (info : ServerInfo) {g : CFField}
    (h1 : g ≠ .ramType) (h2 : g ≠ .ramSpeedMHz) :
    cfAfterRAM info g = cfAfterCPU info g := by
  rw [cfAfterRAM]
  cases info.memory.find? (fun m => m.IsPopulated) with
  | none => rfl
  | some m => exact (setField_ne h2).trans (setField_ne h1)

theorem cfAfterDisk_ne (info : ServerInfo) {g : CFField} (h : g ≠ .diskCount) :
    cfAfterDisk info g = cfAfterRAM info g := setField_ne h

theorem cfAfterStorage_ne (info : ServerInfo) {g : CFField} (h : g ≠ .storageSummary) :
    cfAfterStorage info g = cfAfterDisk info g := by
  rw [cfAfterStorage]
  split
  · rfl
  · exact setField_ne h

theorem cfAfterPower_ne (info : ServerInfo) {g : CFField}
    (h1 : g ≠ .powerConsumedWatts) (h2 : g ≠ .powerPeakWatts) :
    cfAfterPower info g = cfAfterStorage info g := by
  rw [cfAfterPower]
  have e5 : (if info.powerConsumedWatts > 0
      then setField (cfAfterStorage info) .powerConsumedWatts (.int info.powerConsumedWatts)
      else cfAfterStorage info) g = cfAfterStorage info g := by
    split
    · exact setField_ne h1
    · rfl
  split
  · rw [setField_ne h2]; exact e5
  · exact e5

theorem cfAfterGPUCount_ne (info : ServerInfo) {g : CFField} (h : g ≠ .gpuCount) :
    cfAfterGPUCount info g = cfAfterPower info g := setField_ne h

theorem buildCustomFields_ne (info : ServerInfo) {g : CFField}
    (h1 : g ≠ .gpuModel) (h2 : g ≠ .gpuMemoryGB) :
    buildCustomFields info g = cfAfterGPUCount info g := by
  rw [buildCustomFields]
  cases info.gpus with
  | nil => rfl
  | cons a rest =>
    show (if ((a :: rest).map (fun x => x.memoryMiB)).sum > 0 then
        setField (setField (cfAfterGPUCount info) .gpuModel
            (.str (buildGPUSummary (a :: rest)))) .gpuMemoryGB
          (.int (Int.tdiv ((a :: rest).map (fun x => x.memoryMiB)).sum 1024))
      else setField (cfAfterGPUCount info) .gpuModel
        (.str (buildGPUSummary (a :: rest)))) g
      = cfAfterGPUCount info g
    split
    · exact (setField_ne h2).trans (setField_ne h1)
    · exact setField_ne h1

theorem bcf_to_power (info : ServerInfo) {g : CFField}
    (hgm : g ≠ .gpuModel) (hgmem : g ≠ .gpuMemoryGB) (hgc : g ≠ .gpuCount) :
    buildCustomFields info g = cfAfterPower info g :=
  (buildCustomFields_ne info hgm hgmem).trans (cfAfterGPUCount_ne info hgc)

theorem bcf_to_disk (info : ServerInfo) {g : CFField}
    (hgm : g ≠ .gpuModel) (hgmem : g ≠ .gpuMemoryGB) (hgc : g ≠ .gpuCount)
    (hpc : g ≠ .powerConsumedWatts) (hpp : g ≠ .powerPeakWatts)
    (hss : g ≠ .storageSummary) :
    buildCustomFields info g = cfAfterDisk info g :=
  ((bcf_to_power info hgm hgmem hgc).trans (cfAfterPower_ne info hpc hpp)).trans
    (cfAfterStorage_ne info hss)

theorem bcf_to_cpu (info : ServerInfo) {g : CFField}
    (hgm : g ≠ .gpuModel) (hgmem : g ≠ .gpuMemoryGB) (hgc : g ≠ .gpuCount)
    (hpc : g ≠ .powerConsumedWatts) (hpp : g ≠ .powerPeakWatts)
    (hss : g ≠ .storageSummary) (hdc : g ≠ .diskCount)
    (hrt : g ≠ .ramType) (hrs : g ≠ .ramSpeedMHz) :
    buildCustomFields info g = cfAfterCPU info g :=
  ((bcf_to_disk info hgm hgmem hgc hpc hpp hss).trans (cfAfterDisk_ne info hdc)).trans
    (cfAfterRAM_ne info hrt hrs)

theorem bcf_to_base (info : ServerInfo) {g : CFField}
    (hgm : g ≠ .gpuModel) (hgmem : g ≠ .gpuMemoryGB) (hgc : g ≠ .gpuCount)
    (hpc : g ≠ .powerConsumedWatts) (hpp : g ≠ .powerPeakWatts)
    (hss : g ≠ .storageSummary) (hdc : g ≠ .diskCount)
    (hrt : g ≠ .ramType) (hrs : g ≠ .ramSpeedMHz) (hcc : g ≠ .cpuCores) :
    buildCustomFields info g = cfBase info g :=
  (bcf_to_cpu info hgm hgmem hgc hpc hpp hss hdc hrt hrs).trans (cfAfterCPU_ne info hcc)

theorem bcf_cpuCores (info : ServerInfo) :
    (buildCustomFields info CFField.cpuCores).isSome ↔ info.cpus ≠ [] := by
  rw [bcf_to_cpu info (by decide) (by decide) (by decide) (by decide) (by decide)
    (by decide) (by decide) (by decide) (by decide), cfAfterCPU]
  cases info.cpus with
  | nil => simp [cfBase]
  | cons c rest => simp [setField_same]

theorem bcf_ramType (info : ServerInfo) :
    ((buildCustomFields info CFField.ramType).isSome
      ↔ (info.memory.find? (fun m => m.IsPopulated)).isSome) := by
  rw [bcf_to_disk info (by decide) (by decide) (by decide) (by decide) (by decide)
    (by decide), cfAfterDisk_ne info (by decide), cfAfterRAM]
  cases info.memory.find? (fun m => m.IsPopulated) with
  | none =>
    show ((cfAfterCPU info CFField.ramType).isSome ↔ (none : Option MemoryInfo).isSome)
    rw [cfAfterCPU_ne info (by decide)]
    simp [cfBase]
  | some m => simp [setField_ne (by decide : CFField.ramType ≠ CFField.ramSpeedMHz),
      setField_same]

theorem bcf_ramSpeed (info : ServerInfo) :
    ((buildCustomFields info CFField.ramSpeedMHz).isSome
      ↔ (info.memory.find? (fun m => m.IsPopulated)).isSome) := by
  rw [bcf_to_disk info (by decide) (by decide) (by decide) (by decide) (by decide)
    (by decide), cfAfterDisk_ne info (by decide), cfAfterRAM]
  cases info.memory.find? (fun m => m.IsPopulated) with
  | none =>
    show ((cfAfterCPU info CFField.ramSpeedMHz).isSome ↔ (none : Option MemoryInfo).isSome)
    rw [cfAfterCPU_ne info (by decide)]
    simp [cfBase]
  | some m => simp [setField_same]

theorem bcf_storageSummary (info : ServerInfo) :
    (buildCustomFields info CFField.storageSummary).isSome ↔ info.drives ≠ [] := by
  rw [bcf_to_power info (by decide) (by decide) (by decide),
    cfAfterPower_ne info (by decide) (by decide), cfAfterStorage]
  by_cases hd : info.drives = []
  · rw [if_pos hd, cfAfterDisk_ne info (by decide),
      cfAfterRAM_ne info (by decide) (by decide), cfAfterCPU_ne info (by decide)]
    simp [cfBase, hd]
  · rw [if_neg hd, setField_same]
    simp [hd]

theorem bcf_powerConsumed (info : ServerInfo) :
    ((buildCustomFields info CFField.powerConsumedWatts).isSome
      ↔ info.powerConsumedWatts > 0) := by
  rw [bcf_to_power info (by decide) (by decide) (by decide), cfAfterPower]
  have einner : (if info.powerConsumedWatts > 0
      then setField (cfAfterStorage info) .powerConsumedWatts (.int info.powerConsumedWatts)
      else cfAfterStorage info) CFField.powerConsumedWatts
        = if info.powerConsumedWatts > 0 then some (.int info.powerConsumedWatts)
          else cfAfterStorage info CFField.powerConsumedWatts := by
    split
    · exact setField_same _ _ _
    · rfl
  have eabsent : cfAfterStorage info CFField.powerConsumedWatts = none := by
    rw [cfAfterStorage_ne info (by decide), cfAfterDisk_ne info (by decide),
      cfAfterRAM_ne info (by decide) (by decide), cfAfterCPU_ne info (by decide)]
    rfl
  by_cases hpk : info.powerPeakWatts > 0
  · rw [if_pos hpk, setField_ne (by decide : CFField.powerConsumedWatts ≠ CFField.powerPeakWatts),
      einner, eabsent]
    split <;> simp_all
  · rw [if_neg hpk, einner, eabsent]
    split <;> simp_all

theorem bcf_powerPeak (info : ServerInfo) :
    ((buildCustomFields info CFField.powerPeakWatts).isSome
      ↔ info.powerPeakWatts > 0) := by
  rw [bcf_to_power info (by decide) (by decide) (by decide), cfAfterPower]
  have eabsent : cfAfterStorage info CFField.powerPeakWatts = none := by
    rw [cfAfterStorage_ne info (by decide), cfAfterDisk_ne info (by decide),
      cfAfterRAM_ne info (by decide) (by decide), cfAfterCPU_ne info (by decide)]
    rfl
  by_cases hpk : info.powerPeakWatts > 0
  · rw [if_pos hpk, setField_same]
    simp [hpk]
  · rw [if_neg hpk]
    have einner : (if info.powerConsumedWatts > 0
        then setField (cfAfterStorage info) .powerConsumedWatts (.int info.powerConsumedWatts)
        else cfAfterStorage info) CFField.powerPeakWatts
          = cfAfterStorage info CFField.powerPeakWatts := by
      split
      · exact setField_ne (by decide)
      · rfl
    rw [einner, eabsent]
    simp [hpk]

theorem bcf_gpuModel (info : ServerInfo) :
    (buildCustomFields info CFField.gpuModel).isSome ↔ info.gpus ≠ [] := by
  rw [buildCustomFields]
  cases info.gpus with
  | nil =>
    show ((cfAfterGPUCount info CFField.gpuModel).isSome ↔ ([] : List GPUInfo) ≠ [])
    rw [cfAfterGPUCount_ne info (by decide), cfAfterPower_ne info (by decide) (by decide),
      cfAfterStorage_ne info (by decide), cfAfterDisk_ne info (by decide),
      cfAfterRAM_ne info (by decide) (by decide), cfAfterCPU_ne info (by decide)]
    simp [cfBase]
  | cons a rest =>
    show (((if ((a :: rest).map (fun x => x.memoryMiB)).sum > 0 then
        setField (setField (cfAfterGPUCount info) .gpuModel
            (.str (buildGPUSummary (a :: rest)))) .gpuMemoryGB
          (.int (Int.tdiv ((a :: rest).map (fun x => x.memoryMiB)).sum 1024))
      else setField (cfAfterGPUCount info) .gpuModel
        (.str (buildGPUSummary (a :: rest)))) CFField.gpuModel).isSome ↔ (a :: rest) ≠ [])
    have : (if ((a :: rest).map (fun x => x.memoryMiB)).sum > 0 then
        setField (setField (cfAfterGPUCount info) .gpuModel
            (.str (buildGPUSummary (a :: rest)))) .gpuMemoryGB
          (.int (Int.tdiv ((a :: rest).map (fun x => x.memoryMiB)).sum 1024))
      else setField (cfAfterGPUCount info) .gpuModel
        (.str (buildGPUSummary (a :: rest)))) CFField.gpuModel
        = some (.str (buildGPUSummary (a :: rest))) := by
      split
      · rw [setField_ne (by decide : CFField.gpuModel ≠ CFField.gpuMemoryGB), setField_same]
      · rw [setField_same]
    rw [this]
    simp

theorem bcf_gpuMemoryGB (info : ServerInfo) :
    ((buildCustomFields info CFField.gpuMemoryGB).isSome
      ↔ info.gpus ≠ [] ∧ (info.gpus.map (fun g => g.memoryMiB)).sum > 0) := by
  rw [buildCustomFields]
  cases info.gpus with
  | nil =>
    show ((cfAfterGPUCount info CFField.gpuMemoryGB).isSome ↔
      ([] : List GPUInfo) ≠ [] ∧ (([] : List GPUInfo).map (fun g => g.memoryMiB)).sum > 0)
    rw [cfAfterGPUCount_ne info (by decide), cfAfterPower_ne info (by decide) (by decide),
      cfAfterStorage_ne info (by decide), cfAfterDisk_ne info (by decide),
      cfAfterRAM_ne info (by decide) (by decide), cfAfterCPU_ne info (by decide)]
    simp [cfBase]
  | cons a rest =>
    show (((if ((a :: rest).map (fun x => x.memoryMiB)).sum > 0 then
        setField (setField (cfAfterGPUCount info) .gpuModel
            (.str (buildGPUSummary (a :: rest)))) .gpuMemoryGB
          (.int (Int.tdiv ((a :: rest).map (fun x => x.memoryMiB)).sum 1024))
      else setField (cfAfterGPUCount info) .gpuModel
        (.str (buildGPUSummary (a :: rest)))) CFField.gpuMemoryGB).isSome ↔
      (a :: rest) ≠ [] ∧ ((a :: rest).map (fun g => g.memoryMiB)).sum > 0)
    by_cases hv : ((a :: rest).map (fun x => x.memoryMiB)).sum > 0
    · rw [if_pos hv, setField_same]
      simp only [List.map_cons, List.sum_cons] at hv
      simp [hv]
    · rw [if_neg hv, setField_ne (by decide : CFField.gpuMemoryGB ≠ CFField.gpuModel),
        cfAfterGPUCount_ne info (by decide), cfAfterPower_ne info (by decide) (by decide),
        cfAfterStorage_ne info (by decide), cfAfterDisk_ne info (by decide),
        cfAfterRAM_ne info (by decide) (by decide), cfAfterCPU_ne info (by decide)]
      simp only [List.map_cons, List.sum_cons] at hv
      simp [cfBase]
      omega

theorem bcf_diskCount (info : ServerInfo) :
    (buildCustomFields info CFField.diskCount).isSome = true := by
  rw [bcf_to_power info (by decide) (by decide) (by decide),
    cfAfterPower_ne info (by decide) (by decide), cfAfterStorage_ne info (by decide),
    cfAfterDisk, setField_same]
  rfl

theorem bcf_gpuCount (info : ServerInfo) :
    (buildCustomFields info CFField.gpuCount).isSome = true := by
  rw [buildCustomFields_ne info (by decide) (by decide), cfAfterGPUCount, setField_same]
  rfl

/-- The configured fields that every payload carries: the ten base fields
plus `disk_count` and `gpu_count`. -/
def alwaysFields : List CFField :=
  [.cpuCount, .cpuModel, .ramTotalGB, .ramSlotsTotal, .ramSlotsUsed,
   .ramSlotsAvailable, .storageTotalTB, .biosVersion, .powerState,
   .lastInventory, .diskCount, .gpuCount]

/-- **C9 counterexample.** A successful record with no drives, no
populated DIMM and no GPUs yields a payload that omits the configured
`storage_summary`, `ram_type` and `gpu_model` fields — non-integer
(string) fields — contradicting "includes every other configured field in
every payload". -/
theorem buildCustomFields_omits_string_field :
    ServerInfo.zero.error = none ∧
    buildCustomFields ServerInfo.zero CFField.storageSummary = none ∧
    buildCustomFields ServerInfo.zero CFField.ramType = none ∧
    buildCustomFields ServerInfo.zero CFField.gpuModel = none :=
  ⟨rfl, rfl, rfl, rfl⟩

/-- **C9 (amended).** The payload always carries the ten base fields plus
`disk_count` and `gpu_count`, even when the values are zero or empty; the
remaining fields — integer and string alike — are carried exactly when
their underlying datum is not absent: `cpu_cores` when a CPU entry exists,
`ram_type`/`ram_speed` when a populated DIMM exists, `storage_summary`
when a drive exists, the power-consumed and power-peak watt fields when
the measured value is positive, `gpu_model` when a GPU exists, and
`gpu_memory_gb` when the GPUs report positive total VRAM. -/
theorem buildCustomFields_presence (info : ServerInfo) :
    (∀ f ∈ alwaysFields, (buildCustomFields info f).isSome) ∧
    ((buildCustomFields info CFField.cpuCores).isSome ↔ info.cpus ≠ []) ∧
    ((buildCustomFields info CFField.ramType).isSome
      ↔ (info.memory.find? (fun m => m.IsPopulated)).isSome) ∧
    ((buildCustomFields info CFField.ramSpeedMHz).isSome
      ↔ (info.memory.find? (fun m => m.IsPopulated)).isSome) ∧
    ((buildCustomFields info CFField.storageSummary).isSome ↔ info.drives ≠ []) ∧
    ((buildCustomFields info CFField.powerConsumedWatts).isSome
      ↔ info.powerConsumedWatts > 0) ∧
    ((buildCustomFields info CFField.powerPeakWatts).isSome
      ↔ info.powerPeakWatts > 0) ∧
    ((buildCustomFields info CFField.gpuModel).isSome ↔ info.gpus ≠ []) ∧
    ((buildCustomFields info CFField.gpuMemoryGB).isSome
      ↔ info.gpus ≠ [] ∧ (info.gpus.map (fun g => g.memoryMiB)).sum > 0) := by
  refine ⟨?_, bcf_cpuCores info, bcf_ramType info, bcf_ramSpeed info,
    bcf_storageSummary info, bcf_powerConsumed info, bcf_powerPeak info,
    bcf_gpuModel info, bcf_gpuMemoryGB info⟩
  intro f hf
  fin_cases hf
  · rw [bcf_to_base info (by decide) (by decide) (by decide) (by decide) (by decide)
      (by decide) (by decide) (by decide) (by decide) (by decide)]; rfl
  · rw [bcf_to_base info (by decide) (by decide) (by decide) (by decide) (by decide)
      (by decide) (by decide) (by decide) (by decide) (by decide)]; rfl
  · rw [bcf_to_base info (by decide) (by decide) (by decide) (by decide) (by decide)
      (by decide) (by decide) (by decide) (by decide) (by decide)]; rfl
  · rw [bcf_to_base info (by decide) (by decide) (by decide) (by decide) (by decide)
      (by decide) (by decide) (by decide) (by decide) (by decide)]; rfl
  · rw [bcf_to_base info (by decide) (by decide) (by decide) (by decide) (by decide)
      (by decide) (by decide) (by decide) (by decide) (by decide)]; rfl
  · rw [bcf_to_base info (by decide) (by decide) (by decide) (by decide) (by decide)
      (by decide) (by decide) (by decide) (by decide) (by decide)]; rfl
  · rw [bcf_to_base info (by decide) (by decide) (by decide) (by decide) (by decide)
      (by decide) (by decide) (by decide) (by decide) (by decide)]; rfl
  · rw [bcf_to_base info (by decide) (by decide) (by decide) (by decide) (by decide)
      (by decide) (by decide) (by decide) (by decide) (by decide)]; rfl
  · rw [bcf_to_base info (by decide) (by decide) (by decide) (by decide) (by decide)
      (by decide) (by decide) (by decide) (by decide) (by decide)]; rfl
  · rw [bcf_to_base info (by decide) (by decide) (by decide) (by decide) (by decide)
      (by decide) (by decide) (by decide) (by decide) (by decide)]; rfl
  · rw [bcf_diskCount info]
  · rw [bcf_gpuCount info]

/-! ## C5, C10, C8 — the scan engine (`internal/scanner/scanner.go`).
The worker pool's nondeterminism (which worker dequeues which job, and
whether the `select` on `ctx.Done()` fires at a dequeue) is made explicit
as a schedule parameter; the HTTP responses a host serves are an oracle.
The `internal/redfish` resource types are not under `src/` and are
modelled from the spec (§4.2, §6, §9). -/

/-- The record the worker emits for a queued job it sees after
cancellation: identification and timestamp only, `error = ctx.Err()`. -/
def cancelledRecord (now : Nat) (ctxErr : String) (server : ServerConfig) : ServerInfo :=
  { ServerInfo.zero with
    host := server.host
    name := server.name
    collectedAt := now
    error := some ctxErr }

/-- `scanner.worker`: one worker's pass over the jobs it dequeues.  Each
job is tagged with the nondeterministic outcome of the `select` on
`ctx.Done()` at its dequeue (`true` = the worker saw the cancellation);
either way exactly one record is sent to the results channel. -/
def worker (now : Nat) (ctxErr : String) (scan : ServerConfig → ServerInfo) :
    List (ServerConfig × Bool) → List ServerInfo
  | [] => []
  | (job, cancelled) :: rest =>
    (if cancelled then cancelledRecord now ctxErr job else scan job)
      :: worker now ctxErr scan rest

/-- `scanner.ScanAll`, over a nondeterministic schedule: the buffered jobs
channel delivers every queued job to exactly one worker (a schedule whose
flattening is a permutation of the configured servers), the buffered
results channel never blocks, and `ScanAll` drains it completely after
`wg.Wait`, so the result list is the concatenation of the workers'
outputs (in some order; ordering is unspecified). -/
def ScanAll (now : Nat) (ctxErr : String) (scan : ServerConfig → ServerInfo)
    (schedule : List (List (ServerConfig × Bool))) : List ServerInfo :=
  (schedule.map (worker now ctxErr scan)).join

theorem worker_length (now : Nat) (ctxErr : String) (scan : ServerConfig → ServerInfo) :
    ∀ jobs : List (ServerConfig × Bool), (worker now ctxErr scan jobs).length = jobs.length
  | [] => rfl
  | (job, cancelled) :: rest => by
    rw [worker, List.length_cons, List.length_cons, worker_length now ctxErr scan rest]

theorem worker_cancelled_mem (now : Nat) (ctxErr : String)
    (scan : ServerConfig → ServerInfo) :
    ∀ jobs : List (ServerConfig × Bool), ∀ job ∈ jobs, job.2 = true →
      cancelledRecord now ctxErr job.1 ∈ worker now ctxErr scan jobs
  | [], job, h => absurd h (List.not_mem_nil _)
  | (j, c) :: rest, job, hmem => by
    intro hc
    rcases List.mem_cons.mp hmem with rfl | hmem'
    · have hc' : c = true := hc
      rw [worker, hc']
      exact List.mem_cons_self _ _
    · exact List.mem_cons_of_mem _
        (worker_cancelled_mem now ctxErr scan rest job hmem' hc)

/-- **C5.** For every schedule in which each configured server is dequeued
by exactly one worker (however the jobs channel distributes them, and
whatever cancellation pattern the workers observe), `ScanAll` returns
exactly one host record per configured server — `len(result) =
len(hosts)` — and every queued-but-never-scanned job still yields a
record whose error field is the context's cancellation error. -/
theorem scanAll_one_record_per_host (now : Nat) (ctxErr : String)
    (scan : ServerConfig → ServerInfo)
    (schedule : List (List (ServerConfig × Bool))) (servers : List ServerConfig)
    (hsched : (schedule.join.map Prod.fst).Perm servers) :
    (ScanAll now ctxErr scan schedule).length = servers.length ∧
    (∀ job ∈ schedule.join, job.2 = true →
      cancelledRecord now ctxErr job.1 ∈ ScanAll now ctxErr scan schedule ∧
      (cancelledRecord now ctxErr job.1).error = some ctxErr) := by
  constructor
  · rw [ScanAll, List.length_join, ← hsched.length_eq, List.length_map,
      List.length_join]
    congr 1
    rw [List.map_map]
    refine List.map_congr_left (fun jobs _ => worker_length now ctxErr scan jobs)
  · intro job hjob hc
    refine ⟨?_, by rfl⟩
    obtain ⟨jobs, hjobs, hjmem⟩ := List.mem_join.mp hjob
    rw [ScanAll]
    exact List.mem_join.mpr ⟨worker now ctxErr scan jobs,
      List.mem_map_of_mem _ hjobs,
      worker_cancelled_mem now ctxErr scan jobs job hjmem hc⟩

/-- Witness for C5: two workers, three servers, the second worker's two
jobs observed after cancellation. -/
def srvA : ServerConfig :=
  { host := "a", username := "", password := "", name := "",
    insecureSkipVerify := none, timeoutSeconds := none }

def srvB : ServerConfig :=
  { host := "b", username := "", password := "", name := "",
    insecureSkipVerify := none, timeoutSeconds := none }

def srvC : ServerConfig :=
  { host := "c", username := "", password := "", name := "",
    insecureSkipVerify := none, timeoutSeconds := none }

theorem scanAll_one_record_per_host_witness :
    (([[(srvA, false)], [(srvB, true), (srvC, true)]].join.map
        Prod.fst).Perm [srvA, srvB, srvC]) ∧
    (ScanAll 0 "context canceled" (fun _ => ServerInfo.zero)
        [[(srvA, false)], [(srvB, true), (srvC, true)]]).length = 3 ∧
    (∀ job ∈ [[(srvA, false)], [(srvB, true), (srvC, true)]].join, job.2 = true →
      cancelledRecord 0 "context canceled" job.1 ∈
        ScanAll 0 "context canceled" (fun _ => ServerInfo.zero)
          [[(srvA, false)], [(srvB, true), (srvC, true)]] ∧
      (cancelledRecord 0 "context canceled" job.1).error = some "context canceled") := by
  refine ⟨by decide, ?_⟩
  exact scanAll_one_record_per_host 0 "context canceled" (fun _ => ServerInfo.zero)
    [[(srvA, false)], [(srvB, true), (srvC, true)]] [srvA, srvB, srvC] (by decide)

/-- One write of `results[server.Host] = err` under the mutex: the Go map
updated at a key, modelled as an association list keyed by the host
string. -/
def insertResult (m : List (String × Option String)) (host : String)
    (err : Option String) : List (String × Option String) :=
  if m.any (fun p => p.1 = host) then
    m.map (fun p => if p.1 = host then (host, err) else p)
  else m ++ [(host, err)]

/-- `scanner.ValidateConnections`, over a nondeterministic processing
order (worker scheduling decides which write wins for a duplicated host):
every server is validated once and its outcome written into the map keyed
by `server.Host`. -/
def ValidateConnections (validate : ServerConfig → Option String)
    (order : List ServerConfig) : List (String × Option String) :=
  order.foldl (fun m s => insertResult m s.host (validate s)) []

theorem insertResult_keys (m : List (String × Option String)) (host : String)
    (err : Option String) :
    (insertResult m host err).map Prod.fst
      = if host ∈ m.map Prod.fst then m.map Prod.fst
        else m.map Prod.fst ++ [host] := by
  rw [insertResult]
  have hany : (m.any (fun p => p.1 = host)) = (host ∈ m.map Prod.fst) := by
    simp [List.any_eq, List.mem_map]
  by_cases hmem : host ∈ m.map Prod.fst
  · rw [if_pos (by rw [hany]; exact hmem), if_pos hmem, List.map_map]
    refine List.map_congr_left (fun p _ => ?_)
    by_cases hp : p.1 = host
    · simp [hp]
    · simp [hp]
  · rw [if_neg (by rw [hany]; exact hmem), if_neg hmem]
    simp

theorem foldInsert_keys_mem (validate : ServerConfig → Option String) :
    ∀ order : List ServerConfig, ∀ m : List (String × Option String), ∀ h : String,
      (h ∈ (order.foldl (fun acc s => insertResult acc s.host (validate s)) m).map Prod.fst
        ↔ h ∈ m.map Prod.fst ∨ h ∈ order.map (fun s => s.host)) := by
  intro order
  induction order with
  | nil => intro m h; simp
  | cons s rest ih =>
    intro m h
    rw [List.foldl_cons, ih]
    rw [insertResult_keys]
    by_cases hmem : s.host ∈ m.map Prod.fst
    · rw [if_pos hmem]
      simp only [List.map_cons, List.mem_cons]
      constructor
      · rintro (hk | hk)
        · exact Or.inl hk
        · exact Or.inr (Or.inr hk)
      · rintro (hk | rfl | hk)
        · exact Or.inl hk
        · exact Or.inl hmem
        · exact Or.inr hk
    · rw [if_neg hmem]
      simp only [List.map_cons, List.mem_cons, List.mem_append, List.mem_singleton]
      tauto

theorem foldInsert_keys_nodup (validate : ServerConfig → Option String) :
    ∀ order : List ServerConfig, ∀ m : List (String × Option String),
      (m.map Prod.fst).Nodup →
      ((order.foldl (fun acc s => insertResult acc s.host (validate s)) m).map
        Prod.fst).Nodup := by
  intro order
  induction order with
  | nil => intro m h; exact h
  | cons s rest ih =>
    intro m h
    rw [List.foldl_cons]
    refine ih _ ?_
    rw [insertResult_keys]
    by_cases hmem : s.host ∈ m.map Prod.fst
    · rw [if_pos hmem]; exact h
    · rw [if_neg hmem]; exact nodup_append_singleton hmem h

/-- **C10.** `ValidateConnections` keys its result map by the host
string: whatever order the workers process the servers in, the map's keys
are pairwise distinct and are exactly the configured host strings, so the
map has one entry per distinct host string; when two or more entries share
a host string the outcomes overwrite one another and the map is strictly
smaller than the server list — unlike `ScanAll`, which yields one record
per entry. -/
theorem validateConnections_keyed_by_host (validate : ServerConfig → Option String)
    (order servers : List ServerConfig) (hperm : order.Perm servers) :
    ((ValidateConnections validate order).map Prod.fst).Nodup ∧
    (∀ h, h ∈ (ValidateConnections validate order).map Prod.fst
        ↔ h ∈ servers.map (fun s => s.host)) ∧
    (ValidateConnections validate order).length
        = (servers.map (fun s => s.host)).dedup.length ∧
    (¬ (servers.map (fun s => s.host)).Nodup →
      (ValidateConnections validate order).length < servers.length) := by
  have hnd : ((ValidateConnections validate order).map Prod.fst).Nodup :=
    foldInsert_keys_nodup validate order [] (by simp)
  have hmem : ∀ h, h ∈ (ValidateConnections validate order).map Prod.fst
      ↔ h ∈ servers.map (fun s => s.host) := by
    intro h
    rw [ValidateConnections, foldInsert_keys_mem]
    simp only [List.map_nil, List.not_mem_nil, false_or]
    exact (hperm.map (fun s => s.host)).mem_iff
  have hlen : (ValidateConnections validate order).length
      = (servers.map (fun s => s.host)).dedup.length := by
    rw [← List.length_map (ValidateConnections validate order) Prod.fst]
    refine List.Perm.length_eq ?_
    refine (List.perm_ext_iff_of_nodup hnd (List.nodup_dedup _)).2 (fun h => ?_)
    rw [List.mem_dedup]
    exact hmem h
  refine ⟨hnd, hmem, hlen, ?_⟩
  intro hdup
  rw [hlen, ← List.length_map servers (fun s => s.host)]
  have hsub := (servers.map (fun s => s.host)).dedup_sublist
  refine lt_of_le_of_ne hsub.length_le (fun he => ?_)
  exact hdup (List.dedup_eq_self.mp (hsub.eq_of_length he))

theorem validateConnections_keyed_by_host_witness :
    ([srvA, srvA].Perm [srvA, srvA]) ∧
    (((ValidateConnections (fun _ => none) [srvA, srvA]).map Prod.fst).Nodup ∧
    (∀ h, h ∈ (ValidateConnections (fun _ => none) [srvA, srvA]).map Prod.fst
        ↔ h ∈ [srvA, srvA].map (fun s => s.host)) ∧
    (ValidateConnections (fun _ => none) [srvA, srvA]).length
        = ([srvA, srvA].map (fun s => s.host)).dedup.length ∧
    (¬ ([srvA, srvA].map (fun s => s.host)).Nodup →
      (ValidateConnections (fun _ => none) [srvA, srvA]).length < [srvA, srvA].length)) :=
  ⟨by decide, validateConnections_keyed_by_host (fun _ => none) [srvA, srvA]
    [srvA, srvA] (by decide)⟩

/-- Modelled from the spec: `redfish.Status` (state ∈ {Enabled, Absent,
Disabled, …}, health), the `internal/redfish` package not being under
`src/`. -/
structure StatusR where
  state : String
  health : String
deriving DecidableEq, Repr

/-- Modelled from the spec: the processor summary of `redfish.System`. -/
structure ProcessorSummaryR where
  count : Int
  model : String
deriving DecidableEq, Repr

/-- Modelled from the spec: the memory summary of `redfish.System`. -/
structure MemorySummaryR where
  totalSystemMemoryGiB : ℚ
deriving DecidableEq, Repr

/-- Modelled from the spec: the Dell OEM block of `redfish.System`
(`Oem.Dell.DellSystem`; `none` when the vendor block is missing). -/
structure DellSystemR where
  maxDIMMSlots : Int
  populatedSlots : Int
deriving DecidableEq, Repr

/-- Modelled from the spec: `redfish.System`, the system resource. -/
structure SystemR where
  model : String
  manufacturer : String
  serialNumber : String
  sku : String
  biosVersion : String
  hostName : String
  powerState : String
  processorSummary : ProcessorSummaryR
  memorySummary : MemorySummaryR
  oemDellSystem : Option DellSystemR
deriving DecidableEq, Repr

/-- Modelled from the spec: one inline `ProcessorMemory` entry of a
`redfish.Processor`. -/
structure ProcessorMemoryR where
  capacityMiB : Int
  memoryType : String
deriving DecidableEq, Repr

/-- Modelled from the spec: `redfish.Processor`. -/
structure ProcessorR where
  socket : String
  name : String
  model : String
  manufacturer : String
  processorType : String
  processorArchitecture : String
  instructionSet : String
  totalCores : Int
  totalThreads : Int
  maxSpeedMHz : Int
  operatingSpeedMHz : Int
  status : StatusR
  processorMemory : List ProcessorMemoryR
deriving DecidableEq, Repr

/-- Modelled from the spec: `redfish.Processor.IsInstalled` — step 4 skips
a member "if not in `Enabled` state". -/
def ProcessorR.IsInstalled (p : ProcessorR) : Bool := p.status.state = "Enabled"

/-- Modelled from the spec: `redfish.Processor.IsGPU` — the classifier of
§9: `ProcessorType ∈ {"GPU", "Accelerator"}` or a non-empty inline
`ProcessorMemory` array with non-zero capacity. -/
def ProcessorR.IsGPU (p : ProcessorR) : Bool :=
  p.processorType = "GPU" || p.processorType = "Accelerator"
    || p.processorMemory.any (fun m => m.capacityMiB > 0)

/-- Modelled from the spec: `redfish.Memory`. -/
structure MemoryR where
  deviceLocator : String
  id' : String
  capacityMiB : Int
  memoryDeviceType : String
  memoryType : String
  baseModuleType : String
  operatingSpeedMhz : Int
  manufacturer : String
  partNumber : String
  serialNumber : String
  rankCount : Int
  dataWidthBits : Int
  status : StatusR
deriving DecidableEq, Repr

/-- Modelled from the spec: `redfish.Memory.IsPopulated` — populated iff
state = `Enabled`. -/
def MemoryR.IsPopulated (m : MemoryR) : Bool := m.status.state = "Enabled"

/-- Modelled from the spec: `redfish.Memory.IsEmpty` — empty iff state =
`Absent`. -/
def MemoryR.IsEmpty (m : MemoryR) : Bool := m.status.state = "Absent"

/-- Modelled from the spec: `redfish.Drive`. -/
structure DriveR where
  name : String
  model : String
  manufacturer : String
  serialNumber : String
  capacityBytes : Int
  mediaType : String
  protocol : String
  predictedMediaLifeLeftPercent : ℚ
  status : StatusR
deriving DecidableEq, Repr

/-- Modelled from the spec: `redfish.Drive.CapacityGB` — capacity bytes in
binary gigabytes (scenario 1: a 960 197 124 096-byte drive is ≈ 0.87 TB). -/
def DriveR.CapacityGB (d : DriveR) : ℚ := (d.capacityBytes : ℚ) / 1024 / 1024 / 1024

/-- Modelled from the spec: the metrics of a power-control entry. -/
structure PowerMetricsR where
  maxConsumedWatts : Int
  intervalInMin : Int
deriving DecidableEq, Repr

/-- Modelled from the spec: one `PowerControl` entry of `redfish.Power`. -/
structure PowerControlR where
  powerConsumedWatts : Int
  powerMetrics : PowerMetricsR
deriving DecidableEq, Repr

/-- Modelled from the spec: `redfish.Power`. -/
structure PowerR where
  powerControl : List PowerControlR
deriving DecidableEq, Repr

/-- The upstream responses one host scan consumes: each collection fetch
either fails or yields its members' fetch results in order (a failed
member fetch is skipped by the scanner); storage nests drives under
controllers. -/
structure ScanOracle where
  system : Except String SystemR
  processors : Except String (List (Except String ProcessorR))
  memory : Except String (List (Except String MemoryR))
  storage : Except String (List (Except String (List (Except String DriveR))))
  power : Except String PowerR
deriving Repr

/-- The field mapping of `scanner.collectSystemInfo` on a decoded system
resource: identity, power and summary fields, and the OEM slot count when
the Dell block reports a positive one. -/
def systemApply (system : SystemR) (info : ServerInfo) : ServerInfo :=
  let info := { info with
    model := system.model
    manufacturer := system.manufacturer
    serialNumber := system.serialNumber
    serviceTag := system.sku
    biosVersion := system.biosVersion
    hostName := system.hostName
    powerState := system.powerState
    cpuCount := system.processorSummary.count
    cpuModel := system.processorSummary.model
    totalMemoryGiB := system.memorySummary.totalSystemMemoryGiB }
  match system.oemDellSystem with
  | some dellSys =>
    if dellSys.maxDIMMSlots > 0
    then { info with memorySlotsTotal := dellSys.maxDIMMSlots }
    else info
  | none => info

/-- `scanner.collectSystemInfo`: fatal on failure
(`CollectionError{host, "system", cause}`); on success applies the field
mapping above. -/
def collectSystemInfo (resp : Except String SystemR) (info : ServerInfo) :
    Except String ServerInfo :=
  match resp with
  | .error e => .error ("failed to collect system: " ++ e)
  | .ok system => .ok (systemApply system info)

/-- `scanner.buildGPUInfo`: slot from socket (name when socket empty),
VRAM summed over the inline memory entries with positive capacity, memory
type from the first such entry. -/
def buildGPUInfo (p : ProcessorR) : GPUInfo :=
  let slot := if p.socket = "" then p.name else p.socket
  let acc := p.processorMemory.foldl
    (fun (acc : Int × String) m =>
      if m.capacityMiB > 0 then
        (acc.1 + m.capacityMiB, if acc.2 = "" then m.memoryType else acc.2)
      else acc) (0, "")
  { slot := slot, model := p.model, manufacturer := p.manufacturer,
    memoryMiB := acc.1, memoryType := acc.2, health := p.status.health }

/-- The CPU entry `collectProcessors` builds for a non-GPU processor. -/
def cpuInfoOf (p : ProcessorR) : CPUInfo :=
  { socket := p.socket
    model := p.model
    manufacturer := p.manufacturer
    brand := if p.manufacturer ≠ "" ∧ p.model ≠ "" then
        p.manufacturer ++ " " ++ p.model
      else p.model
    cores := p.totalCores
    threads := p.totalThreads
    maxSpeedMHz := p.maxSpeedMHz
    operatingSpeedMHz := p.operatingSpeedMHz
    processorType := p.processorType
    architecture := p.processorArchitecture
    instructionSet := p.instructionSet
    health := p.status.health }

/-- The member loop of `collectProcessors`: failed member fetches and
not-installed processors are skipped; installed members are classified as
GPU or CPU. -/
def processorEntries (members : List (Except String ProcessorR)) :
    List CPUInfo × List GPUInfo :=
  members.foldl
    (fun (acc : List CPUInfo × List GPUInfo) mem =>
      match mem with
      | .error _ => acc
      | .ok p =>
        if ¬ p.IsInstalled then acc
        else if p.IsGPU then (acc.1, acc.2 ++ [buildGPUInfo p])
        else (acc.1 ++ [cpuInfoOf p], acc.2))
    ([], [])

/-- `scanner.collectProcessors`: non-fatal — on a failed collection fetch
the error is logged and the record left unchanged; otherwise the member
loop runs, the CPU/GPU lists are stored, and when installed CPUs were
found the count (and an empty summary model) are updated from them. -/
def collectProcessors (resp : Except String (List (Except String ProcessorR)))
    (info : ServerInfo) : ServerInfo :=
  match resp with
  | .error _ => info
  | .ok members =>
    let entries := processorEntries members
    let info := { info with
      cpus := entries.1
      gpus := entries.2
      gpuCount := (entries.2.length : Int) }
    match entries.1 with
    | [] => info
    | c0 :: _ =>
      let info := { info with cpuCount := (entries.1.length : Int) }
      if info.cpuModel = "" ∧ c0.model ≠ "" then { info with cpuModel := c0.model }
      else info

/-- The member loop of `collectMemory`: skipped on a failed member fetch;
builds the module entry (slot name falls back to the resource id), counts
used and absent slots and sums the populated capacity. -/
def memoryEntries (members : List (Except String MemoryR)) :
    List MemoryInfo × Int × Int × Int :=
  members.foldl
    (fun (acc : List MemoryInfo × Int × Int × Int) mem =>
      match mem with
      | .error _ => acc
      | .ok memory =>
        let slotName := if memory.deviceLocator = "" then memory.id'
          else memory.deviceLocator
        let entry : MemoryInfo :=
          { slot := slotName
            capacityMiB := memory.capacityMiB
            type' := memory.memoryDeviceType
            technology := memory.memoryType
            baseModuleType := memory.baseModuleType
            speedMHz := memory.operatingSpeedMhz
            manufacturer := memory.manufacturer
            partNumber := memory.partNumber
            serialNumber := memory.serialNumber
            rankCount := memory.rankCount
            dataWidthBits := memory.dataWidthBits
            state := memory.status.state
            health := memory.status.health }
        let acc := (acc.1 ++ [entry], acc.2.1, acc.2.2.1, acc.2.2.2)
        if memory.IsPopulated then
          (acc.1, acc.2.1 + memory.capacityMiB, acc.2.2.1 + 1, acc.2.2.2)
        else if memory.IsEmpty then
          (acc.1, acc.2.1, acc.2.2.1, acc.2.2.2 + 1)
        else acc)
    ([], 0, 0, 0)

/-- `scanner.collectMemory`: non-fatal; stores the modules, the used-slot
count, the total slot count (member count unless OEM data already set it),
recomputes free slots as total − used, and prefers the aggregated DIMM
capacity over the summary when it is larger (or the summary was zero). -/
def collectMemory (resp : Except String (List (Except String MemoryR)))
    (info : ServerInfo) : ServerInfo :=
  match resp with
  | .error _ => info
  | .ok members =>
    let entries := memoryEntries members
    let totalMemoryMiB := entries.2.1
    let slotsUsed := entries.2.2.1
    let info := { info with
      memory := entries.1
      memorySlotsUsed := slotsUsed }
    let info := if info.memorySlotsTotal = (0 : Int)
      then { info with memorySlotsTotal := (entries.1.length : Int) }
      else info
    let info := { info with memorySlotsFree := info.memorySlotsTotal - slotsUsed }
    if totalMemoryMiB > 0 then
      let calculatedGiB : ℚ := (totalMemoryMiB : ℚ) / 1024
      if info.totalMemoryGiB = 0 ∨ calculatedGiB > info.totalMemoryGiB then
        { info with totalMemoryGiB := calculatedGiB }
      else info
    else info

/-- The controller/drive loops of `collectStorage`: failed controller or
drive fetches are skipped; each drive is mapped to a `DriveInfo` and its
byte capacity accumulated. -/
def storageEntries
    (controllers : List (Except String (List (Except String DriveR)))) :
    List DriveInfo × Int :=
  controllers.foldl
    (fun (acc : List DriveInfo × Int) controller =>
      match controller with
      | .error _ => acc
      | .ok drives =>
        drives.foldl
          (fun (acc : List DriveInfo × Int) driveResp =>
            match driveResp with
            | .error _ => acc
            | .ok drive =>
              (acc.1 ++ [{ name := drive.name
                           model := drive.model
                           manufacturer := drive.manufacturer
                           serialNumber := drive.serialNumber
                           capacityGB := drive.CapacityGB
                           mediaType := drive.mediaType
                           protocol := drive.protocol
                           lifeLeftPct := drive.predictedMediaLifeLeftPercent
                           health := drive.status.health }],
               acc.2 + drive.capacityBytes))
          acc)
    ([], 0)

/-- `scanner.collectStorage`: non-fatal; stores the drives and their count
and, when bytes were accumulated, the total in binary terabytes. -/
def collectStorage
    (resp : Except String (List (Except String (List (Except String DriveR)))))
    (info : ServerInfo) : ServerInfo :=
  match resp with
  | .error _ => info
  | .ok controllers =>
    let entries := storageEntries controllers
    let info := { info with
      drives := entries.1
      driveCount := (entries.1.length : Int) }
    if entries.2 > 0 then
      { info with totalStorageTB := (entries.2 : ℚ) / 1024 / 1024 / 1024 / 1024 }
    else info

/-- `scanner.collectPowerInfo`: non-fatal; from the first power-control
entry, current and peak consumption when positive. -/
def collectPowerInfo (resp : Except String PowerR) (info : ServerInfo) :
    ServerInfo :=
  match resp with
  | .error _ => info
  | .ok power =>
    match power.powerControl with
    | [] => info
    | pc :: _ =>
      let info := if pc.powerConsumedWatts > 0
        then { info with powerConsumedWatts := pc.powerConsumedWatts }
        else info
      if pc.powerMetrics.maxConsumedWatts > 0
        then { info with powerPeakWatts := pc.powerMetrics.maxConsumedWatts }
        else info

/-- `scanner.scanServer`: one host scan against the responses the BMC
serves.  The system step is fatal and sets the record's error; every later
step logs its error and degrades (partial records are valid). -/
def scanServer (o : ScanOracle) (server : ServerConfig) (now : Nat) : ServerInfo :=
  let info := { ServerInfo.zero with
    host := server.host
    name := server.name
    collectedAt := now }
  match collectSystemInfo o.system info with
  | .error e => { info with error := some e }
  | .ok info1 =>
    collectPowerInfo o.power
      (collectStorage o.storage
        (collectMemory o.memory
          (collectProcessors o.processors info1)))

theorem collectProcessors_preserves (resp : Except String (List (Except String ProcessorR)))
    (info : ServerInfo) :
    (collectProcessors resp info).model = info.model ∧
    (collectProcessors resp info).error = info.error := by
  cases resp with
  | error e => exact ⟨rfl, rfl⟩
  | ok members =>
    refine ⟨?_, ?_⟩ <;>
    · simp only [collectProcessors]
      split
      · rfl
      · split <;> rfl

theorem collectMemory_preserves (resp : Except String (List (Except String MemoryR)))
    (info : ServerInfo) :
    (collectMemory resp info).model = info.model ∧
    (collectMemory resp info).error = info.error := by
  cases resp with
  | error e => exact ⟨rfl, rfl⟩
  | ok members =>
    refine ⟨?_, ?_⟩ <;>
    · simp only [collectMemory]
      split
      · split <;> split <;> rfl
      · split <;> rfl

theorem collectStorage_preserves
    (resp : Except String (List (Except String (List (Except String DriveR)))))
    (info : ServerInfo) :
    (collectStorage resp info).model = info.model ∧
    (collectStorage resp info).error = info.error := by
  cases resp with
  | error e => exact ⟨rfl, rfl⟩
  | ok controllers =>
    refine ⟨?_, ?_⟩ <;>
    · simp only [collectStorage]
      split <;> rfl

theorem collectPowerInfo_preserves (resp : Except String PowerR) (info : ServerInfo) :
    (collectPowerInfo resp info).model = info.model ∧
    (collectPowerInfo resp info).error = info.error := by
  cases resp with
  | error e => exact ⟨rfl, rfl⟩
  | ok power =>
    refine ⟨?_, ?_⟩ <;>
    · simp only [collectPowerInfo]
      split
      · rfl
      · split <;> split <;> rfl

theorem systemApply_fields (sys : SystemR) (info : ServerInfo) :
    (systemApply sys info).model = sys.model ∧
    (systemApply sys info).error = info.error := by
  refine ⟨?_, ?_⟩ <;>
  · simp only [systemApply]
    split
    · split <;> rfl
    · rfl

theorem collectSystemInfo_ok (sys : SystemR) (info : ServerInfo) :
    collectSystemInfo (.ok sys) info = .ok (systemApply sys info) := rfl

/-- **C8 (amended).** A scanned record's error is nil exactly when the
system resource was fetched and decoded, and in that case its model field
equals the `Model` string of the system resource (the later, non-fatal
steps never touch the model or error fields): the record's model is
non-empty whenever the BMC reports a non-empty model, but the scanner
never checks the string, so a successful record may carry an empty
model. -/
theorem scanServer_model_from_system (o : ScanOracle) (server : ServerConfig) (now : Nat) :
    ((scanServer o server now).error = none ↔ ∃ sys, o.system = .ok sys) ∧
    (∀ sys, o.system = .ok sys →
      (scanServer o server now).error = none ∧
      (scanServer o server now).model = sys.model ∧
      (sys.model ≠ "" → (scanServer o server now).model ≠ "")) := by
  cases hsys : o.system with
  | error e =>
    constructor
    · rw [scanServer, hsys]
      constructor
      · intro h; cases h
      · rintro ⟨sys, hs⟩; cases hs
    · intro sys hs
      exact absurd hs (by simp)
  | ok sys =>
    have hmain : (scanServer o server now).error = none ∧
        (scanServer o server now).model = sys.model := by
      rw [scanServer, hsys, collectSystemInfo_ok]
      constructor
      · rw [(collectPowerInfo_preserves _ _).2, (collectStorage_preserves _ _).2,
          (collectMemory_preserves _ _).2, (collectProcessors_preserves _ _).2,
          (systemApply_fields _ _).2]
        rfl
      · rw [(collectPowerInfo_preserves _ _).1, (collectStorage_preserves _ _).1,
          (collectMemory_preserves _ _).1, (collectProcessors_preserves _ _).1,
          (systemApply_fields _ _).1]
    refine ⟨⟨fun _ => ⟨sys, rfl⟩, fun _ => hmain.1⟩, ?_⟩
    rintro sys' hs'
    cases hs'
    exact ⟨hmain.1, hmain.2, fun hne => hmain.2 ▸ hne⟩

/-- A BMC whose system resource decodes but reports an empty `Model`
(everything else failing, which is non-fatal). -/
def oracleEmptyModel : ScanOracle :=
  { system := .ok
      { model := "", manufacturer := "", serialNumber := "", sku := ""
        biosVersion := "", hostName := "", powerState := ""
        processorSummary := { count := 0, model := "" }
        memorySummary := { totalSystemMemoryGiB := 0 }
        oemDellSystem := none }
    processors := .error "unreachable"
    memory := .error "unreachable"
    storage := .error "unreachable"
    power := .error "unreachable" }

/-- **C8 counterexample.** A BMC whose system resource decodes with an
empty `Model` yields a record with nil error and an empty model string,
contradicting `error == nil → model != ""`. -/
theorem scanServer_empty_model_counterexample :
    (scanServer oracleEmptyModel srvA 0).error = none ∧
    (scanServer oracleEmptyModel srvA 0).model = "" := ⟨rfl, rfl⟩

/-! ## C6 — `ParseIPRange` (`ExpandIPRanges` helper file, `part_004`).
The parsing front end is embedded character-for-character: Go strings
become `List Char`, `strings.TrimSpace` / `strings.Split` /
`strings.Contains` are translated directly, and `net.ParseIP`+`To4` on
dotted-quad spellings is `parseIP4`.  The expansion loop terminates in Go
only through its 10 000-address safety check (the loop index wraps past
255.255.255.255), so it is embedded with explicit fuel large enough that
the fuel-0 branch is unreachable. -/

/-- Go's `unicode.IsSpace` on the characters that occur in configuration
strings (ASCII whitespace plus NEL and NBSP; the remaining Unicode
space-category characters are irrelevant to the claims). -/
def goIsSpace (c : Char) : Bool :=
  c = ' ' ∨ c = '\t' ∨ c = '\n' ∨ c = '\r' ∨ c = '\x0b' ∨ c = '\x0c'
    ∨ c = '\u0085' ∨ c = '\u00A0'

/-- Leading whitespace removed (`strings.TrimSpace`, left side). -/
def trimLeftSpace (cs : List Char) : List Char := cs.dropWhile goIsSpace

/-- Trailing whitespace removed (`strings.TrimSpace`, right side). -/
def trimRightSpace (cs : List Char) : List Char :=
  (cs.reverse.dropWhile goIsSpace).reverse

/-- `strings.TrimSpace`. -/
def trimSpace (cs : List Char) : List Char := trimRightSpace (trimLeftSpace cs)

/-- `strings.Split(s, sep)` for a one-character separator. -/
def splitOnChar (sep : Char) : List Char → List (List Char)
  | [] => [[]]
  | c :: rest =>
    if c = sep then [] :: splitOnChar sep rest
    else
      match splitOnChar sep rest with
      | [] => [[c]]
      | p :: ps => (c :: p) :: ps

/-- `strings.Contains(s, "-")`. -/
def containsDash (cs : List Char) : Bool := cs.any (fun c => c = '-')

/-- An IPv4 address as its four bytes (`net.IP` after `To4()`). -/
structure IP4 where
  b0 : Fin 256
  b1 : Fin 256
  b2 : Fin 256
  b3 : Fin 256
deriving DecidableEq, Repr

/-- One dotted-decimal field of `net.ParseIP`: non-empty, all digits, no
leading zero (Go ≥ 1.17), value at most 255. -/
def parseByte (cs : List Char) : Option (Fin 256) :=
  if cs = [] then none
  else if ¬ cs.all (fun c => c.isDigit) then none
  else if cs.length > 1 ∧ cs.head? = some '0' then none
  else
    let v := cs.foldl (fun acc c => acc * 10 + (c.toNat - 48)) 0
    if h : v < 256 then some ⟨v, h⟩ else none

/-- `net.ParseIP` followed by `To4()`, on dotted-quad spellings.  Inputs
that are not a dotted quad — IPv6 literals included — yield `none`; in Go
an IPv6 literal may parse but then fails `To4()`, so `ParseIPRange`
rejects it the same way (the one divergence, IPv4-mapped IPv6 spellings,
is exercised by no claim). -/
def parseIP4 (cs : List Char) : Option IP4 :=
  match splitOnChar '.' cs with
  | [g0, g1, g2, g3] =>
    match parseByte g0, parseByte g1, parseByte g2, parseByte g3 with
    | some b0, some b1, some b2, some b3 => some ⟨b0, b1, b2, b3⟩
    | _, _, _, _ => none
  | _ => none

/-- `config.compareIPs`: byte-wise comparison, −1 / 0 / 1. -/
def compareIPs (a b : IP4) : Int :=
  if a.b0 < b.b0 then -1 else if b.b0 < a.b0 then 1
  else if a.b1 < b.b1 then -1 else if b.b1 < a.b1 then 1
  else if a.b2 < b.b2 then -1 else if b.b2 < a.b2 then 1
  else if a.b3 < b.b3 then -1 else if b.b3 < a.b3 then 1
  else 0

/-- A byte incremented with wraparound (`ip[i]++` on a Go byte). -/
def wrapInc (b : Fin 256) : Fin 256 := ⟨(b.val + 1) % 256, Nat.mod_lt _ (by omega)⟩

/-- `config.incrementIP`: increment the last byte; on wrap to zero carry
into the next byte, through all four. -/
def incrementIP (ip : IP4) : IP4 :=
  if ip.b3.val = 255 then
    if ip.b2.val = 255 then
      if ip.b1.val = 255 then
        { b0 := wrapInc ip.b0, b1 := 0, b2 := 0, b3 := 0 }
      else { ip with b1 := wrapInc ip.b1, b2 := 0, b3 := 0 }
    else { ip with b2 := wrapInc ip.b2, b3 := 0 }
  else { ip with b3 := wrapInc ip.b3 }

/-- The address as a number. -/
def ipNum (ip : IP4) : Nat :=
  ip.b0.val * 16777216 + ip.b1.val * 65536 + ip.b2.val * 256 + ip.b3.val

/-- The address of a number (inverse of `ipNum` below `2^32`). -/
def ipOfNum (n : Nat) : IP4 :=
  { b0 := ⟨n / 16777216 % 256, Nat.mod_lt _ (by omega)⟩
    b1 := ⟨n / 65536 % 256, Nat.mod_lt _ (by omega)⟩
    b2 := ⟨n / 256 % 256, Nat.mod_lt _ (by omega)⟩
    b3 := ⟨n % 256, Nat.mod_lt _ (by omega)⟩ }

/-- `net.IP.String()` on a 4-byte address: dotted decimal. -/
def ipToString (ip : IP4) : String :=
  toString ip.b0.val ++ "." ++ toString ip.b1.val ++ "."
    ++ toString ip.b2.val ++ "." ++ toString ip.b3.val

/-- The all-ones address `255.255.255.255`. -/
def maxIP : IP4 := { b0 := 255, b1 := 255, b2 := 255, b3 := 255 }

/-- The expansion loop of `config.ParseIPRange`:
`for ip := copyIP(start); compareIPs(ip, end) <= 0; incrementIP(ip)`
appending `ip.String()` and failing once more than 10 000 addresses have
been collected.  `rs` is the trimmed range string quoted in the error.
The loop appends one address per iteration and errors as soon as the
accumulator exceeds 10 000 entries, so at most `10001 - acc.length`
iterations happen: with the fuel `ParseIPRange` supplies, the fuel-0
branch is unreachable; it carries the same error value as the limit
check. -/
def expandFromFuel (rs : String) (endIP : IP4) :
    Nat → IP4 → List String → Except String (List String)
  | 0, _, _ => .error ("IP range too large (max 10000 IPs): " ++ rs)
  | fuel + 1, ip, acc =>
    if compareIPs ip endIP > 0 then .ok acc
    else if (acc ++ [ipToString ip]).length > 10000 then
      .error ("IP range too large (max 10000 IPs): " ++ rs)
    else expandFromFuel rs endIP fuel (incrementIP ip) (acc ++ [ipToString ip])

/-- `config.ParseIPRange`: parse `"a.b.c.d"` or `"a.b.c.d-e.f.g.h"`
(whitespace-trimmed, parts of a range trimmed again), validate both
endpoints as IPv4, require start ≤ end, and expand the range with the
10 000-address safety limit.  Error strings carry the offending input as
in the Go `fmt.Errorf` calls; the merged `net.ParseIP`/`To4` validation of
`parseIP4` reports a non-IPv4 endpoint with the invalid-address message
(see `parseIP4`). -/
def ParseIPRange (rangeStr : String) : Except String (List String) :=
  if ¬ containsDash (trimSpace rangeStr.data) then
    match parseIP4 (trimSpace rangeStr.data) with
    | none => .error ("invalid IP address: " ++ String.mk (trimSpace rangeStr.data))
    | some _ => .ok [String.mk (trimSpace rangeStr.data)]
  else
    match splitOnChar '-' (trimSpace rangeStr.data) with
    | [p0, p1] =>
      match parseIP4 (trimSpace p0) with
      | none => .error ("invalid start IP address: " ++ String.mk (trimSpace p0))
      | some start =>
        match parseIP4 (trimSpace p1) with
        | none => .error ("invalid end IP address: " ++ String.mk (trimSpace p1))
        | some endIP =>
          if compareIPs start endIP > 0 then
            .error ("start IP must be <= end IP: " ++ String.mk (trimSpace p0)
              ++ "-" ++ String.mk (trimSpace p1))
          else expandFromFuel (String.mk (trimSpace rangeStr.data)) endIP 10001 start []
    | _ => .error ("invalid IP range format (expected \x27start-end\x27): "
        ++ String.mk (trimSpace rangeStr.data))


theorem ipNum_lt (ip : IP4) : ipNum ip < 4294967296 := by
  have h0 := ip.b0.isLt
  have h1 := ip.b1.isLt
  have h2 := ip.b2.isLt
  have h3 := ip.b3.isLt
  simp only [ipNum]
  omega

theorem ipOfNum_ipNum (ip : IP4) : ipOfNum (ipNum ip) = ip := by
  have h0 := ip.b0.isLt
  have h1 := ip.b1.isLt
  have h2 := ip.b2.isLt
  have h3 := ip.b3.isLt
  cases ip
  simp only [ipOfNum, ipNum] at *
  congr 1 <;> (apply Fin.ext; simp only []; omega)

theorem ipNum_inj {a b : IP4} (h : ipNum a = ipNum b) : a = b := by
  rw [← ipOfNum_ipNum a, ← ipOfNum_ipNum b, h]

theorem compareIPs_pos_iff (a b : IP4) :
    (compareIPs a b > 0) ↔ ipNum b < ipNum a := by
  have h0 := a.b0.isLt
  have h1 := a.b1.isLt
  have h2 := a.b2.isLt
  have h3 := a.b3.isLt
  have k0 := b.b0.isLt
  have k1 := b.b1.isLt
  have k2 := b.b2.isLt
  have k3 := b.b3.isLt
  simp only [compareIPs, ipNum, Fin.lt_def]
  split_ifs <;> omega

theorem ipNum_maxIP : ipNum maxIP = 4294967295 := rfl

theorem incrementIP_num {ip : IP4} (h : ip ≠ maxIP) :
    ipNum (incrementIP ip) = ipNum ip + 1 := by
  have h0 := ip.b0.isLt
  have h1 := ip.b1.isLt
  have h2 := ip.b2.isLt
  have h3 := ip.b3.isLt
  have hne : ¬ (ip.b0.val = 255 ∧ ip.b1.val = 255 ∧ ip.b2.val = 255 ∧ ip.b3.val = 255) := by
    intro ⟨e0, e1, e2, e3⟩
    refine h ?_
    cases ip
    simp only [maxIP]
    congr 1 <;> exact Fin.ext (by assumption)
  simp only [incrementIP, ipNum, wrapInc]
  split_ifs <;> simp only [Fin.val_zero] <;> omega

theorem compareIPs_le_max (ip : IP4) : ¬ compareIPs ip maxIP > 0 := by
  rw [compareIPs_pos_iff, ipNum_maxIP]
  have := ipNum_lt ip
  omega

theorem expandFromFuel_max (rs : String) (f : Nat) :
    ∀ (ip : IP4) (acc : List String),
    expandFromFuel rs maxIP f ip acc =
      .error ("IP range too large (max 10000 IPs): " ++ rs) := by
  induction f with
  | zero => intro ip acc; rfl
  | succ f ih =>
    intro ip acc
    simp only [expandFromFuel]
    rw [if_neg (compareIPs_le_max ip)]
    split_ifs with h
    · rfl
    · exact ih (incrementIP ip) (acc ++ [ipToString ip])

theorem expandFromFuel_toolarge (rs : String) (f : Nat) :
    ∀ (ip b : IP4) (acc : List String) (N : Nat),
    ipNum ip + N = ipNum b → 10000 < acc.length + N + 1 →
    expandFromFuel rs b f ip acc =
      .error ("IP range too large (max 10000 IPs): " ++ rs) := by
  induction f with
  | zero => intro ip b acc N _ _; rfl
  | succ f ih =>
    intro ip b acc N hN hbig
    have hle : ¬ compareIPs ip b > 0 := by rw [compareIPs_pos_iff]; omega
    simp only [expandFromFuel]
    rw [if_neg hle]
    split_ifs with h
    · rfl
    · simp only [List.length_append, List.length_singleton] at h
      have hN1 : 1 ≤ N := by omega
      have hip : ip ≠ maxIP := by
        intro he
        have := ipNum_lt b
        rw [he, ipNum_maxIP] at hN
        omega
      refine ih (incrementIP ip) b (acc ++ [ipToString ip]) (N - 1) ?_ ?_
      · rw [incrementIP_num hip]; omega
      · simp only [List.length_append, List.length_singleton]; omega

theorem cons_map_range (α : Type) (g : Nat → α) (n k : Nat) :
    g k :: (List.range n).map (fun i => g (k + 1 + i)) =
      (List.range (n + 1)).map (fun i => g (k + i)) := by
  rw [List.range_succ_eq_map, List.map_cons, List.map_map]
  congr 1
  congr 1
  funext i
  simp only [Function.comp_apply]
  congr 1
  omega

theorem expandFromFuel_ok (rs : String) :
    ∀ (N f : Nat) (ip b : IP4) (acc : List String),
    ipNum ip + N = ipNum b → b ≠ maxIP → acc.length + N + 1 ≤ 10000 → N + 2 ≤ f →
    expandFromFuel rs b f ip acc =
      .ok (acc ++ (List.range (N + 1)).map (fun i => ipToString (ipOfNum (ipNum ip + i)))) := by
  intro N
  induction N with
  | zero =>
    intro f ip b acc hN hmax hlen hf
    obtain ⟨f, rfl⟩ : ∃ g, f = g + 2 := ⟨f - 2, by omega⟩
    have hipb : ip = b := ipNum_inj (by omega)
    subst hipb
    have hle : ¬ compareIPs ip ip > 0 := by rw [compareIPs_pos_iff]; omega
    have hlen1 : ¬ (acc ++ [ipToString ip]).length > 10000 := by
      simp only [List.length_append, List.length_singleton]; omega
    have hgt : compareIPs (incrementIP ip) ip > 0 := by
      rw [compareIPs_pos_iff, incrementIP_num hmax]; omega
    simp only [expandFromFuel]
    rw [if_neg hle, if_neg hlen1, if_pos hgt]
    have h1 : List.range (0 + 1) = [0] := rfl
    rw [h1]
    simp only [List.map_cons, List.map_nil, Nat.add_zero, ipOfNum_ipNum]
  | succ N ih =>
    intro f ip b acc hN hmax hlen hf
    obtain ⟨f, rfl⟩ : ∃ g, f = g + 1 := ⟨f - 1, by omega⟩
    have hle : ¬ compareIPs ip b > 0 := by rw [compareIPs_pos_iff]; omega
    have hlen1 : ¬ (acc ++ [ipToString ip]).length > 10000 := by
      simp only [List.length_append, List.length_singleton]; omega
    have hip : ip ≠ maxIP := by
      intro he
      have := ipNum_lt b
      rw [he, ipNum_maxIP] at hN
      omega
    have harg1 : ipNum (incrementIP ip) + N = ipNum b := by
      rw [incrementIP_num hip]; omega
    have harg2 : (acc ++ [ipToString ip]).length + N + 1 ≤ 10000 := by
      simp only [List.length_append, List.length_singleton]; omega
    have hrec := ih f (incrementIP ip) b (acc ++ [ipToString ip]) harg1 hmax harg2 (by omega)
    simp only [expandFromFuel]
    rw [if_neg hle, if_neg hlen1, hrec]
    congr 1
    rw [List.append_assoc, List.singleton_append]
    congr 1
    rw [incrementIP_num hip]
    conv_lhs =>
      rw [show ipToString ip = ipToString (ipOfNum (ipNum ip)) from by rw [ipOfNum_ipNum]]
    exact cons_map_range String (fun m => ipToString (ipOfNum m)) (N + 1) (ipNum ip)

/-- **C6** (corrected).  For a dash-containing range string, `ParseIPRange`
rejects inputs that do not split into exactly two parts, rejects an
unparsable start or end address, rejects start > end, and otherwise runs
the bounded expansion loop: the full inclusive expansion is returned
exactly when the range holds at most 10 000 addresses AND the end address
is not 255.255.255.255; a range of more than 10 000 addresses is rejected
with the range-too-large error, and — the correction — a range ending at
255.255.255.255 is always rejected with that same error no matter its
size, because `incrementIP` wraps past the end address. -/
theorem parseIPRange_characterization (s : String)
    (hdash : containsDash (trimSpace s.data) = true) :
    (∀ ps, splitOnChar '-' (trimSpace s.data) = ps → ps.length ≠ 2 →
      ParseIPRange s = .error ("invalid IP range format (expected \x27start-end\x27): "
        ++ String.mk (trimSpace s.data))) ∧
    (∀ p0 p1, splitOnChar '-' (trimSpace s.data) = [p0, p1] →
      (parseIP4 (trimSpace p0) = none →
        ParseIPRange s = .error ("invalid start IP address: " ++ String.mk (trimSpace p0))) ∧
      (∀ a, parseIP4 (trimSpace p0) = some a → parseIP4 (trimSpace p1) = none →
        ParseIPRange s = .error ("invalid end IP address: " ++ String.mk (trimSpace p1))) ∧
      (∀ a b, parseIP4 (trimSpace p0) = some a → parseIP4 (trimSpace p1) = some b →
        (ipNum b < ipNum a →
          ParseIPRange s = .error ("start IP must be <= end IP: "
            ++ String.mk (trimSpace p0) ++ "-" ++ String.mk (trimSpace p1))) ∧
        (ipNum a ≤ ipNum b → b = maxIP →
          ParseIPRange s = .error ("IP range too large (max 10000 IPs): "
            ++ String.mk (trimSpace s.data))) ∧
        (ipNum a ≤ ipNum b → b ≠ maxIP → ipNum b - ipNum a + 1 ≤ 10000 →
          ParseIPRange s = .ok ((List.range (ipNum b - ipNum a + 1)).map
            (fun i => ipToString (ipOfNum (ipNum a + i))))) ∧
        (ipNum a ≤ ipNum b → 10000 < ipNum b - ipNum a + 1 →
          ParseIPRange s = .error ("IP range too large (max 10000 IPs): "
            ++ String.mk (trimSpace s.data))))) := by
  constructor
  · intro ps hps hlen
    rcases ps with _ | ⟨c0, _ | ⟨c1, _ | ⟨c2, t⟩⟩⟩
    · simp only [ParseIPRange, hdash, hps, eq_self_iff_true, not_true, if_false]
    · simp only [ParseIPRange, hdash, hps, eq_self_iff_true, not_true, if_false]
    · exact absurd rfl hlen
    · simp only [ParseIPRange, hdash, hps, eq_self_iff_true, not_true, if_false]
  · intro p0 p1 hps
    refine ⟨?_, ?_, ?_⟩
    · intro h0
      simp only [ParseIPRange, hdash, hps, h0, eq_self_iff_true, not_true, if_false]
    · intro a ha hb
      simp only [ParseIPRange, hdash, hps, ha, hb, eq_self_iff_true, not_true, if_false]
    · intro a b ha hb
      have hred : ParseIPRange s =
          if compareIPs a b > 0 then
            .error ("start IP must be <= end IP: " ++ String.mk (trimSpace p0)
              ++ "-" ++ String.mk (trimSpace p1))
          else expandFromFuel (String.mk (trimSpace s.data)) b 10001 a [] := by
        simp only [ParseIPRange, hdash, hps, ha, hb, eq_self_iff_true, not_true, if_false]
      refine ⟨?_, ?_, ?_, ?_⟩
      · intro hlt
        have hgt : compareIPs a b > 0 := by rw [compareIPs_pos_iff]; omega
        rw [hred, if_pos hgt]
      · intro hab hbmax
        subst hbmax
        rw [hred, if_neg (compareIPs_le_max a), expandFromFuel_max]
      · intro hab hbmax hsize
        have hle : ¬ compareIPs a b > 0 := by rw [compareIPs_pos_iff]; omega
        rw [hred, if_neg hle,
          expandFromFuel_ok (String.mk (trimSpace s.data)) (ipNum b - ipNum a) 10001 a b []
            (by omega) hbmax (by simp only [List.length_nil]; omega) (by omega),
          List.nil_append]
      · intro hab hbig
        have hle : ¬ compareIPs a b > 0 := by rw [compareIPs_pos_iff]; omega
        rw [hred, if_neg hle,
          expandFromFuel_toolarge (String.mk (trimSpace s.data)) 10001 a b []
            (ipNum b - ipNum a) (by omega) (by simp only [List.length_nil]; omega)]

set_option maxHeartbeats 2000000 in
set_option maxRecDepth 8000 in
/-- **C6** (counterexample): the one-address range
`"255.255.255.255-255.255.255.255"` is well under the 10 000-address limit
— and the same address parses fine as a single IP — yet `ParseIPRange`
rejects it with the range-too-large error: `incrementIP` wraps
255.255.255.255 to 0.0.0.0, so the loop condition `ip ≤ end` never fails
and the accumulator overflows the limit. -/
theorem parseIPRange_wrap_counterexample :
    ParseIPRange "255.255.255.255" = .ok ["255.255.255.255"] ∧
    ParseIPRange "255.255.255.255-255.255.255.255" =
      .error "IP range too large (max 10000 IPs): 255.255.255.255-255.255.255.255" := by
  constructor
  · rfl
  · have h1 : containsDash (trimSpace ("255.255.255.255-255.255.255.255" : String).data)
        = true := rfl
    have h2 : splitOnChar '-' (trimSpace ("255.255.255.255-255.255.255.255" : String).data)
        = ["255.255.255.255".data, "255.255.255.255".data] := rfl
    have h3 : parseIP4 (trimSpace ("255.255.255.255" : String).data) = some maxIP := rfl
    simp only [ParseIPRange, h1, h2, h3, eq_self_iff_true, not_true, if_false]
    rw [if_neg (compareIPs_le_max maxIP), expandFromFuel_max]
    rfl

/-- `parseIPRange_characterization` applied to the concrete range
`"1.2.3.4 - 1.2.3.6"` (three addresses, parts trimmed). -/
theorem parseIPRange_characterization_witness :
    ParseIPRange "1.2.3.4 - 1.2.3.6" = .ok ["1.2.3.4", "1.2.3.5", "1.2.3.6"] := by
  have h := ((parseIPRange_characterization "1.2.3.4 - 1.2.3.6" rfl).2
      "1.2.3.4 ".data " 1.2.3.6".data rfl).2.2 ⟨1, 2, 3, 4⟩ ⟨1, 2, 3, 6⟩ rfl rfl
  have h2 := h.2.2.1 (by decide) (by decide) (by decide)
  rw [h2]
  rfl
